import Mathlib

/-! Popcorn page prefetch: ownership index, fault table and remote fetch protocol.

A shallow embedding of `kernel/popcorn/page_prefetch.c`, with the reference
counting helpers and the registration of inbound contexts of
`kernel/popcorn/process_server.c` and the callback table of `pcn_kmsg.c`.

Conventions of the embedding.

* The kernel state one call can touch is the record `State`.  The process is
  distributed (`mm->remote` is set) and there is one `remote_context`; it is the
  context of `mm`, of `current` and of every fault handle (`fh->rc`).
* Pointers to `struct fault_handle` are natural numbers, `0` is `NULL`.  The
  slab cache is the partial map `State.heap`; `kmem_cache_alloc` hands out
  `State.next_fh`.  An `hlist` bucket is the list of the pointers linked in it,
  head first.
* A region of the ownership index (one zeroed page of `unsigned long`) is the
  natural number whose binary digits are the bits of the page; word `w`, bit `b`
  is digit `64 * w + b`.
* Spin locks: what other actors hold is an input (`ptl_busy`, `faults_busy`);
  what the modelled call acquires and releases is appended to `State.trace`.
* Undefined behaviour and `BUG()` are the result `none`.
-/

namespace Popcorn

/-- Constants that the sources use but that are defined in headers outside the
source tree at hand; they are parameters of the development. -/
structure Params where
  PAGE_SHIFT : Nat
  FAULTS_HASH : Nat
  MAX_POPCORN_NODES : Nat
  my_nid : Nat

def PREFETCH_FAIL : Nat := 0x0001
def PREFETCH_SUCCESS : Nat := 0x0002
def PREFETCH_CONCURRENCY : Nat := 0x0004

def BITS_PER_LONG : Nat := 64
def PI_FLAG_DISTRIBUTED : Nat := 63

def PAGE_SIZE (P : Params) : Nat := 1 <<< P.PAGE_SHIFT

def BITS_TO_LONGS (n : Nat) : Nat := (n + BITS_PER_LONG - 1) / BITS_PER_LONG

/-- The size of `unsigned long` in bytes. -/
def SIZEOF_LONG : Nat := 8

def PER_PAGE_INFO_SIZE (P : Params) : Nat :=
  SIZEOF_LONG * BITS_TO_LONGS P.MAX_POPCORN_NODES

def PAGE_INFO_PER_REGION (P : Params) : Nat := PAGE_SIZE P / PER_PAGE_INFO_SIZE P

/-- The fields of `struct fault_handle` other than its list linkage, its two wait
queues and `rc` (there is one context). -/
structure fault_handle where
  addr : Nat
  flags : Nat
  limit : Nat
  pid : Nat
  ret : Int
  pendings : Int
  pendings_retry : Int
  complete : Option Nat
  deriving DecidableEq, Repr

structure vm_area_struct where
  vm_start : Nat
  vm_end : Nat
  deriving DecidableEq, Repr

/-- A page-table entry: the normal page frame it maps, and its valid, write and
dirty bits. -/
structure pte_t where
  pfn : Option Nat
  valid : Bool
  write : Bool
  dirty : Bool
  deriving DecidableEq, Repr

/-- One slot of a `struct prefetch_list`. -/
structure prefetch_body where
  addr : Nat
  fh : Nat
  deriving DecidableEq, Repr

/-- The size handed to `pcn_kmsg_post`. -/
inductive res_size_t where
  | remote_prefetch_fail_t
  | remote_prefetch_response_t
  deriving DecidableEq, Repr

/-- The message `remote_prefetch_response_t`; `res_size` is how much of it is sent. -/
structure remote_prefetch_response_t where
  addr : Nat
  result : Nat
  fh : Nat
  remote_pid : Nat
  origin_pid : Nat
  page : Nat
  deriving DecidableEq, Repr

/-- The message `remote_page_request_t`, with the node it came from. -/
structure remote_page_request_t where
  from_nid : Nat
  remote_pid : Nat
  origin_pid : Nat
  pf_list : List prefetch_body
  deriving DecidableEq, Repr

inductive Lock where
  | ptl (addr : Nat)
  | faults_lock (fk : Nat)
  deriving DecidableEq, Repr

/-- What a call does to the world outside `State`'s data: lock operations,
wake-ups, frees and posted messages, in program order. -/
inductive Event where
  | lock (l : Lock)
  | unlock (l : Lock)
  | wake_up_all_waits (fh : Nat)
  | wake_up_all_waits_retry (fh : Nat)
  | complete (c : Nat)
  | kmem_cache_free (fh : Nat)
  | finish_fault_handling (fh : Nat)
  | kfree_prefetch_list (input : Bool)
  | pcn_kmsg_post (to_nid : Nat) (res : remote_prefetch_response_t) (size : res_size_t)
  deriving DecidableEq, Repr

structure State where
  /-- Whether `__get_task_struct(pid)` finds a task. -/
  tasks : Nat → Bool
  /-- The field `current->pid`. -/
  current_pid : Nat
  /-- The list `mm->mmap`, sorted by address. -/
  mmap : List vm_area_struct
  /-- Page number to page-table slot; `none` when the pgd, pud or pmd is missing. -/
  pgtable : Nat → Option pte_t
  /-- Whether another actor holds the page-table lock covering an address. -/
  ptl_busy : Nat → Bool
  /-- Contents of page frames. -/
  mem : Nat → Nat
  /-- The next page frame of the page allocator. -/
  next_pfn : Nat
  /-- The counter `rc->count`. -/
  count : Int
  /-- The hash table `rc->faults`. -/
  faults : Nat → List Nat
  /-- Whether another actor holds `rc->faults_lock[fk]`. -/
  faults_busy : Nat → Bool
  /-- The radix tree `rc->pages`: region key to region. -/
  pages : Nat → Option Nat
  /-- Whether `rc` is on the `remote_contexts` list. -/
  rc_linked : Bool
  /-- Whether `rc` has been freed. -/
  rc_freed : Bool
  /-- The fault handle cache. -/
  heap : Nat → Option fault_handle
  /-- The next object of the fault handle cache. -/
  next_fh : Nat
  trace : List Event

def State.log (s : State) (e : Event) : State :=
  { s with trace := s.trace ++ [e] }

/-! ## Ownership index -/

def __fault_hash_key (P : Params) (address : Nat) : Nat :=
  (address >>> P.PAGE_SHIFT) % P.FAULTS_HASH

/-- The pair `(key, offset)` written by `__get_page_info_key`. -/
def __get_page_info_key (P : Params) (addr : Nat) : Nat × Nat :=
  let paddr := addr >>> P.PAGE_SHIFT
  (paddr / PAGE_INFO_PER_REGION P,
   (paddr % PAGE_INFO_PER_REGION P) * (PER_PAGE_INFO_SIZE P / SIZEOF_LONG))

/-- The kernel bit operation: sets bit `nr` of the bitmap starting at word `offset`. -/
def set_bit (nr : Nat) (region offset : Nat) : Nat :=
  region ||| (1 <<< (BITS_PER_LONG * offset + nr))

def test_bit (nr : Nat) (region offset : Nat) : Bool :=
  region.testBit (BITS_PER_LONG * offset + nr)

/-- The pointer `region + offset`, as the region's key and the word offset;
`none` is `NULL`. -/
def __get_page_info (P : Params) (s : State) (addr : Nat) : Option (Nat × Nat) :=
  let ko := __get_page_info_key P addr
  match s.pages ko.1 with
  | none => none
  | some _ => some (ko.1, ko.2)

/-- The word-aligned bitmap a page-info pointer points at. -/
def page_info_bits (s : State) (pi : Nat × Nat) : Nat × Nat :=
  ((s.pages pi.1).getD 0, pi.2)

/-- Fails (a `NULL` dereference in `set_bit`) when the region is not allocated. -/
def set_page_owner (P : Params) (nid : Nat) (s : State) (addr : Nat) : Option State :=
  match __get_page_info P s addr with
  | none => none
  | some pi =>
    some { s with pages :=
      Function.update s.pages pi.1 (some (set_bit nid (page_info_bits s pi).1 pi.2)) }

def page_is_mine (P : Params) (s : State) (addr : Nat) : Bool :=
  match __get_page_info P s addr with
  | none => true
  | some pi =>
    if !test_bit PI_FLAG_DISTRIBUTED (page_info_bits s pi).1 pi.2 then true
    else test_bit P.my_nid (page_info_bits s pi).1 pi.2

/-- Returns the region and the state in which it is allocated (zero-filled on
first touch). -/
def __lookup_region (s : State) (key : Nat) : Nat × State :=
  match s.pages key with
  | some region => (region, s)
  | none => (0, { s with pages := Function.update s.pages key (some 0) })

def SetPageDistributed (P : Params) (s : State) (addr : Nat) : State :=
  let ko := __get_page_info_key P addr
  let rs := __lookup_region s ko.1
  { rs.2 with pages :=
      Function.update rs.2.pages ko.1 (some (set_bit PI_FLAG_DISTRIBUTED rs.1 ko.2)) }

/-! ## Reference counting of the context (`process_server.c`) -/

def get_task_remote (s : State) : State :=
  { s with count := s.count + 1 }

/-- Modelled from the spec: `free_remote_context_pages`, which is not in the
source tree at hand, frees the ownership regions of the context. -/
def free_remote_context_pages (s : State) : State :=
  { s with pages := fun _ => none }

def __put_task_remote (s : State) : Bool × State :=
  let s1 := { s with count := s.count - 1 }
  if s1.count ≠ (0 : Int) then (false, s1)
  else
    let s2 := { s1 with rc_linked := false }
    let s3 := free_remote_context_pages s2
    (true, { s3 with rc_freed := true })

/-! ## Fault table -/

/-- The loop `hlist_for_each_entry(fh, &rc->faults[fk], list)` that looks for a
handle of `addr`: the first such handle of the bucket, if any. -/
def find_fault_handle (s : State) (fk addr : Nat) : Option Nat :=
  (s.faults fk).find? fun p =>
    match s.heap p with
    | some h => decide (h.addr = addr)
    | none => false

/-- Returns the new handle and the state it is linked in. -/
def __alloc_fault_handle (P : Params) (s : State) (addr : Nat) : Nat × State :=
  let fh := s.next_fh
  let fk := __fault_hash_key P addr
  let s1 := { s with next_fh := s.next_fh + 1 }
  let s2 := get_task_remote s1
  let h : fault_handle :=
    { addr := addr, flags := 0, limit := 0, pid := s.current_pid, ret := 0,
      pendings := 1, pendings_retry := 0, complete := none }
  (fh, { s2 with heap := Function.update s2.heap fh (some h),
                 faults := Function.update s2.faults fk (fh :: s2.faults fk) })

/-- The call `hlist_del(&fh->list)`: the node leaves the list it is on. -/
def hlist_del (s : State) (fh : Nat) : State :=
  { s with faults := fun k => (s.faults k).erase fh }

/-- Fails when `fh` is not a live handle.  The wake-up is `wake_up_all`, as
without `CONFIG_POPCORN_DEBUG_PAGE_SERVER`. -/
def __finish_fault_handling (P : Params) (s : State) (fh : Nat) : Option (Bool × State) :=
  match s.heap fh with
  | none => none
  | some h =>
    let fk := __fault_hash_key P h.addr
    let s0 := (s.log (Event.finish_fault_handling fh)).log (Event.lock (Lock.faults_lock fk))
    let h1 : fault_handle := { h with pendings := h.pendings - 1 }
    let s1 := { s0 with heap := Function.update s0.heap fh (some h1) }
    if h1.pendings ≠ (0 : Int) then
      some (false, (s1.log (Event.wake_up_all_waits fh)).log (Event.unlock (Lock.faults_lock fk)))
    else
      match h1.complete with
      | some c =>
        some (false, (s1.log (Event.complete c)).log (Event.unlock (Lock.faults_lock fk)))
      | none =>
        let s2 := (hlist_del s1 fh).log (Event.unlock (Lock.faults_lock fk))
        let s3 := (__put_task_remote s2).2
        if h1.pendings_retry ≠ (0 : Int) then
          some (true, s3.log (Event.wake_up_all_waits_retry fh))
        else
          some (true, { s3.log (Event.kmem_cache_free fh) with
                          heap := Function.update s3.heap fh none })

/-! ## Page tables -/

/-- The kernel's lookup: the first area that ends above `addr`. -/
def find_vma (s : State) (addr : Nat) : Option vm_area_struct :=
  s.mmap.find? fun v => decide (addr < v.vm_end)

/-- The test `!vma || vma->vm_start > addr` of the callers of `find_vma`. -/
def no_vma (s : State) (addr : Nat) : Bool :=
  match find_vma s addr with
  | none => true
  | some v => decide (v.vm_start > addr)

/-- The entry `*pte`, or `none` for the `NULL` returned when an upper level is
missing (in which case `*ptlp` is not written). -/
def __get_pte_at (P : Params) (s : State) (addr : Nat) : Option pte_t :=
  s.pgtable (addr >>> P.PAGE_SHIFT)

def pte_zero : pte_t := { pfn := none, valid := false, write := false, dirty := false }

def pte_none (e : pte_t) : Bool := decide (e = pte_zero)

def vm_normal_page (e : pte_t) : Option Nat := e.pfn

def pte_make_valid (e : pte_t) : pte_t := { e with valid := true }
def pte_mkwrite (e : pte_t) : pte_t := { e with write := true }
def pte_mkdirty (e : pte_t) : pte_t := { e with dirty := true }
def pte_wrprotect (e : pte_t) : pte_t := { e with write := false }

def set_pte_at_notify (P : Params) (s : State) (addr : Nat) (e : pte_t) : State :=
  { s with pgtable := Function.update s.pgtable (addr >>> P.PAGE_SHIFT) (some e) }

/-- The flag `FAULT_FLAG_WRITE`. -/
def fault_for_write (fault_flags : Nat) : Bool := decide (fault_flags &&& 0x01 ≠ 0)

/-- Fails only through `set_page_owner`. -/
def __make_pte_valid (P : Params) (s : State) (addr fault_flags : Nat) (old : pte_t) :
    Option State :=
  let entry := pte_make_valid old
  let entry := if fault_for_write fault_flags then pte_mkdirty (pte_mkwrite entry)
               else pte_wrprotect entry
  let s1 := set_pte_at_notify P s addr entry
  let s2 := SetPageDistributed P s1 addr
  set_page_owner P P.my_nid s2 addr

/-- The call `do_set_pte(vma, addr, page, pte, false, true)`: a read-only
mapping of `page`. -/
def do_set_pte (P : Params) (s : State) (addr page : Nat) : State :=
  set_pte_at_notify P s addr { pfn := some page, valid := true, write := false, dirty := false }

/-! ## Selection of the pages to prefetch -/

/-- The list `kzalloc` returns: every slot zero. -/
def alloc_prefetch_list : Nat → prefetch_body := fun _ => { addr := 0, fh := 0 }

def add_pf_list_at (pf_list : Nat → prefetch_body) (addr fh slot_num : Nat) :
    Nat → prefetch_body :=
  Function.update pf_list slot_num { addr := addr, fh := fh }

/-- One round of the `while` loop of `select_prefetch_pages` on the candidate
`addr`; the state carries `new_pf_list` and `slot` along. -/
def select_prefetch_pages_step (P : Params) (addr : Nat)
    (c : State × (Nat → prefetch_body) × Nat) : State × (Nat → prefetch_body) × Nat :=
  let s := c.1
  if no_vma s addr then c
  else
    match __get_pte_at P s addr with
    | none => c
    | some _ =>
      if s.ptl_busy addr then c
      else
        let s1 := s.log (Event.lock (Lock.ptl addr))
        let s2 := get_task_remote s1
        let fk := __fault_hash_key P addr
        if s2.faults_busy fk then
          (s2.log (Event.unlock (Lock.ptl addr)), c.2.1, c.2.2)
        else
          let s3 := (s2.log (Event.lock (Lock.faults_lock fk))).log (Event.unlock (Lock.ptl addr))
          let found := (find_fault_handle s3 fk addr).isSome
          if !found && !page_is_mine P s3 addr then
            let a := __alloc_fault_handle P s3 addr
            (a.2.log (Event.unlock (Lock.faults_lock fk)),
             add_pf_list_at c.2.1 addr a.1 c.2.2, c.2.2 + 1)
          else
            (s3.log (Event.unlock (Lock.faults_lock fk)), c.2.1, c.2.2)

/-- The `while (list_ptr->addr)` loop; running off the end of the list without
meeting the zero address is an out-of-bounds read. -/
def select_prefetch_pages_loop (P : Params) :
    List prefetch_body → State × (Nat → prefetch_body) × Nat →
      Option (State × (Nat → prefetch_body) × Nat)
  | [], _ => none
  | e :: rest, c =>
    if e.addr = 0 then some c
    else select_prefetch_pages_loop P rest (select_prefetch_pages_step P e.addr c)

/-- The result is the returned list (`none` for the null pointer) and the state. -/
def select_prefetch_pages (P : Params) (s : State) (pf_list : List prefetch_body) :
    Option (Option (Nat → prefetch_body) × State) :=
  match pf_list with
  | [] => none
  | e :: _ =>
    if e.addr = 0 then
      some (none, s.log (Event.kfree_prefetch_list true))
    else
      match select_prefetch_pages_loop P pf_list (s, alloc_prefetch_list, 0) with
      | none => none
      | some c =>
        let s1 := c.1.log (Event.kfree_prefetch_list true)
        if c.2.2 = 0 then some (none, s1.log (Event.kfree_prefetch_list false))
        else some (some c.2.1, s1)

/-! ## Remote fetch protocol: the owner -/

def ptep_clear_flush (P : Params) (s : State) (addr : Nat) (old : pte_t) : pte_t × State :=
  (old, set_pte_at_notify P s addr pte_zero)

/-- Modelled from the spec: `get_normal_page` and `copy_from_user_page`, which
are not in the source tree at hand, copy the bytes of the page mapped at the
address into the reply payload. -/
def copy_page_to_msg (s : State) (e : pte_t) : Nat :=
  match vm_normal_page e with
  | some page => s.mem page
  | none => 0

/-- The chain of tests on `found` and `page_is_mine` in `prefetch_at_origin`:
the result code, the size of the reply and `leader`; `none` is `BUG()`. -/
def prefetch_at_origin_decide (found mine : Bool) : Option (Nat × res_size_t × Bool) :=
  if found then some (PREFETCH_FAIL, res_size_t.remote_prefetch_fail_t, false)
  else if !found && mine then
    some (PREFETCH_SUCCESS, res_size_t.remote_prefetch_response_t, true)
  else if !found && !mine then some (PREFETCH_FAIL, res_size_t.remote_prefetch_fail_t, false)
  else none

/-- The block `if (leader) { ... }`: the hand-off under the page-table lock and
the copy of the page; returns the payload. -/
def prefetch_at_origin_leader (P : Params) (from_nid addr : Nat) (pte : pte_t) (s : State) :
    Option (Nat × State) :=
  let s1 := s.log (Event.lock (Lock.ptl addr))
  let s2 := SetPageDistributed P s1 addr
  match set_page_owner P from_nid s2 addr with
  | none => none
  | some s3 =>
    let cf := ptep_clear_flush P s3 addr pte
    let entry := pte_wrprotect (pte_make_valid cf.1)
    match set_page_owner P P.my_nid cf.2 addr with
    | none => none
    | some s4 =>
      let s5 := set_pte_at_notify P s4 addr entry
      let s6 := s5.log (Event.unlock (Lock.ptl addr))
      some (copy_page_to_msg s6 entry, s6)

/-- The reply as it is filled in from the label `out` on. -/
def prefetch_at_origin_reply (req : remote_page_request_t) (e : prefetch_body)
    (result page : Nat) : remote_prefetch_response_t :=
  { addr := e.addr, result := result, fh := e.fh, remote_pid := req.remote_pid,
    origin_pid := req.origin_pid, page := page }

/-- The tail of a round, from the label `out`: fill in and post the reply. -/
def prefetch_at_origin_post (req : remote_page_request_t) (e : prefetch_body)
    (result page : Nat) (size : res_size_t) (s : State) : State :=
  s.log (Event.pcn_kmsg_post req.from_nid (prefetch_at_origin_reply req e result page) size)

/-- One round of the `while` loop of `prefetch_at_origin` on the slot `e`.  When
`__get_pte_at` returns `NULL` the lock pointer `ptl` is used uninitialised:
undefined behaviour. -/
def prefetch_at_origin_step (P : Params) (req : remote_page_request_t) (e : prefetch_body)
    (s : State) : Option State :=
  let addr := e.addr
  let fail := res_size_t.remote_prefetch_fail_t
  if no_vma s addr then some (prefetch_at_origin_post req e PREFETCH_FAIL 0 fail s)
  else
    match __get_pte_at P s addr with
    | none => none
    | some pte =>
      if s.ptl_busy addr then some (prefetch_at_origin_post req e PREFETCH_FAIL 0 fail s)
      else
        let s1 := s.log (Event.lock (Lock.ptl addr))
        let fk := __fault_hash_key P addr
        if s1.faults_busy fk then
          some (prefetch_at_origin_post req e PREFETCH_FAIL 0 fail
            (s1.log (Event.unlock (Lock.ptl addr))))
        else
          let s2 := (s1.log (Event.lock (Lock.faults_lock fk))).log (Event.unlock (Lock.ptl addr))
          let found := (find_fault_handle s2 fk addr).isSome
          match prefetch_at_origin_decide found (page_is_mine P s2 addr) with
          | none => none
          | some (result, size, leader) =>
            if leader then
              match prefetch_at_origin_leader P req.from_nid addr pte s2 with
              | none => none
              | some (page, s3) =>
                some (prefetch_at_origin_post req e result page size
                  (s3.log (Event.unlock (Lock.faults_lock fk))))
            else
              some (prefetch_at_origin_post req e result 0 size
                (s2.log (Event.unlock (Lock.faults_lock fk))))

/-- The `while (list_ptr->addr)` loop of `prefetch_at_origin`. -/
def prefetch_at_origin_loop (P : Params) (req : remote_page_request_t) :
    List prefetch_body → State → Option State
  | [], _ => none
  | e :: rest, s =>
    if e.addr = 0 then some s
    else
      match prefetch_at_origin_step P req e s with
      | none => none
      | some s1 => prefetch_at_origin_loop P req rest s1

/-- The result is the returned `int` and the state. -/
def prefetch_at_origin (P : Params) (s : State) (req : remote_page_request_t) :
    Option (Int × State) :=
  match req.pf_list with
  | [] => none
  | e :: _ =>
    if e.addr = 0 then some (-1, s)
    else if !s.tasks req.remote_pid then some (-1, s)
    else
      let s1 := get_task_remote s
      match prefetch_at_origin_loop P req req.pf_list s1 with
      | none => none
      | some s2 => some (0, s2)

/-! ## Remote fetch protocol: the requester -/

/-- The call `alloc_page_vma`: a fresh page frame. -/
def alloc_page_vma (s : State) : Nat × State :=
  (s.next_pfn, { s with next_pfn := s.next_pfn + 1 })

/-- The call `copy_to_user_page` through `kmap(page)`. -/
def copy_to_user_page (s : State) (page data : Nat) : State :=
  { s with mem := Function.update s.mem page data }

/-- The block `if (res->result & PREFETCH_SUCCESS) { ... }`. -/
def install_prefetched_page (P : Params) (s : State) (res : remote_prefetch_response_t) :
    Option State :=
  match __get_pte_at P s res.addr with
  | none => none
  | some pte =>
    let populated := pte_none pte || (vm_normal_page pte).isNone
    let ps := if populated then alloc_page_vma s else ((vm_normal_page pte).getD 0, s)
    let s1 := copy_to_user_page ps.2 ps.1 res.page
    let s2 := s1.log (Event.lock (Lock.ptl res.addr))
    let s3 := if populated then some (do_set_pte P s2 res.addr ps.1)
              else __make_pte_valid P s2 res.addr 0 pte
    match s3 with
    | none => none
    | some s4 =>
      some ((s4.log (Event.unlock (Lock.ptl res.addr))).log (Event.unlock (Lock.ptl res.addr)))

/-- The handler up to the label `out`: the state and the message as they are
when the fault handle is about to be finished. -/
def process_remote_prefetch_response_body (P : Params) (s : State)
    (res : remote_prefetch_response_t) : Option (State × remote_prefetch_response_t) :=
  if !s.tasks res.origin_pid then some (s, res)
  else if page_is_mine P s res.addr then
    some (s, { res with result := PREFETCH_CONCURRENCY })
  else if no_vma s res.addr then none
  else if res.result &&& PREFETCH_SUCCESS ≠ 0 then
    match install_prefetched_page P s res with
    | none => none
    | some s1 => some (s1, res)
  else if res.result &&& PREFETCH_FAIL ≠ 0 then some (s, res)
  else none

/-- The handler: the body, then `if (res->fh) __finish_fault_handling(res->fh)`. -/
def process_remote_prefetch_response (P : Params) (s : State)
    (res : remote_prefetch_response_t) : Option (State × remote_prefetch_response_t) :=
  match process_remote_prefetch_response_body P s res with
  | none => none
  | some (s1, res1) =>
    if res1.fh ≠ 0 then
      match __finish_fault_handling P s1 res1.fh with
      | none => none
      | some r => some (r.2, res1)
    else some (s1, res1)

/-! ## Prefetch policy -/

def SKIP_NUM_OF_PAGES : Nat := 1
def PREFETCH_NUM_OF_PAGES : Nat := 10
def PREFETCH_DURATION : Nat := 1

/-- The number of values of `unsigned long`. -/
def ULONG_RANGE : Nat := 2 ^ 64

/-- The number of values of `uint8_t`. -/
def UINT8_RANGE : Nat := 2 ^ 8

/-- The `for` loop of `prefetch_policy` with `n` rounds to go; `i` is the loop
counter, which is also how far `list_ptr` has advanced.  Only the `addr` field
of a slot is written, in `unsigned long` arithmetic. -/
def prefetch_policy_loop (P : Params) (fault_addr : Nat) :
    Nat → Nat → (Nat → prefetch_body) → (Nat → prefetch_body)
  | 0, _, pf_list => pf_list
  | n + 1, i, pf_list =>
    prefetch_policy_loop P fault_addr n (i + 1)
      (Function.update pf_list i
        { addr := (fault_addr + (i + SKIP_NUM_OF_PAGES) * PAGE_SIZE P) % ULONG_RANGE,
          fh := (pf_list i).fh })

/-- The first argument and the first result are the static counter `cnt` before
and after the call. -/
def prefetch_policy (P : Params) (cnt : Nat) (pf_list : Nat → prefetch_body)
    (fault_addr : Nat) : Nat × (Nat → prefetch_body) :=
  let cnt1 := (cnt + 1) % UINT8_RANGE
  if cnt1 ≥ PREFETCH_DURATION then
    (0, prefetch_policy_loop P fault_addr PREFETCH_NUM_OF_PAGES 0 pf_list)
  else (cnt1, pf_list)

/-- The static counter after a series of calls, the latest first, each given by
its list and its fault address; before the first call it is 0, its
initialiser. -/
def prefetch_policy_cnt (P : Params) : List ((Nat → prefetch_body) × Nat) → Nat
  | [] => 0
  | c :: earlier => (prefetch_policy P (prefetch_policy_cnt P earlier) c.1 c.2).1

/-! ## Contexts of inbound processes (`process_server.c`) -/

/-- The fields of `struct remote_context` that the list of inbound contexts is
looked up by, with its reference count. -/
structure remote_context where
  tgid : Int
  for_remote : Bool
  count : Int
  remote_tgids : Nat → Int

/-- The fields of `clone_request_t` read by `clone_remote_thread`. -/
structure clone_request_t where
  origin_nid : Nat
  origin_tgid : Int
  deriving DecidableEq, Repr

def __alloc_remote_context (_nid : Nat) (tgid : Int) (remote : Bool) : remote_context :=
  { tgid := tgid, for_remote := remote, count := 1, remote_tgids := fun _ => 0 }

/-- The argument `inbound` is the list `remote_contexts[INDEX_INBOUND]`, head
first. -/
def __lookup_remote_contexts_in (inbound : List remote_context) (nid : Nat) (tgid : Int) :
    Option remote_context :=
  inbound.find? fun rc => decide (rc.remote_tgids nid = tgid)

/-- What `clone_remote_thread` leaves: the inbound list, the context `rc` handed
to `__kick_remote_thread_spawner`, whether a worker thread was started for it
and whether `rc_new` was freed. -/
structure clone_result where
  inbound : List remote_context
  rc : remote_context
  vma_worker_started : Bool
  rc_new_freed : Bool

def clone_remote_thread (inbound : List remote_context) (req : clone_request_t) :
    clone_result :=
  let nid_from := req.origin_nid
  let tgid_from := req.origin_tgid
  let rc_new := __alloc_remote_context nid_from tgid_from true
  match __lookup_remote_contexts_in inbound nid_from tgid_from with
  | none =>
    let rc : remote_context :=
      { rc_new with remote_tgids := Function.update rc_new.remote_tgids nid_from tgid_from }
    { inbound := rc :: inbound, rc := rc, vma_worker_started := true, rc_new_freed := false }
  | some rc =>
    { inbound := inbound, rc := rc, vma_worker_started := false, rc_new_freed := true }

/-! ## Message callbacks (`pcn_kmsg.c`, both copies) -/

def ENODEV : Int := 19

/-- The table `callbacks` maps a message type to its handler; `0` is `NULL`.
The bound `PCN_KMSG_TYPE_MAX` comes from a header outside the source tree at
hand.  The result is the returned `int` and the table. -/
def pcn_kmsg_register_callback (PCN_KMSG_TYPE_MAX : Nat) (callbacks : Nat → Nat)
    (type callback : Nat) : Int × (Nat → Nat) :=
  if type ≥ PCN_KMSG_TYPE_MAX then (-ENODEV, callbacks)
  else (0, Function.update callbacks type callback)

def pcn_kmsg_unregister_callback (PCN_KMSG_TYPE_MAX : Nat) (callbacks : Nat → Nat)
    (type : Nat) : Int × (Nat → Nat) :=
  if type ≥ PCN_KMSG_TYPE_MAX then (-ENODEV, callbacks)
  else (0, Function.update callbacks type 0)

/-! ## Selection, with the list cursor explicit -/

/-- One round of the `while` loop of `select_prefetch_pages` with the cursor
`list_ptr` (an index into the input list) carried along: every branch of the
body has its own `list_ptr++`.  The first component is the cursor after the
round. -/
def select_prefetch_pages_round (P : Params) (addr list_ptr : Nat)
    (c : State × (Nat → prefetch_body) × Nat) : Nat × State × (Nat → prefetch_body) × Nat :=
  let s := c.1
  if no_vma s addr then (list_ptr + 1, c)
  else
    match __get_pte_at P s addr with
    | none => (list_ptr + 1, c)
    | some _ =>
      if s.ptl_busy addr then (list_ptr + 1, c)
      else
        let s1 := s.log (Event.lock (Lock.ptl addr))
        let s2 := get_task_remote s1
        let fk := __fault_hash_key P addr
        if s2.faults_busy fk then
          let s3 := s2.log (Event.unlock (Lock.ptl addr))
          (list_ptr + 1, s3, c.2.1, c.2.2)
        else
          let s3 := (s2.log (Event.lock (Lock.faults_lock fk))).log (Event.unlock (Lock.ptl addr))
          let found := (find_fault_handle s3 fk addr).isSome
          if !found && !page_is_mine P s3 addr then
            let a := __alloc_fault_handle P s3 addr
            let new_pf_list := add_pf_list_at c.2.1 addr a.1 c.2.2
            let slot := c.2.2 + 1
            (list_ptr + 1, a.2.log (Event.unlock (Lock.faults_lock fk)), new_pf_list, slot)
          else
            (list_ptr + 1, s3.log (Event.unlock (Lock.faults_lock fk)), c.2.1, c.2.2)

/-- The loop `while (list_ptr->addr)` as the machine runs it: `fuel` bounds the
number of tests of the loop condition, `list_ptr` is the cursor and `visited`
records the cursor of every round run so far.  The result is `none` when the
fuel runs out or the cursor leaves the list. -/
def select_prefetch_pages_while (P : Params) (pf_list : List prefetch_body) :
    Nat → Nat → List Nat → State × (Nat → prefetch_body) × Nat →
      Option (List Nat × State × (Nat → prefetch_body) × Nat)
  | 0, _, _, _ => none
  | fuel + 1, list_ptr, visited, c =>
    match pf_list[list_ptr]? with
    | none => none
    | some e =>
      if e.addr = 0 then some (visited, c)
      else
        let r := select_prefetch_pages_round P e.addr list_ptr c
        select_prefetch_pages_while P pf_list fuel r.1 (visited ++ [list_ptr]) r.2

/-- The function `select_prefetch_pages` as the machine runs it, with the cursor
explicit and `fuel` bounding the tests of the loop condition; the first
component of the result lists the cursors of the rounds run, in order. -/
def select_prefetch_pages_run (P : Params) (s : State) (pf_list : List prefetch_body)
    (fuel : Nat) : Option (List Nat × Option (Nat → prefetch_body) × State) :=
  match pf_list[0]? with
  | none => none
  | some e =>
    if e.addr = 0 then some ([], none, s.log (Event.kfree_prefetch_list true))
    else
      match select_prefetch_pages_while P pf_list fuel 0 [] (s, alloc_prefetch_list, 0) with
      | none => none
      | some r =>
        let s1 := r.2.1.log (Event.kfree_prefetch_list true)
        if r.2.2.2 = 0 then some (r.1, none, s1.log (Event.kfree_prefetch_list false))
        else some (r.1, some r.2.2.1, s1)

/-! ## The writes of the ownership index among the lock operations

The trace of `State` has the lock operations of a call but not its writes of the
ownership index.  The definitions below run the hand-off round of
`prefetch_at_origin` and the handler body of `process_remote_prefetch_response`
once more, statement by statement, and keep beside the state an audit log that
has every event appended to the trace and every call of `SetPageDistributed`
and `set_page_owner`, in program order. -/

/-- An entry of the audit log: an event appended to the trace, or a write of
bit `nr` in the ownership bitmap of the page of `addr`. -/
inductive Audit where
  | ev (e : Event)
  | index_write (addr nr : Nat)
  deriving DecidableEq, Repr

/-- Appends an event to the trace and to the audit log. -/
def audit_log (c : State × List Audit) (e : Event) : State × List Audit :=
  (c.1.log e, c.2 ++ [Audit.ev e])

def SetPageDistributed_audit (P : Params) (c : State × List Audit) (addr : Nat) :
    State × List Audit :=
  (SetPageDistributed P c.1 addr, c.2 ++ [Audit.index_write addr PI_FLAG_DISTRIBUTED])

def set_page_owner_audit (P : Params) (nid : Nat) (c : State × List Audit) (addr : Nat) :
    Option (State × List Audit) :=
  match set_page_owner P nid c.1 addr with
  | none => none
  | some s => some (s, c.2 ++ [Audit.index_write addr nid])

def prefetch_at_origin_leader_audit (P : Params) (from_nid addr : Nat) (pte : pte_t)
    (c : State × List Audit) : Option (Nat × State × List Audit) :=
  let c1 := audit_log c (Event.lock (Lock.ptl addr))
  let c2 := SetPageDistributed_audit P c1 addr
  match set_page_owner_audit P from_nid c2 addr with
  | none => none
  | some c3 =>
    let cf := ptep_clear_flush P c3.1 addr pte
    let entry := pte_wrprotect (pte_make_valid cf.1)
    match set_page_owner_audit P P.my_nid (cf.2, c3.2) addr with
    | none => none
    | some c4 =>
      let s5 := set_pte_at_notify P c4.1 addr entry
      let c6 := audit_log (s5, c4.2) (Event.unlock (Lock.ptl addr))
      some (copy_page_to_msg c6.1 entry, c6)

def prefetch_at_origin_post_audit (req : remote_page_request_t) (e : prefetch_body)
    (result page : Nat) (size : res_size_t) (c : State × List Audit) : State × List Audit :=
  audit_log c (Event.pcn_kmsg_post req.from_nid (prefetch_at_origin_reply req e result page) size)

/-- One round of the loop of `prefetch_at_origin`, with the audit log of the
round. -/
def prefetch_at_origin_step_audit (P : Params) (req : remote_page_request_t)
    (e : prefetch_body) (s : State) : Option (State × List Audit) :=
  let addr := e.addr
  let fail := res_size_t.remote_prefetch_fail_t
  let c : State × List Audit := (s, [])
  if no_vma s addr then some (prefetch_at_origin_post_audit req e PREFETCH_FAIL 0 fail c)
  else
    match __get_pte_at P s addr with
    | none => none
    | some pte =>
      if s.ptl_busy addr then some (prefetch_at_origin_post_audit req e PREFETCH_FAIL 0 fail c)
      else
        let c1 := audit_log c (Event.lock (Lock.ptl addr))
        let fk := __fault_hash_key P addr
        if c1.1.faults_busy fk then
          some (prefetch_at_origin_post_audit req e PREFETCH_FAIL 0 fail
            (audit_log c1 (Event.unlock (Lock.ptl addr))))
        else
          let c2 := audit_log (audit_log c1 (Event.lock (Lock.faults_lock fk)))
            (Event.unlock (Lock.ptl addr))
          let found := (find_fault_handle c2.1 fk addr).isSome
          match prefetch_at_origin_decide found (page_is_mine P c2.1 addr) with
          | none => none
          | some (result, size, leader) =>
            if leader then
              match prefetch_at_origin_leader_audit P req.from_nid addr pte c2 with
              | none => none
              | some (page, c3) =>
                some (prefetch_at_origin_post_audit req e result page size
                  (audit_log c3 (Event.unlock (Lock.faults_lock fk))))
            else
              some (prefetch_at_origin_post_audit req e result 0 size
                (audit_log c2 (Event.unlock (Lock.faults_lock fk))))

def __make_pte_valid_audit (P : Params) (c : State × List Audit) (addr fault_flags : Nat)
    (old : pte_t) : Option (State × List Audit) :=
  let entry := pte_make_valid old
  let entry := if fault_for_write fault_flags then pte_mkdirty (pte_mkwrite entry)
               else pte_wrprotect entry
  let s1 := set_pte_at_notify P c.1 addr entry
  let c2 := SetPageDistributed_audit P (s1, c.2) addr
  set_page_owner_audit P P.my_nid c2 addr

def install_prefetched_page_audit (P : Params) (s : State) (res : remote_prefetch_response_t) :
    Option (State × List Audit) :=
  match __get_pte_at P s res.addr with
  | none => none
  | some pte =>
    let populated := pte_none pte || (vm_normal_page pte).isNone
    let ps := if populated then alloc_page_vma s else ((vm_normal_page pte).getD 0, s)
    let s1 := copy_to_user_page ps.2 ps.1 res.page
    let c2 := audit_log (s1, []) (Event.lock (Lock.ptl res.addr))
    let c3 := if populated then some (do_set_pte P c2.1 res.addr ps.1, c2.2)
              else __make_pte_valid_audit P c2 res.addr 0 pte
    match c3 with
    | none => none
    | some c4 =>
      some (audit_log (audit_log c4 (Event.unlock (Lock.ptl res.addr)))
        (Event.unlock (Lock.ptl res.addr)))

/-- The handler of `process_remote_prefetch_response` up to the label `out`,
with the audit log of the call. -/
def process_remote_prefetch_response_body_audit (P : Params) (s : State)
    (res : remote_prefetch_response_t) :
    Option ((State × remote_prefetch_response_t) × List Audit) :=
  if !s.tasks res.origin_pid then some ((s, res), [])
  else if page_is_mine P s res.addr then
    some ((s, { res with result := PREFETCH_CONCURRENCY }), [])
  else if no_vma s res.addr then none
  else if res.result &&& PREFETCH_SUCCESS ≠ 0 then
    match install_prefetched_page_audit P s res with
    | none => none
    | some c1 => some ((c1.1, res), c1.2)
  else if res.result &&& PREFETCH_FAIL ≠ 0 then some ((s, res), [])
  else none

/-- The loop of `prefetch_at_origin`, the audit logs of the rounds put end to
end. -/
def prefetch_at_origin_loop_audit (P : Params) (req : remote_page_request_t) :
    List prefetch_body → State × List Audit → Option (State × List Audit)
  | [], _ => none
  | e :: rest, c =>
    if e.addr = 0 then some c
    else
      match prefetch_at_origin_step_audit P req e c.1 with
      | none => none
      | some r => prefetch_at_origin_loop_audit P req rest (r.1, c.2 ++ r.2)

/-- The function `prefetch_at_origin` with the audit log of the call. -/
def prefetch_at_origin_audit (P : Params) (s : State) (req : remote_page_request_t) :
    Option ((Int × State) × List Audit) :=
  match req.pf_list with
  | [] => none
  | e :: _ =>
    if e.addr = 0 then some ((-1, s), [])
    else if !s.tasks req.remote_pid then some ((-1, s), [])
    else
      let s1 := get_task_remote s
      match prefetch_at_origin_loop_audit P req req.pf_list (s1, []) with
      | none => none
      | some c => some ((0, c.1), c.2)

/-- The handler `process_remote_prefetch_response` with the audit log of the
call: `__finish_fault_handling` calls neither `SetPageDistributed` nor
`set_page_owner`, so it adds the events it appends to the trace and no write. -/
def process_remote_prefetch_response_audit (P : Params) (s : State)
    (res : remote_prefetch_response_t) :
    Option ((State × remote_prefetch_response_t) × List Audit) :=
  match process_remote_prefetch_response_body_audit P s res with
  | none => none
  | some b =>
    if b.1.2.fh ≠ 0 then
      match __finish_fault_handling P b.1.1 b.1.2.fh with
      | none => none
      | some r =>
        some ((r.2, b.1.2), b.2 ++ (r.2.trace.drop b.1.1.trace.length).map Audit.ev)
    else some b

/-! ## Predicates of the statements -/

/-- The fault table as a whole: buckets, handles and the allocator. -/
def same_fault_table (s s' : State) : Prop :=
  s'.faults = s.faults ∧ s'.heap = s.heap ∧ s'.next_fh = s.next_fh

/-- The addresses of the handles linked in a bucket, head first. -/
def bucket_addrs (s : State) (fk : Nat) : List Nat :=
  (s.faults fk).filterMap fun p => (s.heap p).map fun h => h.addr

/-- No address has two handles in the fault table: none twice in a bucket, none
in two buckets. -/
def one_handle_per_addr (s : State) : Prop :=
  (∀ fk, (bucket_addrs s fk).Nodup) ∧
  ∀ fk1 fk2 a, a ∈ bucket_addrs s fk1 → a ∈ bucket_addrs s fk2 → fk1 = fk2

/-- The fault table is a hash table and the cache is an allocator: every linked
handle is in the bucket of its address, and no object the cache has yet to hand
out is linked. -/
def fault_table_wf (P : Params) (s : State) : Prop :=
  (∀ fk a, a ∈ bucket_addrs s fk → __fault_hash_key P a = fk) ∧
  ∀ p fk, s.next_fh ≤ p → p ∉ s.faults fk

/-- What `__finish_fault_handling` does to the fault table: buckets shrink,
the handles that stay keep their address, the allocator is untouched. -/
def table_shrinks (s s' : State) : Prop :=
  (∀ fk, (s'.faults fk).Sublist (s.faults fk)) ∧
  (∀ p, (s'.heap p).map (fun h => h.addr) = (s.heap p).map (fun h => h.addr) ∨ s'.heap p = none) ∧
  s'.next_fh = s.next_fh

/-- The conditions under which `select_prefetch_pages` claims a candidate, as
the state is when the candidate is visited: it lies in a mapped area, has a
page-table entry, both locks can be taken at once, the fault table has no handle
for it, and the page is not owned locally. -/
def qualifies (P : Params) (s : State) (addr : Nat) : Bool :=
  !no_vma s addr && (__get_pte_at P s addr).isSome && !s.ptl_busy addr &&
    !s.faults_busy (__fault_hash_key P addr) &&
    (find_fault_handle s (__fault_hash_key P addr) addr).isNone && !page_is_mine P s addr

/-- The state `s'` differs from `s` in the ownership index at most. -/
def only_pages (s s' : State) : Prop := s' = { s with pages := s'.pages }


/-- Bit `nr` of the ownership bitmap of the page of `addr`; false when the
region is not allocated. -/
def page_info_bit (P : Params) (s : State) (nr addr : Nat) : Bool :=
  match __get_page_info P s addr with
  | none => false
  | some pi => test_bit nr (page_info_bits s pi).1 pi.2

/-- Node `nid` is recorded as an owner of the page of `addr`. -/
def page_owned_by (P : Params) (s : State) (nid addr : Nat) : Bool :=
  page_info_bit P s nid addr

/-- The page of `addr` carries the distributed flag. -/
def page_distributed (P : Params) (s : State) (addr : Nat) : Bool :=
  page_info_bit P s PI_FLAG_DISTRIBUTED addr

/-- Digit `i` of the region `key` of the ownership index. -/
def region_bit (s : State) (key i : Nat) : Bool :=
  match s.pages key with
  | some r => r.testBit i
  | none => false

/-- No bit of the ownership index is cleared from `s` to `s'`. -/
def pages_grow (s s' : State) : Prop :=
  ∀ key i, region_bit s key i = true → region_bit s' key i = true

/-- The messages posted so far, oldest first, each with its destination. -/
def posted (s : State) : List (Nat × remote_prefetch_response_t) :=
  s.trace.filterMap fun ev =>
    match ev with
    | Event.pcn_kmsg_post n r _ => some (n, r)
    | _ => none

/-- The conditions the owner tests before it hands a page over: the address
lies in a mapped area, the page-table lock and the bucket lock can be taken at
once, the fault table has no handle for the address and the page is owned
locally. -/
def origin_grants (P : Params) (s : State) (addr : Nat) : Bool :=
  !no_vma s addr && !s.ptl_busy addr && !s.faults_busy (__fault_hash_key P addr) &&
    (find_fault_handle s (__fault_hash_key P addr) addr).isNone && page_is_mine P s addr

/-- The ownership bitmap of `addr` after a hand-off to `nid`: the distributed
flag, the bit of `nid` and the bit of the local node are all set. -/
def handed_off (P : Params) (s : State) (nid addr : Nat) : Prop :=
  page_distributed P s addr = true ∧ page_owned_by P s nid addr = true ∧
    page_owned_by P s P.my_nid addr = true

/-- What a round of `prefetch_at_origin` leaves alone: the tasks, the areas, the
locks of others, the fault table, the reference count; page tables and
ownership bits are only added to. -/
structure origin_frame (s s' : State) : Prop where
  tasks : s'.tasks = s.tasks
  mmap : s'.mmap = s.mmap
  ptl_busy : s'.ptl_busy = s.ptl_busy
  faults_busy : s'.faults_busy = s.faults_busy
  faults : s'.faults = s.faults
  heap : s'.heap = s.heap
  next_fh : s'.next_fh = s.next_fh
  count : s'.count = s.count
  pgtable : ∀ pn, (s.pgtable pn).isSome = true → (s'.pgtable pn).isSome = true
  pages : pages_grow s s'

/-- What the requester can tell replies apart by: destination, address, the
echoed fault-handle reference and the two task ids. -/
def reply_key (x : Nat × remote_prefetch_response_t) : Nat × Nat × Nat × Nat × Nat :=
  (x.1, x.2.addr, x.2.fh, x.2.remote_pid, x.2.origin_pid)

/-- The reply key that the slot `c` of the request `req` calls for. -/
def request_key (req : remote_page_request_t) (c : prefetch_body) :
    Nat × Nat × Nat × Nat × Nat :=
  (req.from_nid, c.addr, c.fh, req.remote_pid, req.origin_pid)

/-- The slots of a list before the first zero address. -/
def candidates (l : List prefetch_body) : List prefetch_body :=
  l.takeWhile fun c => decide (c.addr ≠ 0)

/-- Every candidate that lies in a mapped area has its page-table levels. -/
def candidates_have_pte (P : Params) (s : State) (l : List prefetch_body) : Prop :=
  ∀ c ∈ candidates l, no_vma s c.addr = false → (__get_pte_at P s c.addr).isSome = true

/-- The handles `__finish_fault_handling` has been called on so far, oldest
first. -/
def finish_calls (s : State) : List Nat :=
  s.trace.filterMap fun ev =>
    match ev with
    | Event.finish_fault_handling fh => some fh
    | _ => none

/-- The handle `__alloc_fault_handle` creates for `addr` on behalf of task `pid`. -/
def fresh_handle (pid addr : Nat) : fault_handle :=
  { addr := addr, flags := 0, limit := 0, pid := pid, ret := 0, pendings := 1,
    pendings_retry := 0, complete := none }

/-- The expected output of `select_prefetch_pages`, following the words of its
description: the candidates before the zero sentinel that qualify in the state
in which they are visited, in input order, each paired with the handle the cache
hands out at that moment.  The state in which the next candidate is visited is
the one the round on this candidate leaves. -/
def selected (P : Params) : State → List prefetch_body → List prefetch_body
  | _, [] => []
  | s, e :: es =>
    if e.addr = 0 then []
    else if qualifies P s e.addr then
      { addr := e.addr, fh := s.next_fh } ::
        selected P (select_prefetch_pages_step P e.addr (s, alloc_prefetch_list, 0)).1 es
    else selected P (select_prefetch_pages_step P e.addr (s, alloc_prefetch_list, 0)).1 es

/-- The handle `x.fh` was created for `x.addr` after state `s` and is, in state
`s'`, linked in the bucket of `x.addr` with its initial fields. -/
def newly_created (P : Params) (s s' : State) (x : prefetch_body) : Prop :=
  s.next_fh ≤ x.fh ∧ x.fh ∈ s'.faults (__fault_hash_key P x.addr) ∧
    s'.heap x.fh = some (fresh_handle s.current_pid x.addr)

/-- A candidate address that `select_prefetch_pages` cannot claim for a reason
outside its own making: a lock held by another actor, or a handle that is
already in the fault table. -/
def blocked (P : Params) (s : State) (addr : Nat) : Prop :=
  s.ptl_busy addr = true ∨ s.faults_busy (__fault_hash_key P addr) = true ∨
    (find_fault_handle s (__fault_hash_key P addr) addr).isSome = true

/-- No two contexts of the inbound list are registered for the same node and
the same non-zero thread-group id. -/
def registered_once (inbound : List remote_context) : Prop :=
  ∀ (nid : Nat) (tgid : Int), tgid ≠ 0 →
    (inbound.filter fun rc => decide (rc.remote_tgids nid = tgid)).length ≤ 1

/-- The inbound list after a series of clone requests, the latest first,
starting from the empty list of `process_server_init`. -/
def inbound_after : List clone_request_t → List remote_context
  | [] => []
  | req :: earlier => (clone_remote_thread (inbound_after earlier) req).inbound

/-- How many times the call `kfree` of `free_prefetch_list` has run on the input
list (`input = true`) or on the new list. -/
def prefetch_list_frees (s : State) (input : Bool) : Nat :=
  s.trace.count (Event.kfree_prefetch_list input)

/-- The locks held after a series of lock operations, starting with the locks
`held`, the latest acquired first; `none` when a lock is released that is not
held.  Events other than lock operations are skipped. -/
def lock_discipline : List Lock → List Event → Option (List Lock)
  | held, [] => some held
  | held, Event.lock l :: es => lock_discipline (l :: held) es
  | held, Event.unlock l :: es =>
    if l ∈ held then lock_discipline (held.erase l) es else none
  | held, _ :: es => lock_discipline held es

/-- One round of `select_prefetch_pages` run on each candidate before the
sentinel, in order, starting with the empty new list. -/
def rounds_on_candidates (P : Params) (s : State) (l : List prefetch_body) :
    State × (Nat → prefetch_body) × Nat :=
  (candidates l).foldl (fun c e => select_prefetch_pages_step P e.addr c)
    (s, alloc_prefetch_list, 0)

/-- What `select_prefetch_pages` returns after the rounds have left `c`: the
input list is freed, and the new list is freed and null is returned when no slot
was filled. -/
def select_result (c : State × (Nat → prefetch_body) × Nat) :
    Option (Nat → prefetch_body) × State :=
  if c.2.2 = 0 then
    (none, ((c.1.log (Event.kfree_prefetch_list true)).log (Event.kfree_prefetch_list false)))
  else (some c.2.1, c.1.log (Event.kfree_prefetch_list true))

/-- The events of an audit log, in order, with the writes left out. -/
def audit_events (log : List Audit) : List Event :=
  log.filterMap fun a =>
    match a with
    | Audit.ev e => some e
    | Audit.index_write _ _ => none

/-- The ownership index after the writes of an audit log, made in order on the
radix tree `pages`: each sets one bit, in a region that is allocated on first
touch. -/
def audit_pages (P : Params) : List Audit → (Nat → Option Nat) → (Nat → Option Nat)
  | [], pages => pages
  | Audit.ev _ :: log, pages => audit_pages P log pages
  | Audit.index_write addr nr :: log, pages =>
    audit_pages P log
      (Function.update pages (__get_page_info_key P addr).1
        (some (set_bit nr ((pages (__get_page_info_key P addr).1).getD 0)
          (__get_page_info_key P addr).2)))

/-- Runs an audit log over the list of locks held, the latest acquired first,
and checks at every write of the ownership index that the locks `need addr` are
all held; the result is the list of locks held at the end, or `none` when a
write is made without one of them. -/
def writes_guarded (need : Nat → List Lock) : List Lock → List Audit → Option (List Lock)
  | held, [] => some held
  | held, Audit.ev (Event.lock l) :: log => writes_guarded need (l :: held) log
  | held, Audit.ev (Event.unlock l) :: log => writes_guarded need (held.erase l) log
  | held, Audit.ev _ :: log => writes_guarded need held log
  | held, Audit.index_write addr _ :: log =>
    if (need addr).all (fun l => decide (l ∈ held)) then writes_guarded need held log else none

/-- The locks of an address that the owner holds during the hand-off: the
page-table lock and the lock of its fault-table bucket. -/
def owner_locks (P : Params) (addr : Nat) : List Lock :=
  [Lock.ptl addr, Lock.faults_lock (__fault_hash_key P addr)]

/-- The page-table lock of an address. -/
def page_table_lock (addr : Nat) : List Lock := [Lock.ptl addr]

/-- The fault-table bucket lock of an address. -/
def bucket_lock (P : Params) (addr : Nat) : List Lock :=
  [Lock.faults_lock (__fault_hash_key P addr)]

/-! ## Sample configurations

A two-node cluster with 4 KiB pages: node 0 is the origin of the process and
owns its pages, node 1 runs a migrated thread. -/

/-- The constants as seen on node 0. -/
def P0 : Params := { PAGE_SHIFT := 12, FAULTS_HASH := 31, MAX_POPCORN_NODES := 32, my_nid := 0 }

/-- The constants as seen on node 1. -/
def P1 : Params := { PAGE_SHIFT := 12, FAULTS_HASH := 31, MAX_POPCORN_NODES := 32, my_nid := 1 }

/-- Node 0: task 7 with one area, pages 1 to 15 mapped, nothing distributed yet,
no fault in flight. -/
def st_owner : State :=
  { tasks := fun pid => pid == 7, current_pid := 7,
    mmap := [{ vm_start := 0x1000, vm_end := 0x20000 }],
    pgtable := fun pn =>
      if pn < 0x10 then some { pfn := some pn, valid := true, write := true, dirty := false }
      else none,
    ptl_busy := fun _ => false, mem := fun f => f + 100, next_pfn := 1000,
    count := 2, faults := fun _ => [], faults_busy := fun _ => false,
    pages := fun _ => none, rc_linked := true, rc_freed := false,
    heap := fun _ => none, next_fh := 1, trace := [] }

/-- Node 0 while it resolves a fault of its own on `0x2000`. -/
def st_owner_busy : State :=
  { st_owner with
    faults := fun k => if k = 2 then [5] else [],
    heap := fun p =>
      if p = 5 then
        some { addr := 0x2000, flags := 0, limit := 0, pid := 7, ret := 0, pendings := 1,
               pendings_retry := 0, complete := none }
      else none,
    next_fh := 6, count := 3 }

/-- A request of node 1 for the pages at `0x2000` and `0x3000`. -/
def req_two : remote_page_request_t :=
  { from_nid := 1, remote_pid := 7, origin_pid := 3,
    pf_list := [{ addr := 0x2000, fh := 1 }, { addr := 0x3000, fh := 2 }, { addr := 0, fh := 0 }] }

/-- The same request naming a task that node 0 does not have. -/
def req_no_task : remote_page_request_t := { req_two with remote_pid := 8 }

/-- Node 1: task 3, the pages at `0x2000` and `0x3000` are distributed and owned
elsewhere (only their distributed flags are set), their page-table entries are
empty. -/
def st_requester : State :=
  { tasks := fun pid => pid == 3, current_pid := 3,
    mmap := [{ vm_start := 0x1000, vm_end := 0x20000 }],
    pgtable := fun pn => if pn < 0x10 then some pte_zero else none,
    ptl_busy := fun _ => false, mem := fun _ => 0, next_pfn := 1000,
    count := 2, faults := fun _ => [], faults_busy := fun _ => false,
    pages := fun k => if k = 0 then some (2 ^ 191 + 2 ^ 255) else none,
    rc_linked := true, rc_freed := false,
    heap := fun _ => none, next_fh := 1, trace := [] }

/-- Node 1 after it has claimed `0x2000` (handle 1) and `0x3000` (handle 2). -/
def st_requester_inflight : State :=
  { st_requester with
    faults := fun k => if k = 2 then [1] else if k = 3 then [2] else [],
    heap := fun p =>
      if p = 1 then
        some { addr := 0x2000, flags := 0, limit := 0, pid := 3, ret := 0, pendings := 1,
               pendings_retry := 0, complete := none }
      else if p = 2 then
        some { addr := 0x3000, flags := 0, limit := 0, pid := 3, ret := 0, pendings := 1,
               pendings_retry := 0, complete := none }
      else none,
    next_fh := 3, count := 6 }

/-- The reply of node 0 for `0x2000`. -/
def res_success : remote_prefetch_response_t :=
  { addr := 0x2000, result := PREFETCH_SUCCESS, fh := 1, remote_pid := 7, origin_pid := 3,
    page := 102 }

/-- Candidates of node 1 for a fault at `0x1000`, with `0x2000` named twice. -/
def cand_repeat : List prefetch_body :=
  [{ addr := 0x2000, fh := 0 }, { addr := 0x3000, fh := 0 }, { addr := 0x2000, fh := 0 },
   { addr := 0, fh := 0 }]

/-- The reply of node 0 that grants `0x2000` to node 1 on `req_two`. -/
def res_granted : remote_prefetch_response_t :=
  { addr := 0x2000, result := PREFETCH_SUCCESS, fh := 1, remote_pid := 7, origin_pid := 3,
    page := 102 }

/-- A request of node 1 for the page at `0x10000`, which lies in the area of
task 7 but under a page-table level that node 0 has not populated. -/
def req_hole : remote_page_request_t :=
  { from_nid := 1, remote_pid := 7, origin_pid := 3,
    pf_list := [{ addr := 0x10000, fh := 1 }, { addr := 0, fh := 0 }] }

/-- Node 1 with the two fetches in flight, after a direct fault of its own has
meanwhile made it an owner of `0x2000`. -/
def st_requester_raced : State :=
  { st_requester_inflight with
    pages := fun k => if k = 0 then some (2 ^ 191 + 2 ^ 255 + 2 ^ 129) else none }

/-- Node 1 with the two fetches in flight and a second thread waiting on the
handle of `0x2000`. -/
def st_requester_joined : State :=
  { st_requester_inflight with
    heap := fun p =>
      if p = 1 then
        some { addr := 0x2000, flags := 0, limit := 0, pid := 3, ret := 0, pendings := 2,
               pendings_retry := 0, complete := none }
      else if p = 2 then
        some { addr := 0x3000, flags := 0, limit := 0, pid := 3, ret := 0, pendings := 1,
               pendings_retry := 0, complete := none }
      else none }

/-- Node 1 with the two fetches in flight and a completion registered on the
handle of `0x2000`. -/
def st_requester_completion : State :=
  { st_requester_inflight with
    heap := fun p =>
      if p = 1 then
        some { addr := 0x2000, flags := 0, limit := 0, pid := 3, ret := 0, pendings := 1,
               pendings_retry := 0, complete := some 9 }
      else if p = 2 then
        some { addr := 0x3000, flags := 0, limit := 0, pid := 3, ret := 0, pendings := 1,
               pendings_retry := 0, complete := none }
      else none }

/-- The reply of node 0 that refuses `0x2000`. -/
def res_fail : remote_prefetch_response_t :=
  { addr := 0x2000, result := PREFETCH_FAIL, fh := 1, remote_pid := 7, origin_pid := 3,
    page := 0 }

/-- The handle that node 1 created for `0x2000`, as `__alloc_fault_handle` left
it. -/
def handle_0x2000 : fault_handle :=
  { addr := 0x2000, flags := 0, limit := 0, pid := 3, ret := 0, pendings := 1,
    pendings_retry := 0, complete := none }

/-- A fault in the third page from the top of the 64-bit address space. -/
def fault_near_top : Nat := 2 ^ 64 - 0x3000

/-- The first eleven slots of the list `prefetch_policy` fills for
`fault_near_top`. -/
def cand_near_top : List prefetch_body :=
  (List.range 11).map (prefetch_policy P1 0 alloc_prefetch_list fault_near_top).2

/-- Node 1 with the two fetches in flight, the page at `0x2000` still having its
old frame 500 behind an entry that was made invalid. -/
def st_requester_stale : State :=
  { st_requester_inflight with
    pgtable := fun pn =>
      if pn = 2 then some { pfn := some 500, valid := false, write := false, dirty := false }
      else if pn < 0x10 then some pte_zero
      else none }

/-- Node 1 with the fetch of `0x2000` in flight after its threads have dropped
their references: the handle holds the last reference of the context. -/
def st_requester_last : State :=
  { st_requester with
    faults := fun k => if k = 2 then [1] else [],
    heap := fun p =>
      if p = 1 then
        some { addr := 0x2000, flags := 0, limit := 0, pid := 3, ret := 0, pendings := 1,
               pendings_retry := 0, complete := none }
      else none,
    next_fh := 2, count := 1 }

/-! ## Lemmas -/


/-! ## Frame lemmas -/

@[simp] theorem log_tasks (s : State) (e : Event) : (s.log e).tasks = s.tasks := rfl

@[simp] theorem log_current_pid (s : State) (e : Event) : (s.log e).current_pid = s.current_pid := rfl

@[simp] theorem log_mmap (s : State) (e : Event) : (s.log e).mmap = s.mmap := rfl

@[simp] theorem log_pgtable (s : State) (e : Event) : (s.log e).pgtable = s.pgtable := rfl

@[simp] theorem log_ptl_busy (s : State) (e : Event) : (s.log e).ptl_busy = s.ptl_busy := rfl

@[simp] theorem log_mem (s : State) (e : Event) : (s.log e).mem = s.mem := rfl

@[simp] theorem log_next_pfn (s : State) (e : Event) : (s.log e).next_pfn = s.next_pfn := rfl

@[simp] theorem log_count (s : State) (e : Event) : (s.log e).count = s.count := rfl

@[simp] theorem log_faults (s : State) (e : Event) : (s.log e).faults = s.faults := rfl

@[simp] theorem log_faults_busy (s : State) (e : Event) : (s.log e).faults_busy = s.faults_busy := rfl

@[simp] theorem log_pages (s : State) (e : Event) : (s.log e).pages = s.pages := rfl

@[simp] theorem log_rc_linked (s : State) (e : Event) : (s.log e).rc_linked = s.rc_linked := rfl

@[simp] theorem log_rc_freed (s : State) (e : Event) : (s.log e).rc_freed = s.rc_freed := rfl

@[simp] theorem log_heap (s : State) (e : Event) : (s.log e).heap = s.heap := rfl

@[simp] theorem log_next_fh (s : State) (e : Event) : (s.log e).next_fh = s.next_fh := rfl

@[simp] theorem log_trace (s : State) (e : Event) : (s.log e).trace = s.trace ++ [e] := rfl

@[simp] theorem get_task_remote_tasks (s : State) : (get_task_remote s).tasks = s.tasks := rfl

@[simp] theorem get_task_remote_current_pid (s : State) : (get_task_remote s).current_pid = s.current_pid := rfl

@[simp] theorem get_task_remote_mmap (s : State) : (get_task_remote s).mmap = s.mmap := rfl

@[simp] theorem get_task_remote_pgtable (s : State) : (get_task_remote s).pgtable = s.pgtable := rfl

@[simp] theorem get_task_remote_ptl_busy (s : State) : (get_task_remote s).ptl_busy = s.ptl_busy := rfl

@[simp] theorem get_task_remote_mem (s : State) : (get_task_remote s).mem = s.mem := rfl

@[simp] theorem get_task_remote_next_pfn (s : State) : (get_task_remote s).next_pfn = s.next_pfn := rfl

@[simp] theorem get_task_remote_faults (s : State) : (get_task_remote s).faults = s.faults := rfl

@[simp] theorem get_task_remote_faults_busy (s : State) : (get_task_remote s).faults_busy = s.faults_busy := rfl

@[simp] theorem get_task_remote_pages (s : State) : (get_task_remote s).pages = s.pages := rfl

@[simp] theorem get_task_remote_rc_linked (s : State) : (get_task_remote s).rc_linked = s.rc_linked := rfl

@[simp] theorem get_task_remote_rc_freed (s : State) : (get_task_remote s).rc_freed = s.rc_freed := rfl

@[simp] theorem get_task_remote_heap (s : State) : (get_task_remote s).heap = s.heap := rfl

@[simp] theorem get_task_remote_next_fh (s : State) : (get_task_remote s).next_fh = s.next_fh := rfl

@[simp] theorem get_task_remote_trace (s : State) : (get_task_remote s).trace = s.trace := rfl

@[simp] theorem get_task_remote_count (s : State) : (get_task_remote s).count = s.count + 1 := rfl

@[simp] theorem put_task_remote_tasks (s : State) :
    (__put_task_remote s).2.tasks = s.tasks := by
  unfold __put_task_remote free_remote_context_pages; simp only; split <;> rfl

@[simp] theorem put_task_remote_current_pid (s : State) :
    (__put_task_remote s).2.current_pid = s.current_pid := by
  unfold __put_task_remote free_remote_context_pages; simp only; split <;> rfl

@[simp] theorem put_task_remote_mmap (s : State) :
    (__put_task_remote s).2.mmap = s.mmap := by
  unfold __put_task_remote free_remote_context_pages; simp only; split <;> rfl

@[simp] theorem put_task_remote_pgtable (s : State) :
    (__put_task_remote s).2.pgtable = s.pgtable := by
  unfold __put_task_remote free_remote_context_pages; simp only; split <;> rfl

@[simp] theorem put_task_remote_ptl_busy (s : State) :
    (__put_task_remote s).2.ptl_busy = s.ptl_busy := by
  unfold __put_task_remote free_remote_context_pages; simp only; split <;> rfl

@[simp] theorem put_task_remote_mem (s : State) :
    (__put_task_remote s).2.mem = s.mem := by
  unfold __put_task_remote free_remote_context_pages; simp only; split <;> rfl

@[simp] theorem put_task_remote_next_pfn (s : State) :
    (__put_task_remote s).2.next_pfn = s.next_pfn := by
  unfold __put_task_remote free_remote_context_pages; simp only; split <;> rfl

@[simp] theorem put_task_remote_faults (s : State) :
    (__put_task_remote s).2.faults = s.faults := by
  unfold __put_task_remote free_remote_context_pages; simp only; split <;> rfl

@[simp] theorem put_task_remote_faults_busy (s : State) :
    (__put_task_remote s).2.faults_busy = s.faults_busy := by
  unfold __put_task_remote free_remote_context_pages; simp only; split <;> rfl

@[simp] theorem put_task_remote_heap (s : State) :
    (__put_task_remote s).2.heap = s.heap := by
  unfold __put_task_remote free_remote_context_pages; simp only; split <;> rfl

@[simp] theorem put_task_remote_next_fh (s : State) :
    (__put_task_remote s).2.next_fh = s.next_fh := by
  unfold __put_task_remote free_remote_context_pages; simp only; split <;> rfl

@[simp] theorem put_task_remote_trace (s : State) :
    (__put_task_remote s).2.trace = s.trace := by
  unfold __put_task_remote free_remote_context_pages; simp only; split <;> rfl

@[simp] theorem hlist_del_tasks (s : State) (fh : Nat) : (hlist_del s fh).tasks = s.tasks := rfl

@[simp] theorem hlist_del_current_pid (s : State) (fh : Nat) : (hlist_del s fh).current_pid = s.current_pid := rfl

@[simp] theorem hlist_del_mmap (s : State) (fh : Nat) : (hlist_del s fh).mmap = s.mmap := rfl

@[simp] theorem hlist_del_pgtable (s : State) (fh : Nat) : (hlist_del s fh).pgtable = s.pgtable := rfl

@[simp] theorem hlist_del_ptl_busy (s : State) (fh : Nat) : (hlist_del s fh).ptl_busy = s.ptl_busy := rfl

@[simp] theorem hlist_del_mem (s : State) (fh : Nat) : (hlist_del s fh).mem = s.mem := rfl

@[simp] theorem hlist_del_next_pfn (s : State) (fh : Nat) : (hlist_del s fh).next_pfn = s.next_pfn := rfl

@[simp] theorem hlist_del_count (s : State) (fh : Nat) : (hlist_del s fh).count = s.count := rfl

@[simp] theorem hlist_del_faults_busy (s : State) (fh : Nat) : (hlist_del s fh).faults_busy = s.faults_busy := rfl

@[simp] theorem hlist_del_pages (s : State) (fh : Nat) : (hlist_del s fh).pages = s.pages := rfl

@[simp] theorem hlist_del_rc_linked (s : State) (fh : Nat) : (hlist_del s fh).rc_linked = s.rc_linked := rfl

@[simp] theorem hlist_del_rc_freed (s : State) (fh : Nat) : (hlist_del s fh).rc_freed = s.rc_freed := rfl

@[simp] theorem hlist_del_heap (s : State) (fh : Nat) : (hlist_del s fh).heap = s.heap := rfl

@[simp] theorem hlist_del_next_fh (s : State) (fh : Nat) : (hlist_del s fh).next_fh = s.next_fh := rfl

@[simp] theorem hlist_del_trace (s : State) (fh : Nat) : (hlist_del s fh).trace = s.trace := rfl

@[simp] theorem hlist_del_faults (s : State) (fh : Nat) (k : Nat) :
    (hlist_del s fh).faults k = (s.faults k).erase fh := rfl



theorem SetPageDistributed_eq (P : Params) (s : State) (a : Nat) :
    SetPageDistributed P s a =
      { s with
        pages := Function.update s.pages (__get_page_info_key P a).1 (some (set_bit PI_FLAG_DISTRIBUTED ((s.pages (__get_page_info_key P a).1).getD 0) (__get_page_info_key P a).2)) } := by
  unfold SetPageDistributed __lookup_region
  cases h : s.pages (__get_page_info_key P a).1 <;> simp [h]

theorem SetPageDistributed_table (P : Params) (s : State) (a : Nat) :
    same_fault_table s (SetPageDistributed P s a) := by
  rw [SetPageDistributed_eq]; simp [same_fault_table]

theorem set_page_owner_table (P : Params) (n : Nat) (s s' : State) (a : Nat)
    (h : set_page_owner P n s a = some s') : same_fault_table s s' := by
  unfold set_page_owner at h
  split at h
  · simp at h
  · simp at h; subst h; simp [same_fault_table]

theorem leader_table (P : Params) (n a : Nat) (pte : pte_t) (s : State) (r : Nat × State)
    (h : prefetch_at_origin_leader P n a pte s = some r) : same_fault_table s r.2 := by
  unfold prefetch_at_origin_leader at h
  simp only at h
  split at h
  · simp at h
  · rename_i s3 h3
    split at h
    · simp at h
    · rename_i s4 h4
      simp at h; subst h
      have h1 := SetPageDistributed_table P (s.log (Event.lock (Lock.ptl a))) a
      have h2 := set_page_owner_table _ _ _ _ _ h3
      have h5 := set_page_owner_table _ _ _ _ _ h4
      simp [same_fault_table, ptep_clear_flush, set_pte_at_notify] at *
      refine ⟨?_, ?_, ?_⟩
      · rw [h5.1, h2.1, h1.1]
      · rw [h5.2.1, h2.2.1, h1.2.1]
      · rw [h5.2.2, h2.2.2, h1.2.2]

theorem step_table (P : Params) (req : remote_page_request_t) (e : prefetch_body) (s s' : State)
    (h : prefetch_at_origin_step P req e s = some s') : same_fault_table s s' := by
  unfold prefetch_at_origin_step at h
  simp only at h
  split at h
  · simp at h; subst h; simp [same_fault_table, prefetch_at_origin_post]
  · split at h
    · simp at h
    · split at h
      · simp at h; subst h; simp [same_fault_table, prefetch_at_origin_post]
      · split at h
        · simp at h; subst h; simp [same_fault_table, prefetch_at_origin_post]
        · split at h
          · simp at h
          · split at h
            · split at h
              · simp at h
              · rename_i hl
                simp at h; subst h
                have := leader_table _ _ _ _ _ _ hl
                simpa [same_fault_table, prefetch_at_origin_post] using this
            · simp at h; subst h; simp [same_fault_table, prefetch_at_origin_post]


theorem bucket_addrs_congr {s s' : State} (hf : s'.faults = s.faults) (hh : s'.heap = s.heap) :
    bucket_addrs s' = bucket_addrs s := by
  funext fk; simp [bucket_addrs, hf, hh]

theorem one_handle_congr {s s' : State} (hf : s'.faults = s.faults) (hh : s'.heap = s.heap)
    (h : one_handle_per_addr s) : one_handle_per_addr s' := by
  unfold one_handle_per_addr at *
  rw [bucket_addrs_congr hf hh]; exact h

theorem wf_congr {P : Params} {s s' : State} (hf : s'.faults = s.faults) (hh : s'.heap = s.heap)
    (hn : s'.next_fh = s.next_fh) (h : fault_table_wf P s) : fault_table_wf P s' := by
  unfold fault_table_wf at *
  rw [bucket_addrs_congr hf hh, hf, hn]; exact h

theorem find_fault_handle_none_iff (s : State) (fk a : Nat) :
    find_fault_handle s fk a = none ↔ a ∉ bucket_addrs s fk := by
  unfold find_fault_handle bucket_addrs
  rw [List.find?_eq_none, List.mem_filterMap]
  constructor
  · rintro h ⟨p, hp, hpa⟩
    have := h p hp
    cases hh : s.heap p with
    | none => simp [hh] at hpa
    | some x => simp [hh] at hpa this; exact this hpa
  · intro h p hp
    cases hh : s.heap p with
    | none => simp
    | some x =>
      simp
      intro hx
      exact h ⟨p, hp, by simp [hh, hx]⟩

theorem alloc_bucket_addrs (P : Params) (s : State) (a : Nat)
    (hfresh : ∀ fk, s.next_fh ∉ s.faults fk) (fk : Nat) :
    bucket_addrs (__alloc_fault_handle P s a).2 fk =
      if fk = __fault_hash_key P a then a :: bucket_addrs s fk else bucket_addrs s fk := by
  have hc : ∀ l : List Nat, s.next_fh ∉ l →
      l.filterMap (fun p => (Function.update s.heap s.next_fh (some
        ({ addr := a, flags := 0, limit := 0, pid := s.current_pid, ret := 0,
           pendings := 1, pendings_retry := 0, complete := none } : fault_handle)) p).map
          fun h => h.addr) = l.filterMap fun p => (s.heap p).map fun h => h.addr := by
    intro l hl
    apply List.filterMap_congr
    intro x hx
    have : x ≠ s.next_fh := fun h => hl (h ▸ hx)
    simp [Function.update_noteq this]
  unfold bucket_addrs __alloc_fault_handle get_task_remote
  by_cases hk : fk = __fault_hash_key P a
  · subst hk
    simp [hc _ (hfresh _)]
  · simp [hk, Function.update_noteq hk, hc _ (hfresh fk)]

theorem alloc_one_handle (P : Params) (s : State) (a : Nat) (hwf : fault_table_wf P s)
    (h1 : one_handle_per_addr s) (hnew : a ∉ bucket_addrs s (__fault_hash_key P a)) :
    one_handle_per_addr (__alloc_fault_handle P s a).2 ∧
      fault_table_wf P (__alloc_fault_handle P s a).2 := by
  have hfresh : ∀ fk, s.next_fh ∉ s.faults fk := fun fk => hwf.2 _ fk (Nat.le_refl _)
  have hb := alloc_bucket_addrs P s a hfresh
  refine ⟨⟨?_, ?_⟩, ?_, ?_⟩
  · intro fk
    rw [hb]
    split
    · rename_i hk; subst hk
      exact List.nodup_cons.mpr ⟨hnew, h1.1 _⟩
    · exact h1.1 _
  · intro fk1 fk2 x hx1 hx2
    rw [hb] at hx1 hx2
    have key : ∀ fk, x ∈ (if fk = __fault_hash_key P a then a :: bucket_addrs s fk
        else bucket_addrs s fk) → fk = __fault_hash_key P x := by
      intro fk hx
      split at hx
      · rename_i hk
        rcases List.mem_cons.mp hx with rfl | hx
        · exact hk
        · exact (hwf.1 _ _ hx).symm
      · exact (hwf.1 _ _ hx).symm
    rw [key _ hx1, key _ hx2]
  · intro fk x hx
    rw [hb] at hx
    split at hx
    · rename_i hk
      rcases List.mem_cons.mp hx with rfl | hx
      · exact hk.symm
      · exact hwf.1 _ _ hx
    · exact hwf.1 _ _ hx
  · intro p fk hp
    have hp' : s.next_fh + 1 ≤ p := hp
    have hne : p ≠ s.next_fh := by omega
    have hold := hwf.2 p fk (by omega)
    unfold __alloc_fault_handle get_task_remote
    simp only
    by_cases hk : fk = __fault_hash_key P a
    · subst hk; simp [hne, hold]
    · simp [Function.update_noteq hk, hold]


theorem filterMap_sublist_of_le {α β : Type} (f g : α → Option β) (l : List α)
    (h : ∀ x, g x = f x ∨ g x = none) : (l.filterMap g).Sublist (l.filterMap f) := by
  induction l with
  | nil => simp
  | cons x xs ih =>
    rcases h x with hx | hx
    · cases hf : f x with
      | none => simp [List.filterMap_cons, hx, hf, ih]
      | some y => simp [List.filterMap_cons, hx, hf, ih]
    · cases hf : f x with
      | none => simp [List.filterMap_cons, hx, hf, ih]
      | some y =>
        simp only [List.filterMap_cons, hx, hf]
        exact List.Sublist.cons _ ih

theorem finish_table_shrinks (P : Params) (s : State) (fh : Nat) (r : Bool × State)
    (h : __finish_fault_handling P s fh = some r) : table_shrinks s r.2 := by
  unfold __finish_fault_handling at h
  split at h
  · simp at h
  · rename_i hd hh
    have hupd : ∀ p : Nat,
        (Function.update s.heap fh (some { hd with pendings := hd.pendings - 1 }) p).map
          (fun h => h.addr) = (s.heap p).map (fun h => h.addr) := by
      intro p
      by_cases hp : p = fh
      · subst hp; simp [hh]
      · simp [Function.update_noteq hp]
    simp only at h
    split at h
    · simp at h; subst h
      exact ⟨fun fk => by simp, fun p => Or.inl (by simpa using hupd p), by simp⟩
    · split at h
      · simp at h; subst h
        exact ⟨fun fk => by simp, fun p => Or.inl (by simpa using hupd p), by simp⟩
      · split at h
        · simp at h; subst h
          refine ⟨fun fk => ?_, fun p => Or.inl ?_, ?_⟩
          · simpa [hlist_del] using List.erase_sublist _ _
          · simpa [hlist_del] using hupd p
          · simp [hlist_del]
        · simp at h; subst h
          refine ⟨fun fk => ?_, fun p => ?_, ?_⟩
          · simpa [hlist_del] using List.erase_sublist _ _
          · by_cases hpf : p = fh
            · right; subst hpf; simp
            · left; simp [Function.update_noteq hpf, hlist_del]
          · simp [hlist_del]

theorem shrink_bucket_addrs {s s' : State} (h : table_shrinks s s') (fk : Nat) :
    (bucket_addrs s' fk).Sublist (bucket_addrs s fk) := by
  unfold bucket_addrs
  refine List.Sublist.trans ?_ ((h.1 fk).filterMap _)
  exact filterMap_sublist_of_le _ _ _ fun p => (h.2.1 p).imp id fun hn => by simp [hn]

theorem shrink_one_handle {P : Params} {s s' : State} (h : table_shrinks s s')
    (hwf : fault_table_wf P s) (h1 : one_handle_per_addr s) :
    one_handle_per_addr s' ∧ fault_table_wf P s' := by
  have hs := shrink_bucket_addrs h
  refine ⟨⟨fun fk => (h1.1 fk).sublist (hs fk), fun fk1 fk2 a ha1 ha2 =>
      h1.2 fk1 fk2 a ((hs fk1).subset ha1) ((hs fk2).subset ha2)⟩,
    fun fk a ha => hwf.1 fk a ((hs fk).subset ha), fun p fk hp hm => ?_⟩
  rw [h.2.2] at hp
  exact hwf.2 p fk hp ((h.1 fk).subset hm)


theorem page_is_mine_congr (P : Params) {s s' : State} (h : s'.pages = s.pages) (a : Nat) :
    page_is_mine P s' a = page_is_mine P s a := by
  simp [page_is_mine, __get_page_info, page_info_bits, h]

theorem find_fault_handle_congr {s s' : State} (hf : s'.faults = s.faults)
    (hh : s'.heap = s.heap) (fk a : Nat) :
    find_fault_handle s' fk a = find_fault_handle s fk a := by
  simp [find_fault_handle, hf, hh]

theorem alloc_congr (P : Params) {s s' : State} (hf : s'.faults = s.faults)
    (hh : s'.heap = s.heap) (hn : s'.next_fh = s.next_fh) (hc : s'.current_pid = s.current_pid)
    (a : Nat) :
    (__alloc_fault_handle P s' a).1 = (__alloc_fault_handle P s a).1 ∧
      same_fault_table (__alloc_fault_handle P s a).2 (__alloc_fault_handle P s' a).2 := by
  simp [__alloc_fault_handle, get_task_remote, same_fault_table, hf, hh, hn, hc]

@[simp] theorem find_fault_handle_log (s : State) (e : Event) (fk a : Nat) :
    find_fault_handle (s.log e) fk a = find_fault_handle s fk a := rfl

@[simp] theorem find_fault_handle_get_task_remote (s : State) (fk a : Nat) :
    find_fault_handle (get_task_remote s) fk a = find_fault_handle s fk a := rfl

@[simp] theorem page_is_mine_log (P : Params) (s : State) (e : Event) (a : Nat) :
    page_is_mine P (s.log e) a = page_is_mine P s a := rfl

@[simp] theorem page_is_mine_get_task_remote (P : Params) (s : State) (a : Nat) :
    page_is_mine P (get_task_remote s) a = page_is_mine P s a := rfl

theorem select_step_drop (P : Params) (a : Nat) (s : State) (f : Nat → prefetch_body) (k : Nat)
    (h : qualifies P s a = false) :
    (select_prefetch_pages_step P a (s, f, k)).2 = (f, k) ∧
      same_fault_table s (select_prefetch_pages_step P a (s, f, k)).1 := by
  unfold select_prefetch_pages_step
  simp only
  split
  · simp [same_fault_table]
  · rename_i hv
    split
    · simp [same_fault_table]
    · rename_i pte hp
      split
      · simp [same_fault_table]
      · rename_i hb
        split
        · simp [same_fault_table, get_task_remote]
        · rename_i hfb
          split
          · rename_i hq
            exfalso
            simp at hfb hq
            simp [qualifies, hv, hp, hb, hfb, hq.1, hq.2] at h
          · simp [same_fault_table, get_task_remote]

theorem select_step_claim (P : Params) (a : Nat) (s : State) (f : Nat → prefetch_body) (k : Nat)
    (h : qualifies P s a = true) :
    (select_prefetch_pages_step P a (s, f, k)).2 = (add_pf_list_at f a s.next_fh k, k + 1) ∧
      same_fault_table (__alloc_fault_handle P s a).2
        (select_prefetch_pages_step P a (s, f, k)).1 := by
  simp only [qualifies, Bool.and_eq_true, Bool.not_eq_true', Option.isSome_iff_exists,
    Option.isNone_iff_eq_none] at h
  obtain ⟨⟨⟨⟨⟨hv, pte, hp⟩, hb⟩, hfb⟩, hfind⟩, hmine⟩ := h
  unfold select_prefetch_pages_step
  simp only [hv, hp, hb, get_task_remote_faults_busy, log_faults_busy, hfb,
    find_fault_handle_log, find_fault_handle_get_task_remote, hfind, page_is_mine_log,
    page_is_mine_get_task_remote, hmine]
  simp [same_fault_table, __alloc_fault_handle, get_task_remote]


theorem same_fault_table_inv {P : Params} {s s' : State} (h : same_fault_table s s')
    (hwf : fault_table_wf P s) (h1 : one_handle_per_addr s) :
    one_handle_per_addr s' ∧ fault_table_wf P s' :=
  ⟨one_handle_congr h.1 h.2.1 h1, wf_congr h.1 h.2.1 h.2.2 hwf⟩

theorem select_step_inv (P : Params) (a : Nat) (c : State × (Nat → prefetch_body) × Nat)
    (hwf : fault_table_wf P c.1) (h1 : one_handle_per_addr c.1) :
    one_handle_per_addr (select_prefetch_pages_step P a c).1 ∧
      fault_table_wf P (select_prefetch_pages_step P a c).1 := by
  obtain ⟨s, f, k⟩ := c
  cases hq : qualifies P s a with
  | false => exact same_fault_table_inv (select_step_drop P a s f k hq).2 hwf h1
  | true =>
    have hnew : a ∉ bucket_addrs s (__fault_hash_key P a) := by
      rw [← find_fault_handle_none_iff]
      simp only [qualifies, Bool.and_eq_true, Option.isNone_iff_eq_none] at hq
      exact hq.1.2
    have ha := alloc_one_handle P s a hwf h1 hnew
    exact same_fault_table_inv (select_step_claim P a s f k hq).2 ha.2 ha.1

theorem select_loop_inv (P : Params) (l : List prefetch_body) :
    ∀ (c c' : State × (Nat → prefetch_body) × Nat), fault_table_wf P c.1 →
      one_handle_per_addr c.1 → select_prefetch_pages_loop P l c = some c' →
      one_handle_per_addr c'.1 ∧ fault_table_wf P c'.1 := by
  induction l with
  | nil => intro c c' _ _ h; simp [select_prefetch_pages_loop] at h
  | cons e rest ih =>
    intro c c' hwf h1 h
    unfold select_prefetch_pages_loop at h
    split at h
    · simp at h; subst h; exact ⟨h1, hwf⟩
    · have hs := select_step_inv P e.addr c hwf h1
      exact ih _ _ hs.2 hs.1 h

theorem select_inv (P : Params) (s : State) (l : List prefetch_body)
    (r : Option (Nat → prefetch_body) × State) (hwf : fault_table_wf P s)
    (h1 : one_handle_per_addr s) (h : select_prefetch_pages P s l = some r) :
    one_handle_per_addr r.2 ∧ fault_table_wf P r.2 := by
  unfold select_prefetch_pages at h
  split at h
  · simp at h
  · split at h
    · simp at h; subst h
      exact same_fault_table_inv ⟨rfl, rfl, rfl⟩ hwf h1
    · split at h
      · simp at h
      · rename_i c hc
        have hl := select_loop_inv P _ _ _ hwf h1 hc
        split at h
        · simp at h; subst h
          exact same_fault_table_inv ⟨rfl, rfl, rfl⟩ hl.2 hl.1
        · simp at h; subst h
          exact same_fault_table_inv ⟨rfl, rfl, rfl⟩ hl.2 hl.1

theorem origin_loop_table (P : Params) (req : remote_page_request_t) (l : List prefetch_body) :
    ∀ s s' : State, prefetch_at_origin_loop P req l s = some s' → same_fault_table s s' := by
  induction l with
  | nil => intro s s' h; simp [prefetch_at_origin_loop] at h
  | cons e rest ih =>
    intro s s' h
    unfold prefetch_at_origin_loop at h
    split at h
    · simp at h; subst h; exact ⟨rfl, rfl, rfl⟩
    · split at h
      · simp at h
      · rename_i s1 h1
        have ha := step_table P req e s s1 h1
        have hb := ih s1 s' h
        exact ⟨hb.1.trans ha.1, hb.2.1.trans ha.2.1, hb.2.2.trans ha.2.2⟩

theorem origin_table (P : Params) (s : State) (req : remote_page_request_t) (r : Int × State)
    (h : prefetch_at_origin P s req = some r) : same_fault_table s r.2 := by
  unfold prefetch_at_origin at h
  split at h
  · simp at h
  · split at h
    · simp at h; subst h; exact ⟨rfl, rfl, rfl⟩
    · split at h
      · simp at h; subst h; exact ⟨rfl, rfl, rfl⟩
      · simp only at h
        split at h
        · simp at h
        · rename_i s2 h2
          simp at h; subst h
          have := origin_loop_table P req _ _ _ h2
          exact ⟨this.1, this.2.1, this.2.2⟩

theorem SetPageDistributed_only_pages (P : Params) (s : State) (a : Nat) :
    only_pages s (SetPageDistributed P s a) := by
  rw [SetPageDistributed_eq]; rfl

theorem set_page_owner_only_pages (P : Params) (n : Nat) (s s' : State) (a : Nat)
    (h : set_page_owner P n s a = some s') : only_pages s s' := by
  unfold set_page_owner at h
  split at h
  · simp at h
  · simp at h; subst h; rfl

theorem make_pte_valid_table (P : Params) (s s' : State) (a ff : Nat) (old : pte_t)
    (h : __make_pte_valid P s a ff old = some s') : same_fault_table s s' := by
  unfold __make_pte_valid at h
  simp only at h
  have h1 := SetPageDistributed_table P (set_pte_at_notify P s a
    (if fault_for_write ff = true then pte_mkdirty (pte_mkwrite (pte_make_valid old))
      else pte_wrprotect (pte_make_valid old))) a
  have h2 := set_page_owner_table _ _ _ _ _ h
  exact ⟨h2.1.trans h1.1, h2.2.1.trans h1.2.1, h2.2.2.trans h1.2.2⟩

theorem install_table (P : Params) (s s' : State) (res : remote_prefetch_response_t)
    (h : install_prefetched_page P s res = some s') : same_fault_table s s' := by
  unfold install_prefetched_page at h
  split at h
  · simp at h
  · rename_i pte hp
    simp only at h
    split at h
    · simp at h
    · rename_i s4 h4
      simp at h; subst h
      split at h4
      · simp at h4; subst h4
        simp [same_fault_table, do_set_pte, set_pte_at_notify, copy_to_user_page, alloc_page_vma]
      · have := make_pte_valid_table _ _ _ _ _ _ h4
        simpa [same_fault_table, copy_to_user_page] using this

theorem body_table (P : Params) (s : State) (res : remote_prefetch_response_t)
    (r : State × remote_prefetch_response_t)
    (h : process_remote_prefetch_response_body P s res = some r) : same_fault_table s r.1 := by
  unfold process_remote_prefetch_response_body at h
  split at h
  · simp at h; subst h; exact ⟨rfl, rfl, rfl⟩
  · split at h
    · simp at h; subst h; exact ⟨rfl, rfl, rfl⟩
    · split at h
      · simp at h
      · split at h
        · split at h
          · simp at h
          · rename_i s1 h1
            simp at h; subst h
            exact install_table _ _ _ _ h1
        · split at h
          · simp at h; subst h; exact ⟨rfl, rfl, rfl⟩
          · simp at h

theorem response_inv (P : Params) (s : State) (res : remote_prefetch_response_t)
    (r : State × remote_prefetch_response_t) (hwf : fault_table_wf P s)
    (h1 : one_handle_per_addr s) (h : process_remote_prefetch_response P s res = some r) :
    one_handle_per_addr r.1 ∧ fault_table_wf P r.1 := by
  unfold process_remote_prefetch_response at h
  split at h
  · simp at h
  · rename_i s1 res1 hb
    have hi := same_fault_table_inv (body_table P s res _ hb) hwf h1
    split at h
    · split at h
      · simp at h
      · rename_i r2 hf
        simp at h; subst h
        exact shrink_one_handle (finish_table_shrinks P _ _ _ hf) hi.2 hi.1
    · simp at h; subst h; exact hi


theorem page_info_bit_eq (P : Params) (s : State) (nr a : Nat) :
    page_info_bit P s nr a =
      region_bit s (__get_page_info_key P a).1
        (BITS_PER_LONG * (__get_page_info_key P a).2 + nr) := by
  unfold page_info_bit region_bit __get_page_info page_info_bits test_bit
  cases h : s.pages (__get_page_info_key P a).1 <;> simp [h]

theorem page_is_mine_of_bit (P : Params) (s : State) (a : Nat)
    (h : page_info_bit P s P.my_nid a = true) : page_is_mine P s a = true := by
  unfold page_info_bit at h
  unfold page_is_mine
  split
  · rfl
  · rename_i pi hpi
    simp only [hpi] at h
    simp [h]

theorem pages_grow_refl (s : State) : pages_grow s s := fun _ _ h => h

theorem pages_grow_trans {s1 s2 s3 : State} (h12 : pages_grow s1 s2) (h23 : pages_grow s2 s3) :
    pages_grow s1 s3 := fun k i h => h23 k i (h12 k i h)

theorem pages_grow_of_eq {s s' : State} (h : s'.pages = s.pages) : pages_grow s s' := by
  intro k i hb; unfold region_bit at *; rw [h]; exact hb

theorem region_bit_set (s : State) (key off nr i : Nat) (pg : Nat → Option Nat)
    (hpg : pg = Function.update s.pages key (some (set_bit nr ((s.pages key).getD 0) off))) :
    region_bit { s with pages := pg } key (BITS_PER_LONG * off + nr) = true ∧
      (region_bit s key i = true → region_bit { s with pages := pg } key i = true) ∧
      ∀ k, k ≠ key → region_bit { s with pages := pg } k = region_bit s k := by
  subst hpg
  refine ⟨?_, ?_, ?_⟩
  · simp [region_bit, set_bit, Nat.testBit_or, Nat.one_shiftLeft, Nat.testBit_two_pow_self]
  · intro h
    unfold region_bit at *
    cases hp : s.pages key with
    | none => simp [hp] at h
    | some r =>
      simp only [hp] at h
      simp [set_bit, Nat.testBit_or, h]
  · intro k hk
    funext j
    simp [region_bit, Function.update_noteq hk]

theorem set_bit_grow (s : State) (key off nr : Nat) :
    pages_grow s
      { s with pages := Function.update s.pages key (some (set_bit nr ((s.pages key).getD 0) off)) } := by
  intro k i h
  by_cases hk : k = key
  · subst hk; exact (region_bit_set s k off nr i _ rfl).2.1 h
  · rw [(region_bit_set s key off nr i _ rfl).2.2 k hk]; exact h

theorem SetPageDistributed_grow (P : Params) (s : State) (a : Nat) :
    pages_grow s (SetPageDistributed P s a) := by
  rw [SetPageDistributed_eq]; exact set_bit_grow s _ _ _

theorem SetPageDistributed_bit (P : Params) (s : State) (a : Nat) :
    page_info_bit P (SetPageDistributed P s a) PI_FLAG_DISTRIBUTED a = true := by
  rw [page_info_bit_eq, SetPageDistributed_eq]
  exact (region_bit_set s _ _ _ 0 _ rfl).1

theorem set_page_owner_eq (P : Params) (n : Nat) (s s' : State) (a : Nat)
    (h : set_page_owner P n s a = some s') :
    s' =
      { s with
        pages := Function.update s.pages (__get_page_info_key P a).1 (some (set_bit n ((s.pages (__get_page_info_key P a).1).getD 0) (__get_page_info_key P a).2)) } := by
  unfold set_page_owner __get_page_info page_info_bits at h
  cases hp : s.pages (__get_page_info_key P a).1 with
  | none => simp [hp] at h
  | some r => simp [hp] at h; subst h; simp [hp]

theorem set_page_owner_grow (P : Params) (n : Nat) (s s' : State) (a : Nat)
    (h : set_page_owner P n s a = some s') : pages_grow s s' := by
  rw [set_page_owner_eq P n s s' a h]; exact set_bit_grow s _ _ _

theorem set_page_owner_bit (P : Params) (n : Nat) (s s' : State) (a : Nat)
    (h : set_page_owner P n s a = some s') : page_info_bit P s' n a = true := by
  rw [page_info_bit_eq, set_page_owner_eq P n s s' a h]
  exact (region_bit_set s _ _ _ 0 _ rfl).1

theorem set_page_owner_isSome (P : Params) (n : Nat) (s : State) (a : Nat)
    (h : (s.pages (__get_page_info_key P a).1).isSome = true) :
    (set_page_owner P n s a).isSome = true := by
  unfold set_page_owner __get_page_info
  cases hp : s.pages (__get_page_info_key P a).1 with
  | none => simp [hp] at h
  | some r => simp [hp]

theorem SetPageDistributed_region (P : Params) (s : State) (a : Nat) :
    ((SetPageDistributed P s a).pages (__get_page_info_key P a).1).isSome = true := by
  rw [SetPageDistributed_eq]; simp

theorem page_info_bit_grow (P : Params) {s s' : State} (h : pages_grow s s') (nr a : Nat)
    (hb : page_info_bit P s nr a = true) : page_info_bit P s' nr a = true := by
  rw [page_info_bit_eq] at *; exact h _ _ hb

@[simp] theorem set_pte_at_notify_tasks (P : Params) (s : State) (a : Nat) (e : pte_t) :
    (set_pte_at_notify P s a e).tasks = s.tasks := rfl

@[simp] theorem set_pte_at_notify_current_pid (P : Params) (s : State) (a : Nat) (e : pte_t) :
    (set_pte_at_notify P s a e).current_pid = s.current_pid := rfl

@[simp] theorem set_pte_at_notify_mmap (P : Params) (s : State) (a : Nat) (e : pte_t) :
    (set_pte_at_notify P s a e).mmap = s.mmap := rfl

@[simp] theorem set_pte_at_notify_ptl_busy (P : Params) (s : State) (a : Nat) (e : pte_t) :
    (set_pte_at_notify P s a e).ptl_busy = s.ptl_busy := rfl

@[simp] theorem set_pte_at_notify_mem (P : Params) (s : State) (a : Nat) (e : pte_t) :
    (set_pte_at_notify P s a e).mem = s.mem := rfl

@[simp] theorem set_pte_at_notify_next_pfn (P : Params) (s : State) (a : Nat) (e : pte_t) :
    (set_pte_at_notify P s a e).next_pfn = s.next_pfn := rfl

@[simp] theorem set_pte_at_notify_count (P : Params) (s : State) (a : Nat) (e : pte_t) :
    (set_pte_at_notify P s a e).count = s.count := rfl

@[simp] theorem set_pte_at_notify_faults (P : Params) (s : State) (a : Nat) (e : pte_t) :
    (set_pte_at_notify P s a e).faults = s.faults := rfl

@[simp] theorem set_pte_at_notify_faults_busy (P : Params) (s : State) (a : Nat) (e : pte_t) :
    (set_pte_at_notify P s a e).faults_busy = s.faults_busy := rfl

@[simp] theorem set_pte_at_notify_pages (P : Params) (s : State) (a : Nat) (e : pte_t) :
    (set_pte_at_notify P s a e).pages = s.pages := rfl

@[simp] theorem set_pte_at_notify_rc_linked (P : Params) (s : State) (a : Nat) (e : pte_t) :
    (set_pte_at_notify P s a e).rc_linked = s.rc_linked := rfl

@[simp] theorem set_pte_at_notify_rc_freed (P : Params) (s : State) (a : Nat) (e : pte_t) :
    (set_pte_at_notify P s a e).rc_freed = s.rc_freed := rfl

@[simp] theorem set_pte_at_notify_heap (P : Params) (s : State) (a : Nat) (e : pte_t) :
    (set_pte_at_notify P s a e).heap = s.heap := rfl

@[simp] theorem set_pte_at_notify_next_fh (P : Params) (s : State) (a : Nat) (e : pte_t) :
    (set_pte_at_notify P s a e).next_fh = s.next_fh := rfl

@[simp] theorem set_pte_at_notify_trace (P : Params) (s : State) (a : Nat) (e : pte_t) :
    (set_pte_at_notify P s a e).trace = s.trace := rfl

@[simp] theorem copy_to_user_page_tasks (s : State) (p d : Nat) :
    (copy_to_user_page s p d).tasks = s.tasks := rfl

@[simp] theorem copy_to_user_page_current_pid (s : State) (p d : Nat) :
    (copy_to_user_page s p d).current_pid = s.current_pid := rfl

@[simp] theorem copy_to_user_page_mmap (s : State) (p d : Nat) :
    (copy_to_user_page s p d).mmap = s.mmap := rfl

@[simp] theorem copy_to_user_page_pgtable (s : State) (p d : Nat) :
    (copy_to_user_page s p d).pgtable = s.pgtable := rfl

@[simp] theorem copy_to_user_page_ptl_busy (s : State) (p d : Nat) :
    (copy_to_user_page s p d).ptl_busy = s.ptl_busy := rfl

@[simp] theorem copy_to_user_page_next_pfn (s : State) (p d : Nat) :
    (copy_to_user_page s p d).next_pfn = s.next_pfn := rfl

@[simp] theorem copy_to_user_page_count (s : State) (p d : Nat) :
    (copy_to_user_page s p d).count = s.count := rfl

@[simp] theorem copy_to_user_page_faults (s : State) (p d : Nat) :
    (copy_to_user_page s p d).faults = s.faults := rfl

@[simp] theorem copy_to_user_page_faults_busy (s : State) (p d : Nat) :
    (copy_to_user_page s p d).faults_busy = s.faults_busy := rfl

@[simp] theorem copy_to_user_page_pages (s : State) (p d : Nat) :
    (copy_to_user_page s p d).pages = s.pages := rfl

@[simp] theorem copy_to_user_page_rc_linked (s : State) (p d : Nat) :
    (copy_to_user_page s p d).rc_linked = s.rc_linked := rfl

@[simp] theorem copy_to_user_page_rc_freed (s : State) (p d : Nat) :
    (copy_to_user_page s p d).rc_freed = s.rc_freed := rfl

@[simp] theorem copy_to_user_page_heap (s : State) (p d : Nat) :
    (copy_to_user_page s p d).heap = s.heap := rfl

@[simp] theorem copy_to_user_page_next_fh (s : State) (p d : Nat) :
    (copy_to_user_page s p d).next_fh = s.next_fh := rfl

@[simp] theorem copy_to_user_page_trace (s : State) (p d : Nat) :
    (copy_to_user_page s p d).trace = s.trace := rfl

@[simp] theorem alloc_page_vma_tasks (s : State) : (alloc_page_vma s).2.tasks = s.tasks := rfl

@[simp] theorem alloc_page_vma_current_pid (s : State) : (alloc_page_vma s).2.current_pid = s.current_pid := rfl

@[simp] theorem alloc_page_vma_mmap (s : State) : (alloc_page_vma s).2.mmap = s.mmap := rfl

@[simp] theorem alloc_page_vma_pgtable (s : State) : (alloc_page_vma s).2.pgtable = s.pgtable := rfl

@[simp] theorem alloc_page_vma_ptl_busy (s : State) : (alloc_page_vma s).2.ptl_busy = s.ptl_busy := rfl

@[simp] theorem alloc_page_vma_mem (s : State) : (alloc_page_vma s).2.mem = s.mem := rfl

@[simp] theorem alloc_page_vma_count (s : State) : (alloc_page_vma s).2.count = s.count := rfl

@[simp] theorem alloc_page_vma_faults (s : State) : (alloc_page_vma s).2.faults = s.faults := rfl

@[simp] theorem alloc_page_vma_faults_busy (s : State) : (alloc_page_vma s).2.faults_busy = s.faults_busy := rfl

@[simp] theorem alloc_page_vma_pages (s : State) : (alloc_page_vma s).2.pages = s.pages := rfl

@[simp] theorem alloc_page_vma_rc_linked (s : State) : (alloc_page_vma s).2.rc_linked = s.rc_linked := rfl

@[simp] theorem alloc_page_vma_rc_freed (s : State) : (alloc_page_vma s).2.rc_freed = s.rc_freed := rfl

@[simp] theorem alloc_page_vma_heap (s : State) : (alloc_page_vma s).2.heap = s.heap := rfl

@[simp] theorem alloc_page_vma_next_fh (s : State) : (alloc_page_vma s).2.next_fh = s.next_fh := rfl

@[simp] theorem alloc_page_vma_trace (s : State) : (alloc_page_vma s).2.trace = s.trace := rfl

theorem only_pages_fields {s s' : State} (h : only_pages s s') :
    s'.tasks = s.tasks ∧
      s'.current_pid = s.current_pid ∧
      s'.mmap = s.mmap ∧
      s'.pgtable = s.pgtable ∧
      s'.ptl_busy = s.ptl_busy ∧
      s'.mem = s.mem ∧
      s'.next_pfn = s.next_pfn ∧
      s'.count = s.count ∧
      s'.faults = s.faults ∧
      s'.faults_busy = s.faults_busy ∧
      s'.rc_linked = s.rc_linked ∧
      s'.rc_freed = s.rc_freed ∧
      s'.heap = s.heap ∧
      s'.next_fh = s.next_fh ∧
      s'.trace = s.trace := by
  unfold only_pages at h
  rw [h]
  exact ⟨rfl, rfl, rfl, rfl, rfl, rfl, rfl, rfl, rfl, rfl, rfl, rfl, rfl, rfl, rfl⟩

theorem posted_log_post (s : State) (n : Nat) (r : remote_prefetch_response_t) (z : res_size_t) :
    posted (s.log (Event.pcn_kmsg_post n r z)) = posted s ++ [(n, r)] := by
  simp [posted, State.log, List.filterMap_append]

@[simp] theorem posted_log_lock (s : State) (l : Lock) :
    posted (s.log (Event.lock l)) = posted s := by
  simp [posted, State.log, List.filterMap_append]

@[simp] theorem posted_log_unlock (s : State) (l : Lock) :
    posted (s.log (Event.unlock l)) = posted s := by
  simp [posted, State.log, List.filterMap_append]

theorem posted_congr {s s' : State} (h : s'.trace = s.trace) : posted s' = posted s := by
  simp [posted, h]

theorem origin_frame_refl (s : State) : origin_frame s s :=
  ⟨rfl, rfl, rfl, rfl, rfl, rfl, rfl, rfl, fun _ h => h, pages_grow_refl s⟩

theorem origin_frame_trans {s1 s2 s3 : State} (a : origin_frame s1 s2) (b : origin_frame s2 s3) :
    origin_frame s1 s3 :=
  ⟨b.tasks.trans a.tasks, b.mmap.trans a.mmap, b.ptl_busy.trans a.ptl_busy,
   b.faults_busy.trans a.faults_busy, b.faults.trans a.faults, b.heap.trans a.heap,
   b.next_fh.trans a.next_fh, b.count.trans a.count, fun pn h => b.pgtable pn (a.pgtable pn h),
   pages_grow_trans a.pages b.pages⟩

theorem origin_frame_log (s : State) (e : Event) : origin_frame s (s.log e) :=
  ⟨rfl, rfl, rfl, rfl, rfl, rfl, rfl, rfl, fun _ h => h, pages_grow_of_eq rfl⟩

theorem origin_frame_only_pages {s s' : State} (h : only_pages s s') (hg : pages_grow s s') :
    origin_frame s s' := by
  have f := only_pages_fields h
  exact ⟨f.1, f.2.2.1, f.2.2.2.2.1, f.2.2.2.2.2.2.2.2.2.1, f.2.2.2.2.2.2.2.2.1,
    f.2.2.2.2.2.2.2.2.2.2.2.2.1, f.2.2.2.2.2.2.2.2.2.2.2.2.2.1, f.2.2.2.2.2.2.2.1,
    fun pn hp => by rw [f.2.2.2.1]; exact hp, hg⟩

theorem origin_frame_set_pte (P : Params) (s : State) (a : Nat) (e : pte_t) :
    origin_frame s (set_pte_at_notify P s a e) := by
  refine ⟨rfl, rfl, rfl, rfl, rfl, rfl, rfl, rfl, fun pn hp => ?_, pages_grow_of_eq rfl⟩
  unfold set_pte_at_notify
  by_cases h : pn = a >>> P.PAGE_SHIFT
  · subst h; simp
  · simpa [Function.update_noteq h] using hp

/-- The hand-off block always completes (the region exists once
`SetPageDistributed` has run) and leaves the three bits set. -/
theorem leader_spec (P : Params) (n a : Nat) (pte : pte_t) (s : State) :
    ∃ r, prefetch_at_origin_leader P n a pte s = some r ∧ origin_frame s r.2 ∧
      handed_off P r.2 n a ∧ posted r.2 = posted s := by
  have hr := SetPageDistributed_region P (s.log (Event.lock (Lock.ptl a))) a
  have hd := SetPageDistributed_bit P (s.log (Event.lock (Lock.ptl a))) a
  have h3s := set_page_owner_isSome P n _ a hr
  obtain ⟨s3, h3⟩ := Option.isSome_iff_exists.mp h3s
  have e3 := set_page_owner_eq P n _ s3 a h3
  have hr3 : ((set_pte_at_notify P s3 a pte_zero).pages (__get_page_info_key P a).1).isSome
      = true := by
    rw [set_pte_at_notify_pages, e3]; simp
  have h4s := set_page_owner_isSome P P.my_nid _ a hr3
  obtain ⟨s4, h4⟩ := Option.isSome_iff_exists.mp h4s
  have hl : prefetch_at_origin_leader P n a pte s =
      some (copy_page_to_msg ((set_pte_at_notify P s4 a (pte_wrprotect (pte_make_valid pte))).log
          (Event.unlock (Lock.ptl a))) (pte_wrprotect (pte_make_valid pte)),
        (set_pte_at_notify P s4 a (pte_wrprotect (pte_make_valid pte))).log
          (Event.unlock (Lock.ptl a))) := by
    simp only [prefetch_at_origin_leader, ptep_clear_flush, h3, h4]
  refine ⟨_, hl, ?_, ?_, ?_⟩
  · have f1 := origin_frame_log s (Event.lock (Lock.ptl a))
    have f2 := origin_frame_only_pages (SetPageDistributed_only_pages P _ a)
      (SetPageDistributed_grow P (s.log (Event.lock (Lock.ptl a))) a)
    have f3 := origin_frame_only_pages (set_page_owner_only_pages _ _ _ _ _ h3)
      (set_page_owner_grow _ _ _ _ _ h3)
    have f4 := origin_frame_set_pte P s3 a pte_zero
    have f5 := origin_frame_only_pages (set_page_owner_only_pages _ _ _ _ _ h4)
      (set_page_owner_grow _ _ _ _ _ h4)
    have f6 := origin_frame_set_pte P s4 a (pte_wrprotect (pte_make_valid pte))
    have f7 := origin_frame_log (set_pte_at_notify P s4 a (pte_wrprotect (pte_make_valid pte)))
      (Event.unlock (Lock.ptl a))
    exact origin_frame_trans f1 (origin_frame_trans f2 (origin_frame_trans f3
      (origin_frame_trans f4 (origin_frame_trans f5 (origin_frame_trans f6 f7)))))
  · have g3 := set_page_owner_grow _ _ _ _ _ h3
    have g4 := set_page_owner_grow _ _ _ _ _ h4
    have b3 := set_page_owner_bit _ _ _ _ _ h3
    have b4 := set_page_owner_bit _ _ _ _ _ h4
    have g34 : pages_grow s3 s4 :=
      pages_grow_trans (@pages_grow_of_eq s3 (set_pte_at_notify P s3 a pte_zero) rfl)
        g4
    have gfin : pages_grow s4 ((set_pte_at_notify P s4 a
        (pte_wrprotect (pte_make_valid pte))).log (Event.unlock (Lock.ptl a))) :=
      pages_grow_of_eq rfl
    refine ⟨?_, ?_, ?_⟩
    · exact page_info_bit_grow P (pages_grow_trans g3 (pages_grow_trans g34 gfin)) _ _ hd
    · exact page_info_bit_grow P (pages_grow_trans g34 gfin) _ _ b3
    · exact page_info_bit_grow P gfin _ _ b4
  · have t2 := (only_pages_fields (SetPageDistributed_only_pages P
      (s.log (Event.lock (Lock.ptl a))) a)).2.2.2.2.2.2.2.2.2.2.2.2.2.2
    have t3 := (only_pages_fields
      (set_page_owner_only_pages _ _ _ _ _ h3)).2.2.2.2.2.2.2.2.2.2.2.2.2.2
    have t4 := (only_pages_fields
      (set_page_owner_only_pages _ _ _ _ _ h4)).2.2.2.2.2.2.2.2.2.2.2.2.2.2
    simp only [set_pte_at_notify_trace] at t4
    simp [posted, t4, t3, t2, List.filterMap_append]

theorem origin_decide_cases (found mine : Bool) :
    prefetch_at_origin_decide found mine =
      if !found && mine then
        some (PREFETCH_SUCCESS, res_size_t.remote_prefetch_response_t, true)
      else some (PREFETCH_FAIL, res_size_t.remote_prefetch_fail_t, false) := by
  cases found <;> cases mine <;> rfl

theorem posted_origin_post (req : remote_page_request_t) (e : prefetch_body) (result page : Nat)
    (size : res_size_t) (s : State) :
    posted (prefetch_at_origin_post req e result page size s) =
      posted s ++ [(req.from_nid, prefetch_at_origin_reply req e result page)] :=
  posted_log_post _ _ _ _

theorem origin_frame_post (req : remote_page_request_t) (e : prefetch_body) (result page : Nat)
    (size : res_size_t) (s : State) :
    origin_frame s (prefetch_at_origin_post req e result page size s) :=
  origin_frame_log _ _

theorem origin_frame_locks (s : State) (a b c : Event) :
    origin_frame s (((s.log a).log b).log c) :=
  origin_frame_trans (origin_frame_log s a)
    (origin_frame_trans (origin_frame_log (s.log a) b) (origin_frame_log ((s.log a).log b) c))

theorem origin_step_spec (P : Params) (req : remote_page_request_t) (e : prefetch_body)
    (s s' : State) (h : prefetch_at_origin_step P req e s = some s') :
    ∃ res, posted s' = posted s ++ [(req.from_nid, res)] ∧ res.addr = e.addr ∧
      res.fh = e.fh ∧ res.remote_pid = req.remote_pid ∧ res.origin_pid = req.origin_pid ∧
      origin_frame s s' ∧
      ((res.result = PREFETCH_SUCCESS ∧ origin_grants P s e.addr = true ∧
          handed_off P s' req.from_nid e.addr) ∨
        (res.result = PREFETCH_FAIL ∧ origin_grants P s e.addr = false ∧
          s'.pages = s.pages)) := by
  unfold prefetch_at_origin_step at h
  simp only at h
  split at h
  · rename_i hv
    simp at h; subst h
    exact ⟨_, posted_origin_post _ _ _ _ _ _, rfl, rfl, rfl, rfl, origin_frame_post _ _ _ _ _ _,
      Or.inr ⟨rfl, by simp [origin_grants, hv], rfl⟩⟩
  · rename_i hv
    split at h
    · simp at h
    · rename_i pte hp
      split at h
      · rename_i hb
        simp at h; subst h
        exact ⟨_, posted_origin_post _ _ _ _ _ _, rfl, rfl, rfl, rfl,
          origin_frame_post _ _ _ _ _ _, Or.inr ⟨rfl, by simp [origin_grants, hb], rfl⟩⟩
      · rename_i hb
        split at h
        · rename_i hfb
          simp at h; subst h
          refine ⟨prefetch_at_origin_reply req e PREFETCH_FAIL 0, ?_, rfl, rfl, rfl, rfl, ?_,
            Or.inr ⟨rfl, ?_, rfl⟩⟩
          · rw [posted_origin_post]; simp
          · exact origin_frame_trans (origin_frame_trans (origin_frame_log s _)
              (origin_frame_log _ _)) (origin_frame_post _ _ _ _ _ _)
          · simp at hfb; simp [origin_grants, hfb]
        · rename_i hfb
          simp only [log_faults_busy, Bool.not_eq_true] at hfb
          simp only [find_fault_handle_log, page_is_mine_log, origin_decide_cases] at h
          split at h
          · simp at h
          · rename_i result size leader hdec
            have f3 : origin_frame s (((s.log (Event.lock (Lock.ptl e.addr))).log
                (Event.lock (Lock.faults_lock (__fault_hash_key P e.addr)))).log
                (Event.unlock (Lock.ptl e.addr))) := origin_frame_locks s _ _ _
            split at hdec
            · rename_i hg
              simp at hdec
              obtain ⟨rfl, rfl, rfl⟩ := hdec
              simp only [if_true] at h
              obtain ⟨⟨page, s3⟩, hl, hfr, hho, hpo⟩ := leader_spec P req.from_nid e.addr pte
                (((s.log (Event.lock (Lock.ptl e.addr))).log
                  (Event.lock (Lock.faults_lock (__fault_hash_key P e.addr)))).log
                  (Event.unlock (Lock.ptl e.addr)))
              rw [hl] at h
              simp only [Option.some.injEq] at h
              subst h
              simp only at hfr hho hpo
              refine ⟨prefetch_at_origin_reply req e PREFETCH_SUCCESS page, ?_, rfl, rfl, rfl,
                rfl, ?_, Or.inl ⟨rfl, ?_, ?_⟩⟩
              · rw [posted_origin_post]; simp [hpo]
              · exact origin_frame_trans f3 (origin_frame_trans hfr
                  (origin_frame_trans (origin_frame_log s3 _) (origin_frame_post _ _ _ _ _ _)))
              · simp at hg
                simp [origin_grants, hv, hb, hfb, hg.1, hg.2]
              · exact ⟨hho.1, hho.2.1, hho.2.2⟩
            · rename_i hg
              simp at hdec
              obtain ⟨rfl, rfl, rfl⟩ := hdec
              simp only [Bool.false_eq_true, if_false, Option.some.injEq] at h
              subst h
              refine ⟨prefetch_at_origin_reply req e PREFETCH_FAIL 0, ?_, rfl, rfl, rfl, rfl, ?_,
                Or.inr ⟨rfl, ?_, ?_⟩⟩
              · rw [posted_origin_post]; simp
              · exact origin_frame_trans f3
                  (origin_frame_trans (origin_frame_log _ (Event.unlock (Lock.faults_lock
                    (__fault_hash_key P e.addr)))) (origin_frame_post _ _ _ _ _ _))
              rotate_left
              · simp [prefetch_at_origin_post]
              · simp at hg
                simp only [origin_grants, Bool.and_eq_false_iff]
                cases hfind : find_fault_handle s (__fault_hash_key P e.addr) e.addr with
                | none => right; exact hg hfind
                | some x => left; right; rfl

theorem origin_step_total (P : Params) (req : remote_page_request_t) (e : prefetch_body)
    (s : State) (hpt : no_vma s e.addr = false → (__get_pte_at P s e.addr).isSome = true) :
    (prefetch_at_origin_step P req e s).isSome = true := by
  unfold prefetch_at_origin_step
  simp only
  split
  · rfl
  · rename_i hv
    simp at hv
    obtain ⟨pte, hp⟩ := Option.isSome_iff_exists.mp (hpt hv)
    simp only [hp]
    split
    · rfl
    · split
      · rfl
      · simp only [origin_decide_cases]
        split
        · rename_i hd; split at hd <;> simp at hd
        · rename_i result size leader hd
          split
          · obtain ⟨⟨page, s3⟩, hl, _⟩ := leader_spec P req.from_nid e.addr pte
              (((s.log (Event.lock (Lock.ptl e.addr))).log
                (Event.lock (Lock.faults_lock (__fault_hash_key P e.addr)))).log
                (Event.unlock (Lock.ptl e.addr)))
            rw [hl]
            rfl
          · rfl

theorem handed_off_grow (P : Params) {s s' : State} (h : pages_grow s s') (n a : Nat)
    (hh : handed_off P s n a) : handed_off P s' n a :=
  ⟨page_info_bit_grow P h _ _ hh.1, page_info_bit_grow P h _ _ hh.2.1,
   page_info_bit_grow P h _ _ hh.2.2⟩

theorem no_vma_congr {s s' : State} (h : s'.mmap = s.mmap) (a : Nat) :
    no_vma s' a = no_vma s a := by
  simp [no_vma, find_vma, h]

theorem candidates_cons (e : prefetch_body) (l : List prefetch_body) :
    candidates (e :: l) = if e.addr = 0 then [] else e :: candidates l := by
  unfold candidates
  by_cases h : e.addr = 0 <;> simp [List.takeWhile_cons, h]

theorem candidates_append (cands : List prefetch_body) (z : prefetch_body)
    (rest : List prefetch_body) (hc : ∀ c ∈ cands, c.addr ≠ 0) (hz : z.addr = 0) :
    candidates (cands ++ z :: rest) = cands := by
  induction cands with
  | nil => simp [candidates_cons, hz]
  | cons c cs ih =>
    have h0 : c.addr ≠ 0 := hc c (List.mem_cons_self _ _)
    rw [List.cons_append, candidates_cons, if_neg h0, ih]
    intro x hx
    exact hc x (List.mem_cons_of_mem _ hx)

theorem origin_loop_spec (P : Params) (req : remote_page_request_t) (l : List prefetch_body) :
    ∀ s s' : State, prefetch_at_origin_loop P req l s = some s' →
      ∃ rs, posted s' = posted s ++ rs ∧ origin_frame s s' ∧
        rs.map reply_key = (candidates l).map (request_key req) ∧
        ∀ x ∈ rs, (x.2.result = PREFETCH_SUCCESS ∨ x.2.result = PREFETCH_FAIL) ∧
          (x.2.result = PREFETCH_SUCCESS → handed_off P s' x.1 x.2.addr) := by
  induction l with
  | nil => intro s s' h; simp [prefetch_at_origin_loop] at h
  | cons e rest ih =>
    intro s s' h
    unfold prefetch_at_origin_loop at h
    rw [candidates_cons]
    split at h
    · rename_i h0
      simp at h; subst h
      exact ⟨[], by simp, origin_frame_refl _, by simp [h0], by simp⟩
    · rename_i h0
      split at h
      · simp at h
      · rename_i s1 h1
        obtain ⟨res, hp, ha, hf, hr, ho, hfr, hcase⟩ := origin_step_spec P req e s s1 h1
        obtain ⟨rs, hps, hfrs, hkeys, hall⟩ := ih s1 s' h
        refine ⟨(req.from_nid, res) :: rs, ?_, origin_frame_trans hfr hfrs, ?_, ?_⟩
        · rw [hps, hp]; simp
        · simp [h0, hkeys, reply_key, request_key, ha, hf, hr, ho]
        · intro x hx
          rcases List.mem_cons.mp hx with rfl | hx
          · rcases hcase with ⟨h1, _, h3⟩ | ⟨h1, _, _⟩
            · exact ⟨Or.inl h1, fun _ => ha ▸ handed_off_grow P hfrs.pages _ _ h3⟩
            · refine ⟨Or.inr h1, fun h2 => ?_⟩
              rw [h1] at h2
              exact absurd h2 (by decide)
          · exact hall x hx

theorem origin_loop_total (P : Params) (req : remote_page_request_t) (l : List prefetch_body) :
    ∀ s : State, (∃ z ∈ l, z.addr = 0) → candidates_have_pte P s l →
      (prefetch_at_origin_loop P req l s).isSome = true := by
  induction l with
  | nil => intro s hz; simp at hz
  | cons e rest ih =>
    intro s hz hpt
    unfold prefetch_at_origin_loop
    split
    · rfl
    · rename_i h0
      have he : e ∈ candidates (e :: rest) := by rw [candidates_cons, if_neg h0]; simp
      have hst := origin_step_total P req e s (hpt e he)
      obtain ⟨s1, h1⟩ := Option.isSome_iff_exists.mp hst
      rw [h1]
      obtain ⟨_, _, _, _, _, _, hfr, _⟩ := origin_step_spec P req e s s1 h1
      apply ih s1
      · obtain ⟨z, hzm, hz0⟩ := hz
        rcases List.mem_cons.mp hzm with rfl | hzm
        · exact absurd hz0 h0
        · exact ⟨z, hzm, hz0⟩
      · intro c hc hv
        have hc' : c ∈ candidates (e :: rest) := by
          rw [candidates_cons, if_neg h0]; exact List.mem_cons_of_mem _ hc
        rw [no_vma_congr hfr.mmap] at hv
        exact hfr.pgtable _ (hpt c hc' hv)

theorem finish_calls_congr {s s' : State} (h : s'.trace = s.trace) :
    finish_calls s' = finish_calls s := by
  simp [finish_calls, h]

theorem put_task_remote_pages (s : State) :
    (__put_task_remote s).2.pages = s.pages ∨ (__put_task_remote s).2.rc_freed = true := by
  unfold __put_task_remote free_remote_context_pages
  simp only
  split
  · left; rfl
  · right; rfl

/-- A call of `__finish_fault_handling` on a live handle completes; it is logged
once, and it touches neither page tables nor page frames, nor the ownership
index unless it drops the last reference of the context. -/
theorem finish_spec (P : Params) (s : State) (fh : Nat) (h : fault_handle)
    (hl : s.heap fh = some h) :
    ∃ r, __finish_fault_handling P s fh = some r ∧
      finish_calls r.2 = finish_calls s ++ [fh] ∧ r.2.pgtable = s.pgtable ∧
      r.2.mem = s.mem ∧ (r.2.pages = s.pages ∨ r.2.rc_freed = true) := by
  unfold __finish_fault_handling
  simp only [hl]
  split
  · exact ⟨_, rfl, by simp [finish_calls, List.filterMap_append], rfl, rfl, Or.inl rfl⟩
  · split
    · exact ⟨_, rfl, by simp [finish_calls, List.filterMap_append], rfl, rfl, Or.inl rfl⟩
    · split
      · refine ⟨_, rfl, by simp [finish_calls, List.filterMap_append], by simp, by simp, ?_⟩
        simpa using put_task_remote_pages _
      · refine ⟨_, rfl, by simp [finish_calls, List.filterMap_append], by simp, by simp, ?_⟩
        simpa using put_task_remote_pages _

theorem make_pte_valid_isSome (P : Params) (s : State) (a ff : Nat) (old : pte_t) :
    (__make_pte_valid P s a ff old).isSome = true := by
  unfold __make_pte_valid
  exact set_page_owner_isSome P _ _ a (SetPageDistributed_region P _ a)

theorem make_pte_valid_mine (P : Params) (s s' : State) (a ff : Nat) (old : pte_t)
    (h : __make_pte_valid P s a ff old = some s') :
    page_distributed P s' a = true ∧ page_owned_by P s' P.my_nid a = true ∧
      page_is_mine P s' a = true := by
  unfold __make_pte_valid at h
  simp only at h
  have hb := set_page_owner_bit _ _ _ _ _ h
  have hd := page_info_bit_grow P (set_page_owner_grow _ _ _ _ _ h) _ _
    (SetPageDistributed_bit P (set_pte_at_notify P s a
      (if fault_for_write ff = true then pte_mkdirty (pte_mkwrite (pte_make_valid old))
        else pte_wrprotect (pte_make_valid old))) a)
  exact ⟨hd, hb, page_is_mine_of_bit P _ _ hb⟩

theorem make_pte_valid_trace (P : Params) (s s' : State) (a ff : Nat) (old : pte_t)
    (h : __make_pte_valid P s a ff old = some s') : s'.trace = s.trace := by
  unfold __make_pte_valid at h
  simp only at h
  have t1 := (only_pages_fields (set_page_owner_only_pages _ _ _ _ _ h)).2.2.2.2.2.2.2.2.2.2.2.2.2.2
  have t2 := (only_pages_fields (SetPageDistributed_only_pages P (set_pte_at_notify P s a
      (if fault_for_write ff = true then pte_mkdirty (pte_mkwrite (pte_make_valid old))
        else pte_wrprotect (pte_make_valid old))) a)).2.2.2.2.2.2.2.2.2.2.2.2.2.2
  rw [t1, t2]; rfl

theorem install_isSome (P : Params) (s : State) (res : remote_prefetch_response_t)
    (hp : (__get_pte_at P s res.addr).isSome = true) :
    (install_prefetched_page P s res).isSome = true := by
  obtain ⟨pte, hpte⟩ := Option.isSome_iff_exists.mp hp
  unfold install_prefetched_page
  simp only [hpte]
  split
  · rename_i h3
    split at h3
    · simp at h3
    · have := make_pte_valid_isSome P ((copy_to_user_page
        (((vm_normal_page pte).getD 0, s) : Nat × State).2
        (((vm_normal_page pte).getD 0, s) : Nat × State).1 res.page).log
        (Event.lock (Lock.ptl res.addr))) res.addr 0 pte
      rw [h3] at this
      simp at this
  · rfl

theorem install_finish_calls (P : Params) (s s' : State) (res : remote_prefetch_response_t)
    (h : install_prefetched_page P s res = some s') : finish_calls s' = finish_calls s := by
  unfold install_prefetched_page at h
  split at h
  · simp at h
  · rename_i pte hp
    simp only at h
    split at h
    · simp at h
    · rename_i s4 h4
      simp at h; subst h
      split at h4
      · simp at h4; subst h4
        simp [finish_calls, do_set_pte, List.filterMap_append]
      · have := make_pte_valid_trace _ _ _ _ _ _ h4
        simp [finish_calls, this, List.filterMap_append]

/-- The handler body on the four paths that reach the label `out`. -/
theorem body_spec (P : Params) (s : State) (res : remote_prefetch_response_t)
    (hpath : s.tasks res.origin_pid = false ∨ page_is_mine P s res.addr = true ∨
      (no_vma s res.addr = false ∧
        (res.result = PREFETCH_FAIL ∨
          (res.result = PREFETCH_SUCCESS ∧ (__get_pte_at P s res.addr).isSome = true)))) :
    ∃ r, process_remote_prefetch_response_body P s res = some r ∧ r.2.fh = res.fh ∧
      r.1.heap = s.heap ∧ finish_calls r.1 = finish_calls s := by
  unfold process_remote_prefetch_response_body
  split
  · exact ⟨_, rfl, rfl, rfl, rfl⟩
  · rename_i ht
    split
    · exact ⟨_, rfl, rfl, rfl, rfl⟩
    · rename_i hm
      have h3 : no_vma s res.addr = false ∧
          (res.result = PREFETCH_FAIL ∨
            (res.result = PREFETCH_SUCCESS ∧ (__get_pte_at P s res.addr).isSome = true)) := by
        rcases hpath with h | h | h
        · simp [h] at ht
        · exact absurd h hm
        · exact h
      simp only [h3.1, Bool.false_eq_true, if_false]
      rcases h3.2 with hf | ⟨hs, hp⟩
      · have e1 : ¬ (res.result &&& PREFETCH_SUCCESS ≠ 0) := by rw [hf]; decide
        have e2 : res.result &&& PREFETCH_FAIL ≠ 0 := by rw [hf]; decide
        rw [if_neg e1, if_pos e2]
        exact ⟨_, rfl, rfl, rfl, rfl⟩
      · have e1 : res.result &&& PREFETCH_SUCCESS ≠ 0 := by rw [hs]; decide
        rw [if_pos e1]
        obtain ⟨s1, h1⟩ := Option.isSome_iff_exists.mp (install_isSome P s res hp)
        rw [h1]
        exact ⟨_, rfl, rfl, (install_table P s s1 res h1).2.1, install_finish_calls P s s1 res h1⟩

theorem select_step_state (P : Params) (a : Nat) (s : State) (f f' : Nat → prefetch_body)
    (k k' : Nat) :
    (select_prefetch_pages_step P a (s, f, k)).1 =
      (select_prefetch_pages_step P a (s, f', k')).1 := by
  unfold select_prefetch_pages_step
  simp only
  repeat (first | rfl | split)

theorem select_step_current_pid (P : Params) (a : Nat) (s : State) (f : Nat → prefetch_body)
    (k : Nat) : (select_prefetch_pages_step P a (s, f, k)).1.current_pid = s.current_pid := by
  unfold select_prefetch_pages_step
  simp only
  split
  · rfl
  · split
    · rfl
    · split
      · rfl
      · split
        · simp
        · split
          · simp [__alloc_fault_handle]
          · simp

theorem select_step_keeps (P : Params) (a : Nat) (s : State) (f : Nat → prefetch_body)
    (k : Nat) :
    s.next_fh ≤ (select_prefetch_pages_step P a (s, f, k)).1.next_fh ∧
      (select_prefetch_pages_step P a (s, f, k)).1.current_pid = s.current_pid ∧
      (∀ p, p < s.next_fh →
        (select_prefetch_pages_step P a (s, f, k)).1.heap p = s.heap p) ∧
      ∀ p fk, p ∈ s.faults fk → p ∈ (select_prefetch_pages_step P a (s, f, k)).1.faults fk := by
  refine ⟨?_, select_step_current_pid P a s f k, ?_⟩
  · cases hq : qualifies P s a with
    | false => rw [(select_step_drop P a s f k hq).2.2.2]
    | true =>
      rw [(select_step_claim P a s f k hq).2.2.2]
      simp [__alloc_fault_handle]
  · cases hq : qualifies P s a with
    | false =>
      have hd := (select_step_drop P a s f k hq).2
      rw [hd.1, hd.2.1]
      exact ⟨fun _ _ => rfl, fun _ _ h => h⟩
    | true =>
      have hc := (select_step_claim P a s f k hq).2
      rw [hc.1, hc.2.1]
      refine ⟨fun p hp => ?_, fun p fk h => ?_⟩
      · have hne : p ≠ s.next_fh := by omega
        simp [__alloc_fault_handle, get_task_remote, Function.update_noteq hne]
      · simp only [__alloc_fault_handle, get_task_remote]
        by_cases hk : fk = __fault_hash_key P a
        · subst hk; simp [h]
        · simp [Function.update_noteq hk, h]

theorem select_step_claim_handle (P : Params) (a : Nat) (s : State) (f : Nat → prefetch_body)
    (k : Nat) (h : qualifies P s a = true) :
    (select_prefetch_pages_step P a (s, f, k)).1.next_fh = s.next_fh + 1 ∧
      s.next_fh ∈ (select_prefetch_pages_step P a (s, f, k)).1.faults (__fault_hash_key P a) ∧
      (select_prefetch_pages_step P a (s, f, k)).1.heap s.next_fh =
        some (fresh_handle s.current_pid a) := by
  have hc := (select_step_claim P a s f k h).2
  rw [hc.1, hc.2.1, hc.2.2]
  simp [__alloc_fault_handle, get_task_remote, fresh_handle]

theorem select_loop_spec (P : Params) (l : List prefetch_body) :
    ∀ (s : State) (f : Nat → prefetch_body) (k : Nat), (∃ z ∈ l, z.addr = 0) →
      ∃ s' f', select_prefetch_pages_loop P l (s, f, k) =
          some (s', f', k + (selected P s l).length) ∧
        (∀ i, f' i = if i < k then f i else (selected P s l).getD (i - k) (f i)) ∧
        s.next_fh ≤ s'.next_fh ∧ s'.current_pid = s.current_pid ∧
        (∀ p, p < s.next_fh → s'.heap p = s.heap p) ∧
        (∀ p fk, p ∈ s.faults fk → p ∈ s'.faults fk) ∧
        ∀ x ∈ selected P s l, newly_created P s s' x := by
  induction l with
  | nil => intro s f k hz; simp at hz
  | cons e rest ih =>
    intro s f k hz
    unfold select_prefetch_pages_loop selected
    by_cases h0 : e.addr = 0
    · simp only [h0, if_true]
      exact ⟨s, f, rfl, fun i => by split <;> simp, Nat.le_refl _, rfl, fun _ _ => rfl,
        fun _ _ h => h, by simp⟩
    · simp only [h0, if_false]
      have hz' : ∃ z ∈ rest, z.addr = 0 := by
        obtain ⟨z, hzm, hz0⟩ := hz
        rcases List.mem_cons.mp hzm with rfl | hzm
        · exact absurd hz0 h0
        · exact ⟨z, hzm, hz0⟩
      have hst := select_step_state P e.addr s f alloc_prefetch_list k 0
      have hk := select_step_keeps P e.addr s f k
      cases hq : qualifies P s e.addr with
      | false =>
        have hd := (select_step_drop P e.addr s f k hq).1
        obtain ⟨s', f', hl, hf, hn, hpid, hheap, hfaults, hnew⟩ :=
          ih (select_prefetch_pages_step P e.addr (s, f, k)).1 f k hz'
        have hc : select_prefetch_pages_step P e.addr (s, f, k) =
            ((select_prefetch_pages_step P e.addr (s, f, k)).1, f, k) := Prod.ext rfl hd
        rw [hc, hl, ← hst]
        simp only [Bool.false_eq_true, if_false]
        refine ⟨s', f', rfl, hf, Nat.le_trans hk.1 hn, hpid.trans hk.2.1, ?_, ?_, ?_⟩
        · intro p hp
          rw [hheap p (Nat.lt_of_lt_of_le hp hk.1), hk.2.2.1 p hp]
        · intro p fk hp
          exact hfaults p fk (hk.2.2.2 p fk hp)
        · intro x hx
          obtain ⟨h1, h2, h3⟩ := hnew x hx
          exact ⟨Nat.le_trans hk.1 h1, h2, by rw [h3, hk.2.1]⟩
      | true =>
        have hd := (select_step_claim P e.addr s f k hq).1
        have hh := select_step_claim_handle P e.addr s f k hq
        obtain ⟨s', f', hl, hf, hn, hpid, hheap, hfaults, hnew⟩ :=
          ih (select_prefetch_pages_step P e.addr (s, f, k)).1
            (add_pf_list_at f e.addr s.next_fh k) (k + 1) hz'
        have hc : select_prefetch_pages_step P e.addr (s, f, k) =
            ((select_prefetch_pages_step P e.addr (s, f, k)).1,
              add_pf_list_at f e.addr s.next_fh k, k + 1) := Prod.ext rfl hd
        rw [hc, hl, ← hst]
        simp only [if_true, List.length_cons]
        refine ⟨s', f', by rw [Nat.add_assoc, Nat.add_comm 1], ?_, Nat.le_trans hk.1 hn,
          hpid.trans hk.2.1, ?_, ?_, ?_⟩
        · intro i
          rw [hf i]
          by_cases hik : i < k
          · have : i < k + 1 := by omega
            have hne : i ≠ k := by omega
            simp [hik, this, add_pf_list_at, Function.update_noteq hne]
          · by_cases hek : i = k
            · subst hek
              simp [add_pf_list_at]
            · have h1 : ¬ i < k + 1 := by omega
              have h2 : i - k = (i - (k + 1)) + 1 := by omega
              simp only [hik, h1, if_false, h2, List.getD_cons_succ, add_pf_list_at,
                Function.update_noteq hek]
        · intro p hp
          rw [hheap p (Nat.lt_of_lt_of_le hp hk.1), hk.2.2.1 p hp]
        · intro p fk hp
          exact hfaults p fk (hk.2.2.2 p fk hp)
        · intro x hx
          rcases List.mem_cons.mp hx with rfl | hx
          · refine ⟨Nat.le_refl _, hfaults _ _ hh.2.1, ?_⟩
            rw [hheap _ (by rw [hh.1]; exact Nat.lt_succ_self _)]
            exact hh.2.2
          · obtain ⟨h1, h2, h3⟩ := hnew x hx
            exact ⟨Nat.le_trans hk.1 h1, h2, by rw [h3, hk.2.1]⟩

theorem select_spec (P : Params) (s : State) (l : List prefetch_body)
    (hz : ∃ z ∈ l, z.addr = 0) :
    ∃ out s', select_prefetch_pages P s l = some (out, s') ∧
      (out = none ↔ selected P s l = []) ∧
      (∀ f, out = some f → ∀ i, f i = (selected P s l).getD i { addr := 0, fh := 0 }) ∧
      ∀ x ∈ selected P s l, newly_created P s s' x := by
  cases l with
  | nil => simp at hz
  | cons e rest =>
    by_cases h0 : e.addr = 0
    · refine ⟨none, s.log (Event.kfree_prefetch_list true), ?_, ?_, ?_, ?_⟩
      · simp [select_prefetch_pages, h0]
      · simp [selected, h0]
      · intro f hf; simp at hf
      · simp [selected, h0]
    · obtain ⟨s', f', hl, hf, _, _, _, _, hnew⟩ :=
        select_loop_spec P (e :: rest) s alloc_prefetch_list 0 hz
      have hsel : select_prefetch_pages P s (e :: rest) =
          if (0 + (selected P s (e :: rest)).length) = 0 then
            some (none, (s'.log (Event.kfree_prefetch_list true)).log
              (Event.kfree_prefetch_list false))
          else some (some f', s'.log (Event.kfree_prefetch_list true)) := by
        simp only [select_prefetch_pages, h0, if_false, hl]
      have hnew' : ∀ (t : State), t.faults = s'.faults → t.heap = s'.heap →
          ∀ x ∈ selected P s (e :: rest), newly_created P s t x := by
        intro t ht1 ht2 x hx
        obtain ⟨h1, h2, h3⟩ := hnew x hx
        exact ⟨h1, by rw [ht1]; exact h2, by rw [ht2]; exact h3⟩
      by_cases hlen : (selected P s (e :: rest)).length = 0
      · refine ⟨none, (s'.log (Event.kfree_prefetch_list true)).log
          (Event.kfree_prefetch_list false), by rw [hsel]; simp [hlen], ?_, ?_,
          hnew' _ rfl rfl⟩
        · simp [List.length_eq_zero.mp hlen]
        · intro f hf; simp at hf
      · refine ⟨some f', s'.log (Event.kfree_prefetch_list true), by rw [hsel]; simp [hlen],
          ?_, ?_, hnew' _ rfl rfl⟩
        · constructor
          · intro h; simp at h
          · intro h; rw [h] at hlen; simp at hlen
        · intro f hfeq i
          simp only [Option.some.injEq] at hfeq
          subst hfeq
          rw [hf i]
          simp [alloc_prefetch_list]

theorem select_step_busy (P : Params) (a : Nat) (s : State) (f : Nat → prefetch_body)
    (k : Nat) :
    (select_prefetch_pages_step P a (s, f, k)).1.ptl_busy = s.ptl_busy ∧
      (select_prefetch_pages_step P a (s, f, k)).1.faults_busy = s.faults_busy := by
  unfold select_prefetch_pages_step
  simp only
  split
  · exact ⟨rfl, rfl⟩
  · split
    · exact ⟨rfl, rfl⟩
    · split
      · exact ⟨rfl, rfl⟩
      · split
        · simp
        · split
          · simp [__alloc_fault_handle]
          · simp

theorem alloc_wf (P : Params) (s : State) (a : Nat) (hwf : fault_table_wf P s) :
    fault_table_wf P (__alloc_fault_handle P s a).2 := by
  have hfresh : ∀ fk, s.next_fh ∉ s.faults fk := fun fk => hwf.2 _ fk (Nat.le_refl _)
  have hb := alloc_bucket_addrs P s a hfresh
  refine ⟨fun fk x hx => ?_, fun p fk hp => ?_⟩
  · rw [hb] at hx
    split at hx
    · rename_i hk
      rcases List.mem_cons.mp hx with rfl | hx
      · exact hk.symm
      · exact hwf.1 _ _ hx
    · exact hwf.1 _ _ hx
  · have hp' : s.next_fh + 1 ≤ p := hp
    have hne : p ≠ s.next_fh := by omega
    have hold := hwf.2 p fk (by omega)
    unfold __alloc_fault_handle get_task_remote
    simp only
    by_cases hk : fk = __fault_hash_key P a
    · subst hk; simp [hne, hold]
    · simp [Function.update_noteq hk, hold]

theorem blocked_not_qualifies (P : Params) (s : State) (a : Nat) (h : blocked P s a) :
    qualifies P s a = false := by
  unfold qualifies
  rcases h with h | h | h
  · simp [h]
  · simp [h]
  · cases hf : find_fault_handle s (__fault_hash_key P a) a with
    | none => simp [hf] at h
    | some x => simp

theorem find_fault_handle_isSome_iff (s : State) (fk a : Nat) :
    (find_fault_handle s fk a).isSome = true ↔ a ∈ bucket_addrs s fk := by
  rw [← not_iff_not, ← find_fault_handle_none_iff]
  cases find_fault_handle s fk a <;> simp

theorem blocked_step (P : Params) (a b : Nat) (s : State) (f : Nat → prefetch_body) (k : Nat)
    (hwf : fault_table_wf P s) (h : blocked P s a) :
    fault_table_wf P (select_prefetch_pages_step P b (s, f, k)).1 ∧
      blocked P (select_prefetch_pages_step P b (s, f, k)).1 a := by
  have hbusy := select_step_busy P b s f k
  cases hq : qualifies P s b with
  | false =>
    have hd := (select_step_drop P b s f k hq).2
    refine ⟨wf_congr hd.1 hd.2.1 hd.2.2 hwf, ?_⟩
    unfold blocked
    rw [hbusy.1, hbusy.2, find_fault_handle_congr hd.1 hd.2.1]
    exact h
  | true =>
    have hc := (select_step_claim P b s f k hq).2
    have hw := alloc_wf P s b hwf
    refine ⟨wf_congr hc.1 hc.2.1 hc.2.2 hw, ?_⟩
    unfold blocked
    rw [hbusy.1, hbusy.2, find_fault_handle_congr hc.1 hc.2.1]
    rcases h with h | h | h
    · exact Or.inl h
    · exact Or.inr (Or.inl h)
    · right; right
      rw [find_fault_handle_isSome_iff] at h ⊢
      rw [alloc_bucket_addrs P s b (fun fk => hwf.2 _ fk (Nat.le_refl _))]
      split
      · exact List.mem_cons_of_mem _ h
      · exact h

theorem selected_not_blocked (P : Params) (a : Nat) (l : List prefetch_body) :
    ∀ s : State, fault_table_wf P s → blocked P s a → ∀ x ∈ selected P s l, x.addr ≠ a := by
  induction l with
  | nil => intro s _ _ x hx; simp [selected] at hx
  | cons e rest ih =>
    intro s hwf hb x hx
    unfold selected at hx
    split at hx
    · simp at hx
    · have hs := blocked_step P a e.addr s alloc_prefetch_list 0 hwf hb
      split at hx
      · rename_i hq
        rcases List.mem_cons.mp hx with rfl | hx
        · intro hea
          simp only at hea
          rw [hea, blocked_not_qualifies P s a hb] at hq
          simp at hq
        · exact ih _ hs.1 hs.2 x hx
      · exact ih _ hs.1 hs.2 x hx

theorem erase_filterMap_not_mem {α β : Type} [DecidableEq α] (g g' : α → Option β) (x : α)
    (a : β) (hg : g x = some a) (hle : ∀ p, g' p = g p ∨ g' p = none) :
    ∀ l : List α, (l.filterMap g).Nodup → x ∈ l → a ∉ (l.erase x).filterMap g' := by
  intro l
  induction l with
  | nil => intro _ hx; simp at hx
  | cons y ys ih =>
    intro hnd hx
    by_cases hyx : y = x
    · subst hyx
      rw [List.erase_cons_head]
      rw [List.filterMap_cons_some hg] at hnd
      intro hmem
      exact (List.nodup_cons.mp hnd).1 ((filterMap_sublist_of_le g g' ys hle).subset hmem)
    · have hxs : x ∈ ys := by
        rcases List.mem_cons.mp hx with h | h
        · exact absurd h.symm hyx
        · exact h
      have hne : ¬ (y == x) = true := by simpa using hyx
      rw [List.erase_cons_tail hne]
      cases hgy : g y with
      | none =>
        rw [List.filterMap_cons_none hgy] at hnd
        have hg'y : g' y = none := by
          rcases hle y with h | h
          · rw [h, hgy]
          · exact h
        rw [List.filterMap_cons_none hg'y]
        exact ih hnd hxs
      | some b =>
        rw [List.filterMap_cons_some hgy] at hnd
        have hnd' := List.nodup_cons.mp hnd
        have hab : a ≠ b := by
          intro hab
          subst hab
          exact hnd'.1 (List.mem_filterMap.mpr ⟨x, hxs, hg⟩)
        rcases hle y with h | h
        · rw [List.filterMap_cons_some (h.trans hgy)]
          intro hmem
          rcases List.mem_cons.mp hmem with h1 | h1
          · exact hab h1
          · exact ih hnd'.2 hxs h1
        · rw [List.filterMap_cons_none h]
          exact ih hnd'.2 hxs

/-- The final call of `__finish_fault_handling` on a handle: pending count 1 and
no completion registered. -/
theorem finish_last_eq (P : Params) (s : State) (fh : Nat) (h : fault_handle)
    (hl : s.heap fh = some h) (hp : h.pendings = 1) (hc : h.complete = none) :
    ∃ s', __finish_fault_handling P s fh = some (true, s') ∧
      (∀ fk, s'.faults fk = (s.faults fk).erase fh) ∧
      (∀ p, p ≠ fh → s'.heap p = s.heap p) ∧
      (s'.heap fh = if h.pendings_retry ≠ 0 then some { h with pendings := 0 } else none) ∧
      s'.count = s.count - 1 ∧ s'.next_fh = s.next_fh := by
  have hcount : ∀ t : State, (__put_task_remote t).2.count = t.count - 1 := by
    intro t; unfold __put_task_remote free_remote_context_pages; simp only; split <;> rfl
  unfold __finish_fault_handling
  simp only [hl, hp, hc, sub_self, ne_eq, not_true_eq_false, if_false]
  by_cases hr : h.pendings_retry = 0
  · rw [if_neg (not_not.mpr hr)]
    refine ⟨_, rfl, fun fk => by simp, fun p hpf => ?_, ?_, ?_, by simp⟩
    · simp [Function.update_noteq hpf]
    · simp [hr]
    · simp [hcount]
  · rw [if_pos hr]
    refine ⟨_, rfl, fun fk => by simp, fun p hpf => ?_, ?_, ?_, by simp⟩
    · simp [Function.update_noteq hpf]
    · simp [hr, hp]
    · simp [hcount]

theorem finish_pages (P : Params) (s : State) (fh : Nat) (r : Bool × State)
    (h : __finish_fault_handling P s fh = some r) (hc : s.count ≠ 1) : r.2.pages = s.pages := by
  have hput : ∀ t : State, t.count = s.count → (__put_task_remote t).2.pages = t.pages := by
    intro t ht
    unfold __put_task_remote
    have : t.count - 1 ≠ 0 := by rw [ht]; omega
    simp [this]
  unfold __finish_fault_handling at h
  split at h
  · simp at h
  · simp only at h
    split at h
    · simp only [Option.some.injEq] at h; subst h; rfl
    · split at h
      · simp only [Option.some.injEq] at h; subst h; rfl
      · split at h
        · simp only [Option.some.injEq] at h; subst h
          simp only [log_pages]
          rw [hput _ (by simp)]
          simp
        · simp only [Option.some.injEq] at h; subst h
          simp only [log_pages]
          rw [hput _ (by simp)]
          simp

/-- On a FAIL response the handler body never touches the state. -/
theorem body_fail (P : Params) (s : State) (res : remote_prefetch_response_t)
    (b : State × remote_prefetch_response_t) (hres : res.result = PREFETCH_FAIL)
    (h : process_remote_prefetch_response_body P s res = some b) : b.1 = s := by
  have e1 : ¬ (res.result &&& PREFETCH_SUCCESS ≠ 0) := by rw [hres]; decide
  unfold process_remote_prefetch_response_body at h
  rw [if_neg e1] at h
  split at h
  · simp only [Option.some.injEq] at h; subst h; rfl
  · split at h
    · simp only [Option.some.injEq] at h; subst h; rfl
    · split at h
      · simp at h
      · split at h
        · simp only [Option.some.injEq] at h; subst h; rfl
        · simp at h

theorem prefetch_policy_loop_spec (P : Params) (fault_addr : Nat) (n : Nat) :
    ∀ (i : Nat) (l : Nat → prefetch_body) (j : Nat),
      prefetch_policy_loop P fault_addr n i l j =
        if i ≤ j ∧ j < i + n then
          { addr := (fault_addr + (j + SKIP_NUM_OF_PAGES) * PAGE_SIZE P) % ULONG_RANGE,
            fh := (l j).fh }
        else l j := by
  induction n with
  | zero =>
    intro i l j
    have : ¬ (i ≤ j ∧ j < i + 0) := by omega
    rw [prefetch_policy_loop, if_neg this]
  | succ n ih =>
    intro i l j
    rw [prefetch_policy_loop, ih]
    by_cases hji : j = i
    · subst hji
      have h1 : ¬ (j + 1 ≤ j ∧ j < j + 1 + n) := by omega
      have h2 : j ≤ j ∧ j < j + (n + 1) := by omega
      simp [h1, h2]
    · by_cases hc : i + 1 ≤ j ∧ j < i + 1 + n
      · have h2 : i ≤ j ∧ j < i + (n + 1) := by omega
        simp [hc, h2, Function.update_noteq hji]
      · have h2 : ¬ (i ≤ j ∧ j < i + (n + 1)) := by omega
        simp [hc, h2, Function.update_noteq hji]

theorem prefetch_policy_fires (P : Params) (pf_list : Nat → prefetch_body) (fault_addr : Nat) :
    prefetch_policy P 0 pf_list fault_addr =
      (0, prefetch_policy_loop P fault_addr PREFETCH_NUM_OF_PAGES 0 pf_list) := by
  simp [prefetch_policy, UINT8_RANGE, PREFETCH_DURATION]

theorem prefetch_policy_cnt_zero (P : Params) (calls : List ((Nat → prefetch_body) × Nat)) :
    prefetch_policy_cnt P calls = 0 := by
  induction calls with
  | nil => rfl
  | cons c cs ih => rw [prefetch_policy_cnt, ih, prefetch_policy_fires]

theorem page_of_wrapped (s fa k : Nat) (hs : s ≤ 64) :
    ((fa + k * 2 ^ s) % 2 ^ 64) >>> s = ((fa >>> s) + k) % 2 ^ (64 - s) := by
  have h64 : (2 : Nat) ^ 64 = 2 ^ s * 2 ^ (64 - s) := by
    rw [← Nat.pow_add]; congr 1; omega
  rw [Nat.shiftRight_eq_div_pow, Nat.shiftRight_eq_div_pow, h64, Nat.mod_mul_right_div_self,
    Nat.add_mul_div_right _ _ (Nat.two_pow_pos _)]

theorem lookup_none_filter (inbound : List remote_context) (nid : Nat) (tgid : Int)
    (h : __lookup_remote_contexts_in inbound nid tgid = none) :
    inbound.filter (fun rc => decide (rc.remote_tgids nid = tgid)) = [] := by
  unfold __lookup_remote_contexts_in at h
  rw [List.find?_eq_none] at h
  rw [List.filter_eq_nil_iff]
  exact h

theorem clone_keeps_registered_once (inbound : List remote_context) (req : clone_request_t)
    (h : registered_once inbound) : registered_once (clone_remote_thread inbound req).inbound := by
  unfold clone_remote_thread
  simp only
  cases hl : __lookup_remote_contexts_in inbound req.origin_nid req.origin_tgid with
  | some rc => exact h
  | none =>
    intro nid tgid htg
    simp only [__alloc_remote_context, List.filter_cons]
    by_cases hn : nid = req.origin_nid
    · subst hn
      by_cases ht : req.origin_tgid = tgid
      · subst ht
        simp [lookup_none_filter inbound _ _ hl]
      · simp only [Function.update_same, ht, decide_False, Bool.false_eq_true, if_false]
        exact h _ tgid htg
    · have h0 : ¬ ((0 : Int) = tgid) := fun e => htg e.symm
      simp only [Function.update_noteq hn, h0, decide_False, Bool.false_eq_true, if_false]
      exact h nid tgid htg

theorem inbound_after_registered_once (reqs : List clone_request_t) :
    registered_once (inbound_after reqs) := by
  induction reqs with
  | nil => intro nid tgid _; simp [inbound_after]
  | cons r rs ih => exact clone_keeps_registered_once _ r ih

theorem region_bit_set_iff (s : State) (key off nr k i : Nat) :
    region_bit
        { s with pages := Function.update s.pages key (some (set_bit nr ((s.pages key).getD 0) off)) }
        k i =
      (region_bit s k i || decide (k = key ∧ i = BITS_PER_LONG * off + nr)) := by
  by_cases hk : k = key
  · subst hk
    unfold region_bit
    cases hp : s.pages k with
    | none =>
      simp [set_bit, Nat.testBit_or, Nat.one_shiftLeft, Nat.testBit_two_pow, eq_comm]
    | some r =>
      simp [set_bit, Nat.testBit_or, Nat.one_shiftLeft, Nat.testBit_two_pow, eq_comm]
  · simp [region_bit, Function.update_noteq hk, hk]

theorem words_per_page_eq (P : Params) :
    PER_PAGE_INFO_SIZE P / SIZEOF_LONG = BITS_TO_LONGS P.MAX_POPCORN_NODES := by
  unfold PER_PAGE_INFO_SIZE SIZEOF_LONG
  exact Nat.mul_div_cancel_left _ (by decide)

theorem node_lt_bitmap (P : Params) (nid : Nat) (h : nid < P.MAX_POPCORN_NODES) :
    nid < BITS_PER_LONG * (PER_PAGE_INFO_SIZE P / SIZEOF_LONG) := by
  rw [words_per_page_eq]
  unfold BITS_TO_LONGS BITS_PER_LONG
  omega

theorem flag_not_node_bit (P : Params) (a b nid : Nat) (h : nid < P.MAX_POPCORN_NODES)
    (h63 : nid ≠ PI_FLAG_DISTRIBUTED) :
    BITS_PER_LONG * (__get_page_info_key P b).2 + PI_FLAG_DISTRIBUTED ≠
      BITS_PER_LONG * (__get_page_info_key P a).2 + nid := by
  have hlt := node_lt_bitmap P nid h
  unfold __get_page_info_key
  simp only
  generalize PER_PAGE_INFO_SIZE P / SIZEOF_LONG = w at hlt
  generalize (a >>> P.PAGE_SHIFT) % PAGE_INFO_PER_REGION P = x
  generalize (b >>> P.PAGE_SHIFT) % PAGE_INFO_PER_REGION P = y
  unfold BITS_PER_LONG PI_FLAG_DISTRIBUTED at *
  intro he
  rcases Nat.lt_trichotomy y x with hlt' | heq | hgt
  · have : (y + 1) * w ≤ x * w := Nat.mul_le_mul_right w hlt'
    rw [Nat.add_mul] at this
    omega
  · subst heq; omega
  · have : (x + 1) * w ≤ y * w := Nat.mul_le_mul_right w hgt
    rw [Nat.add_mul] at this
    omega

theorem page_info_layout (P : Params) (hn : 0 < P.MAX_POPCORN_NODES)
    (hfit : PER_PAGE_INFO_SIZE P ≤ PAGE_SIZE P) :
    0 < PER_PAGE_INFO_SIZE P / SIZEOF_LONG ∧ 0 < PAGE_INFO_PER_REGION P ∧
      PAGE_INFO_PER_REGION P * (PER_PAGE_INFO_SIZE P / SIZEOF_LONG) ≤
        PAGE_SIZE P / SIZEOF_LONG := by
  have hw : 0 < BITS_TO_LONGS P.MAX_POPCORN_NODES := by
    unfold BITS_TO_LONGS BITS_PER_LONG; omega
  have hsz : 0 < PER_PAGE_INFO_SIZE P := by
    unfold PER_PAGE_INFO_SIZE SIZEOF_LONG; omega
  refine ⟨by rw [words_per_page_eq]; exact hw, Nat.div_pos hfit hsz, ?_⟩
  rw [words_per_page_eq]
  have h1 : PAGE_INFO_PER_REGION P * PER_PAGE_INFO_SIZE P ≤ PAGE_SIZE P :=
    Nat.div_mul_le_self _ _
  rw [Nat.le_div_iff_mul_le (by decide : 0 < SIZEOF_LONG)]
  unfold PER_PAGE_INFO_SIZE at h1
  calc PAGE_INFO_PER_REGION P * BITS_TO_LONGS P.MAX_POPCORN_NODES * SIZEOF_LONG
      = PAGE_INFO_PER_REGION P * (SIZEOF_LONG * BITS_TO_LONGS P.MAX_POPCORN_NODES) := by
        rw [Nat.mul_assoc, Nat.mul_comm (BITS_TO_LONGS P.MAX_POPCORN_NODES)]
    _ ≤ PAGE_SIZE P := h1

theorem key_offset_inj (r w p q : Nat) (hw : 0 < w) :
    (p / r, p % r * w) = (q / r, q % r * w) ↔ p = q := by
  constructor
  · intro h
    simp only [Prod.mk.injEq] at h
    have h2 : p % r = q % r := Nat.eq_of_mul_eq_mul_right hw h.2
    rw [← Nat.div_add_mod p r, ← Nat.div_add_mod q r, h.1, h2]
  · intro h; rw [h]

theorem offsets_apart (r w p q : Nat) (hk : p / r = q / r) (hne : p ≠ q) :
    p % r * w + w ≤ q % r * w ∨ q % r * w + w ≤ p % r * w := by
  have hm : p % r ≠ q % r := by
    intro h2
    apply hne
    rw [← Nat.div_add_mod p r, ← Nat.div_add_mod q r, hk, h2]
  rcases Nat.lt_or_gt_of_ne hm with h | h
  · left
    have := Nat.mul_le_mul_right w h
    rwa [Nat.succ_mul] at this
  · right
    have := Nat.mul_le_mul_right w h
    rwa [Nat.succ_mul] at this

theorem select_round_eq (P : Params) (addr list_ptr : Nat)
    (c : State × (Nat → prefetch_body) × Nat) :
    select_prefetch_pages_round P addr list_ptr c =
      (list_ptr + 1, select_prefetch_pages_step P addr c) := by
  unfold select_prefetch_pages_round select_prefetch_pages_step
  simp only
  repeat' split
  all_goals rfl

theorem select_while_spec (P : Params) (l : List prefetch_body) :
    ∀ (suf pre : List prefetch_body), l = pre ++ suf → (∃ z ∈ suf, z.addr = 0) →
      ∀ (visited : List Nat) (c : State × (Nat → prefetch_body) × Nat),
        ∃ c', select_prefetch_pages_loop P suf c = some c' ∧
          ∀ fuel, (candidates suf).length < fuel →
            select_prefetch_pages_while P l fuel pre.length visited c =
              some (visited ++ List.range' pre.length (candidates suf).length, c') := by
  intro suf
  induction suf with
  | nil => intro pre _ hz; simp at hz
  | cons e rest ih =>
    intro pre hl hz visited c
    have hget : l[pre.length]? = some e := by
      rw [hl, List.getElem?_append_right (Nat.le_refl _)]; simp
    by_cases h0 : e.addr = 0
    · refine ⟨c, by simp [select_prefetch_pages_loop, h0], ?_⟩
      intro fuel hf
      cases fuel with
      | zero => omega
      | succ n =>
        simp [select_prefetch_pages_while, hget, h0, candidates_cons]
    · have hz' : ∃ z ∈ rest, z.addr = 0 := by
        obtain ⟨z, hzm, hz0⟩ := hz
        rcases List.mem_cons.mp hzm with rfl | hzm
        · exact absurd hz0 h0
        · exact ⟨z, hzm, hz0⟩
      have hl' : l = (pre ++ [e]) ++ rest := by rw [hl]; simp
      obtain ⟨c', hloop, hwhile⟩ := ih (pre ++ [e]) hl' hz' (visited ++ [pre.length])
        (select_prefetch_pages_step P e.addr c)
      refine ⟨c', by simp [select_prefetch_pages_loop, h0, hloop], ?_⟩
      intro fuel hf
      rw [candidates_cons, if_neg h0, List.length_cons] at hf
      cases fuel with
      | zero => omega
      | succ n =>
        have hn : (candidates rest).length < n := by omega
        have := hwhile n hn
        rw [List.length_append, List.length_singleton] at this
        simp only [select_prefetch_pages_while, hget, h0, if_false, select_round_eq, this,
          candidates_cons, List.length_cons, List.range'_succ, List.append_assoc,
          List.singleton_append]

theorem select_step_frees (P : Params) (a : Nat) (c : State × (Nat → prefetch_body) × Nat)
    (b : Bool) :
    prefetch_list_frees (select_prefetch_pages_step P a c).1 b = prefetch_list_frees c.1 b := by
  unfold select_prefetch_pages_step prefetch_list_frees
  simp only
  repeat' split
  all_goals simp [__alloc_fault_handle, List.count_append]

theorem select_loop_frees (P : Params) (l : List prefetch_body) (b : Bool) :
    ∀ c c', select_prefetch_pages_loop P l c = some c' →
      prefetch_list_frees c'.1 b = prefetch_list_frees c.1 b := by
  induction l with
  | nil => intro c c' h; simp [select_prefetch_pages_loop] at h
  | cons e rest ih =>
    intro c c' h
    unfold select_prefetch_pages_loop at h
    split at h
    · simp only [Option.some.injEq] at h
      rw [h]
    · rw [ih _ _ h, select_step_frees]

theorem select_frees_input (P : Params) (s : State) (l : List prefetch_body)
    (r : Option (Nat → prefetch_body) × State) (h : select_prefetch_pages P s l = some r) :
    prefetch_list_frees r.2 true = prefetch_list_frees s true + 1 := by
  unfold select_prefetch_pages at h
  split at h
  · simp at h
  · split at h
    · simp only [Option.some.injEq] at h
      rw [← h]
      simp [prefetch_list_frees, List.count_append]
    · split at h
      · simp at h
      · rename_i c hc
        have hfr := select_loop_frees P _ true _ _ hc
        simp only at hfr
        split at h
        · simp only [Option.some.injEq] at h
          rw [← h]
          simp only [prefetch_list_frees] at hfr ⊢
          simp [List.count_append, hfr]
        · simp only [Option.some.injEq] at h
          rw [← h]
          simp only [prefetch_list_frees] at hfr ⊢
          simp [List.count_append, hfr]

theorem prefetch_policy_entry (P : Params) (pf_list : Nat → prefetch_body) (fault_addr i : Nat)
    (hi : i < 10) :
    (prefetch_policy P 0 pf_list fault_addr).2 i =
      { addr := (fault_addr + (i + 1) * PAGE_SIZE P) % ULONG_RANGE, fh := (pf_list i).fh } := by
  have hc : 0 ≤ i ∧ i < 0 + PREFETCH_NUM_OF_PAGES := ⟨Nat.zero_le _, by simpa using hi⟩
  rw [prefetch_policy_fires]
  simp only [prefetch_policy_loop_spec, hc, and_self, if_true, SKIP_NUM_OF_PAGES]

theorem prefetch_policy_rest (P : Params) (pf_list : Nat → prefetch_body) (fault_addr i : Nat)
    (hi : 10 ≤ i) : (prefetch_policy P 0 pf_list fault_addr).2 i = pf_list i := by
  have hc : ¬ (0 ≤ i ∧ i < 0 + PREFETCH_NUM_OF_PAGES) := by
    simp only [PREFETCH_NUM_OF_PAGES]; omega
  rw [prefetch_policy_fires]
  simp only [prefetch_policy_loop_spec, hc, if_false]

theorem wrapped_zero_iff (fa k ps : Nat) (hfa : fa < 2 ^ 64) (hk : k ≤ 10) (hk0 : 0 < k)
    (hps : ps ≤ 2 ^ 60) (hps0 : 0 < ps) :
    (fa + k * ps) % 2 ^ 64 = 0 ↔ fa + k * ps = 2 ^ 64 := by
  have h1 : k * ps ≤ 10 * 2 ^ 60 := Nat.mul_le_mul hk hps
  have h2 : 0 < k * ps := Nat.mul_pos hk0 hps0
  generalize k * ps = x at h1 h2
  norm_num at *
  omega

theorem candidates_range (f : Nat → prefetch_body) (m n : Nat) (hmn : m ≤ n)
    (hnz : ∀ i, i < m → (f i).addr ≠ 0) :
    ∃ rest, (List.range n).map f = (List.range m).map f ++ rest ∧
      candidates ((List.range n).map f) = (List.range m).map f ++ candidates rest ∧
      (m < n → rest.head? = some (f m)) := by
  have hr : List.range' 0 n = List.range' 0 m ++ List.range' m (n - m) := by
    have h := List.range'_append_1 0 m (n - m)
    rw [Nat.zero_add] at h
    rw [h]
    congr 1
    omega
  have hsplit : (List.range n).map f = (List.range m).map f ++ (List.range' m (n - m)).map f := by
    rw [← List.map_append, List.range_eq_range', List.range_eq_range', hr]
  refine ⟨(List.range' m (n - m)).map f, hsplit, ?_, ?_⟩
  · rw [hsplit]
    unfold candidates
    rw [List.takeWhile_append_of_pos]
    intro a ha
    obtain ⟨i, hi, rfl⟩ := List.mem_map.mp ha
    simpa using hnz i (List.mem_range.mp hi)
  · intro hlt
    have : n - m = (n - m - 1) + 1 := by omega
    rw [this, List.range'_succ]
    rfl

theorem set_page_owner_trace (P : Params) (n : Nat) (s s' : State) (a : Nat)
    (h : set_page_owner P n s a = some s') : s'.trace = s.trace := by
  rw [set_page_owner_eq P n s s' a h]

theorem SetPageDistributed_trace (P : Params) (s : State) (a : Nat) :
    (SetPageDistributed P s a).trace = s.trace := by
  rw [SetPageDistributed_eq]

/-- The calls that write the ownership index in the hand-off block, with the
states they are made in. -/
theorem leader_calls (P : Params) (n a : Nat) (pte : pte_t) (s : State) (r : Nat × State)
    (h : prefetch_at_origin_leader P n a pte s = some r) :
    ∃ sC sD,
      set_page_owner P n (SetPageDistributed P (s.log (Event.lock (Lock.ptl a))) a) a = some sC ∧
      set_page_owner P P.my_nid (ptep_clear_flush P sC a pte).2 a = some sD ∧
      sC.trace = s.trace ++ [Event.lock (Lock.ptl a)] ∧
      (ptep_clear_flush P sC a pte).2.trace = s.trace ++ [Event.lock (Lock.ptl a)] ∧
      r.2.pages = sD.pages ∧
      r.2.trace = s.trace ++ [Event.lock (Lock.ptl a), Event.unlock (Lock.ptl a)] := by
  unfold prefetch_at_origin_leader at h
  simp only at h
  split at h
  · simp at h
  · rename_i sC hC
    split at h
    · simp at h
    · rename_i sD hD
      simp only [Option.some.injEq] at h
      have tC : sC.trace = s.trace ++ [Event.lock (Lock.ptl a)] := by
        rw [set_page_owner_trace _ _ _ _ _ hC, SetPageDistributed_trace]; rfl
      have tD := set_page_owner_trace _ _ _ _ _ hD
      refine ⟨sC, sD, hC, hD, tC, ?_, ?_, ?_⟩
      · simp [ptep_clear_flush, tC]
      · rw [← h]; simp
      · rw [← h]
        simp only [log_trace, set_pte_at_notify_trace, tD]
        simp [ptep_clear_flush, tC]

theorem finish_pages_or_freed (P : Params) (s : State) (fh : Nat) (r : Bool × State)
    (h : __finish_fault_handling P s fh = some r) :
    r.2.pages = s.pages ∨
      (s.count = 1 ∧ r.1 = true ∧ r.2.count = 0 ∧ r.2.rc_linked = false ∧
        r.2.rc_freed = true) := by
  by_cases hc : s.count = 1
  · unfold __finish_fault_handling at h
    split at h
    · simp at h
    · simp only at h
      split at h
      · simp only [Option.some.injEq] at h; subst h; left; rfl
      · split at h
        · simp only [Option.some.injEq] at h; subst h; left; rfl
        · split at h
          · simp only [Option.some.injEq] at h; subst h
            right
            simp [__put_task_remote, free_remote_context_pages, hc]
          · simp only [Option.some.injEq] at h; subst h
            right
            simp [__put_task_remote, free_remote_context_pages, hc]
  · exact Or.inl (finish_pages P s fh r h hc)

theorem select_loop_foldl (P : Params) (l : List prefetch_body) :
    ∀ c, (∃ z ∈ l, z.addr = 0) →
      select_prefetch_pages_loop P l c =
        some ((candidates l).foldl (fun c e => select_prefetch_pages_step P e.addr c) c) := by
  induction l with
  | nil => intro c hz; simp at hz
  | cons e rest ih =>
    intro c hz
    by_cases h0 : e.addr = 0
    · simp [select_prefetch_pages_loop, candidates_cons, h0]
    · have hz' : ∃ z ∈ rest, z.addr = 0 := by
        obtain ⟨z, hzm, hz0⟩ := hz
        rcases List.mem_cons.mp hzm with rfl | hzm
        · exact absurd hz0 h0
        · exact ⟨z, hzm, hz0⟩
      simp [select_prefetch_pages_loop, candidates_cons, h0, ih _ hz']

/-- The function is the rounds on the candidates followed by the frees, and
the machine-level run gives the same result after running the rounds at the
cursors `0, 1, ...`, one per candidate. -/
theorem select_run_spec (P : Params) (s : State) (l : List prefetch_body)
    (hz : ∃ z ∈ l, z.addr = 0) :
    select_prefetch_pages P s l =
        some (if candidates l = [] then (none, s.log (Event.kfree_prefetch_list true))
          else select_result (rounds_on_candidates P s l)) ∧
      ∀ fuel, (candidates l).length < fuel →
        select_prefetch_pages_run P s l fuel =
          (select_prefetch_pages P s l).map fun r => (List.range (candidates l).length, r) := by
  cases l with
  | nil => simp at hz
  | cons e rest =>
    by_cases h0 : e.addr = 0
    · simp [select_prefetch_pages, select_prefetch_pages_run, candidates_cons, h0]
    · have hne : candidates (e :: rest) ≠ [] := by simp [candidates_cons, h0]
      have hloop := select_loop_foldl P (e :: rest) (s, alloc_prefetch_list, 0) hz
      obtain ⟨c', hl2, hwhile⟩ :=
        select_while_spec P (e :: rest) (e :: rest) [] rfl hz [] (s, alloc_prefetch_list, 0)
      have hc' : c' = rounds_on_candidates P s (e :: rest) := by
        rw [hloop] at hl2
        exact (Option.some.inj hl2).symm
      have hsel : select_prefetch_pages P s (e :: rest) =
          some (select_result (rounds_on_candidates P s (e :: rest))) := by
        simp only [select_prefetch_pages, h0, if_false, hloop]
        unfold select_result rounds_on_candidates
        split <;> rfl
      refine ⟨by rw [hsel, if_neg hne], fun fuel hf => ?_⟩
      have hw := hwhile fuel hf
      simp only [List.length_nil, List.nil_append] at hw
      rw [hsel]
      simp only [select_prefetch_pages_run, List.getElem?_cons_zero, h0, if_false, hw,
        ← List.range_eq_range', Option.map_some']
      rw [hc']
      unfold select_result
      split <;> rfl

/-! ## The audit of the writes of the ownership index -/

theorem leader_audit_eq (P : Params) (n a : Nat) (pte : pte_t) (c : State × List Audit) :
    prefetch_at_origin_leader_audit P n a pte c =
      (prefetch_at_origin_leader P n a pte c.1).map fun r =>
        (r.1, r.2, c.2 ++ [Audit.ev (Event.lock (Lock.ptl a)),
          Audit.index_write a PI_FLAG_DISTRIBUTED, Audit.index_write a n,
          Audit.index_write a P.my_nid, Audit.ev (Event.unlock (Lock.ptl a))]) := by
  unfold prefetch_at_origin_leader_audit prefetch_at_origin_leader set_page_owner_audit
    SetPageDistributed_audit audit_log
  simp only
  cases h3 : set_page_owner P n (SetPageDistributed P (c.1.log (Event.lock (Lock.ptl a))) a) a with
  | none => rfl
  | some s3 =>
    simp only
    cases h4 : set_page_owner P P.my_nid (ptep_clear_flush P s3 a pte).2 a with
    | none => rfl
    | some s4 => simp

theorem leader_pages (P : Params) (n a : Nat) (pte : pte_t) (s : State) (r : Nat × State)
    (h : prefetch_at_origin_leader P n a pte s = some r) :
    r.2.pages =
      audit_pages P [Audit.index_write a PI_FLAG_DISTRIBUTED, Audit.index_write a n,
        Audit.index_write a P.my_nid] s.pages := by
  obtain ⟨sC, sD, hC, hD, _, _, hrp, _⟩ := leader_calls P n a pte s r h
  rw [hrp, set_page_owner_eq _ _ _ _ _ hD]
  simp only [ptep_clear_flush, set_pte_at_notify_pages]
  rw [set_page_owner_eq _ _ _ _ _ hC]
  simp only [SetPageDistributed_eq, log_pages, audit_pages]

theorem make_pte_valid_audit_eq (P : Params) (c : State × List Audit) (a ff : Nat)
    (old : pte_t) :
    __make_pte_valid_audit P c a ff old =
      (__make_pte_valid P c.1 a ff old).map fun s' =>
        (s', c.2 ++ [Audit.index_write a PI_FLAG_DISTRIBUTED, Audit.index_write a P.my_nid]) := by
  unfold __make_pte_valid_audit __make_pte_valid set_page_owner_audit SetPageDistributed_audit
  simp only
  split <;> simp_all

theorem make_pte_valid_pages (P : Params) (s s' : State) (a ff : Nat) (old : pte_t)
    (h : __make_pte_valid P s a ff old = some s') :
    s'.pages =
      audit_pages P [Audit.index_write a PI_FLAG_DISTRIBUTED, Audit.index_write a P.my_nid]
        s.pages := by
  unfold __make_pte_valid at h
  simp only at h
  rw [set_page_owner_eq _ _ _ _ _ h]
  simp only [SetPageDistributed_eq, set_pte_at_notify_pages, audit_pages]

theorem step_audit_spec (P : Params) (req : remote_page_request_t) (e : prefetch_body)
    (s : State) :
    (prefetch_at_origin_step_audit P req e s).map (fun r => r.1) =
        prefetch_at_origin_step P req e s ∧
      ∀ r, prefetch_at_origin_step_audit P req e s = some r →
        r.1.trace = s.trace ++ audit_events r.2 ∧ audit_pages P r.2 s.pages = r.1.pages ∧
          writes_guarded (owner_locks P) [] r.2 = some [] := by
  unfold prefetch_at_origin_step_audit prefetch_at_origin_step
  simp only
  by_cases hv : no_vma s e.addr = true
  · simp [hv, prefetch_at_origin_post_audit, prefetch_at_origin_post, audit_log, audit_events,
      audit_pages, writes_guarded]
  · simp only [hv, Bool.false_eq_true, if_false]
    cases hp : __get_pte_at P s e.addr with
    | none => simp
    | some pte =>
      simp only
      by_cases hb : s.ptl_busy e.addr = true
      · simp [hb, prefetch_at_origin_post_audit, prefetch_at_origin_post, audit_log,
          audit_events, audit_pages, writes_guarded]
      · simp only [hb, Bool.false_eq_true, if_false]
        by_cases hfb : s.faults_busy (__fault_hash_key P e.addr) = true
        · simp [hfb, prefetch_at_origin_post_audit, prefetch_at_origin_post, audit_log,
            audit_events, audit_pages, writes_guarded]
        · simp only [audit_log, log_faults_busy, hfb, Bool.false_eq_true, if_false, find_fault_handle_log,
            page_is_mine_log, origin_decide_cases]
          by_cases hg : (!(find_fault_handle s (__fault_hash_key P e.addr) e.addr).isSome &&
              page_is_mine P s e.addr) = true
          · simp only [hg, if_true, leader_audit_eq]
            cases hl : prefetch_at_origin_leader P req.from_nid e.addr pte
                (((s.log (Event.lock (Lock.ptl e.addr))).log
                  (Event.lock (Lock.faults_lock (__fault_hash_key P e.addr)))).log
                  (Event.unlock (Lock.ptl e.addr))) with
            | none => simp
            | some r3 =>
              obtain ⟨_, _, _, _, _, _, _, htr⟩ := leader_calls P _ _ _ _ _ hl
              have hpg := leader_pages P _ _ _ _ _ hl
              simp only [log_pages] at hpg
              refine ⟨by simp [prefetch_at_origin_post_audit, prefetch_at_origin_post, audit_log],
                fun r hr => ?_⟩
              simp only [Option.map_some', Option.some.injEq] at hr
              subst hr
              refine ⟨?_, ?_, ?_⟩
              · simp [prefetch_at_origin_post_audit, prefetch_at_origin_post, audit_log,
                  audit_events, htr]
              · simp [prefetch_at_origin_post_audit, prefetch_at_origin_post, audit_log, hpg,
                  audit_pages]
              · simp [prefetch_at_origin_post_audit, audit_log, writes_guarded, owner_locks]
          · simp only [hg, Bool.false_eq_true, if_false]
            simp [prefetch_at_origin_post_audit, prefetch_at_origin_post, audit_log,
              audit_events, audit_pages, writes_guarded]

theorem install_audit_spec (P : Params) (s : State) (res : remote_prefetch_response_t) :
    (install_prefetched_page_audit P s res).map (fun c => c.1) =
        install_prefetched_page P s res ∧
      ∀ c, install_prefetched_page_audit P s res = some c →
        c.1.trace = s.trace ++ audit_events c.2 ∧ audit_pages P c.2 s.pages = c.1.pages ∧
          writes_guarded page_table_lock [] c.2 = some [] := by
  unfold install_prefetched_page_audit install_prefetched_page
  cases hp : __get_pte_at P s res.addr with
  | none => simp
  | some pte =>
    simp only
    by_cases hpop : (pte_none pte || (vm_normal_page pte).isNone) = true
    · simp [hpop, audit_log, audit_events, audit_pages, writes_guarded, do_set_pte]
    · simp only [hpop, Bool.false_eq_true, if_false, make_pte_valid_audit_eq, audit_log]
      cases hm : __make_pte_valid P
          ((copy_to_user_page s ((vm_normal_page pte).getD 0) res.page).log
            (Event.lock (Lock.ptl res.addr))) res.addr 0 pte with
      | none => simp
      | some s4 =>
        have htr := make_pte_valid_trace _ _ _ _ _ _ hm
        have hpg := make_pte_valid_pages _ _ _ _ _ _ hm
        simp only [log_pages, copy_to_user_page_pages] at hpg
        refine ⟨by simp, fun c hc => ?_⟩
        simp only [Option.map_some', Option.some.injEq] at hc
        subst hc
        refine ⟨?_, ?_, ?_⟩
        · simp [audit_events, htr]
        · simp [audit_pages, hpg]
        · simp [writes_guarded, page_table_lock]

theorem body_audit_spec (P : Params) (s : State) (res : remote_prefetch_response_t) :
    (process_remote_prefetch_response_body_audit P s res).map (fun r => r.1) =
        process_remote_prefetch_response_body P s res ∧
      ∀ r, process_remote_prefetch_response_body_audit P s res = some r →
        r.1.1.trace = s.trace ++ audit_events r.2 ∧ audit_pages P r.2 s.pages = r.1.1.pages ∧
          writes_guarded page_table_lock [] r.2 = some [] := by
  obtain ⟨hmap, hspec⟩ := install_audit_spec P s res
  unfold process_remote_prefetch_response_body_audit process_remote_prefetch_response_body
  split
  · simp [audit_events, audit_pages, writes_guarded]
  · split
    · simp [audit_events, audit_pages, writes_guarded]
    · split
      · simp
      · split
        · cases hi : install_prefetched_page_audit P s res with
          | none =>
            rw [hi] at hmap
            simp [← hmap]
          | some c =>
            rw [hi] at hmap
            have := hspec c hi
            refine ⟨by simp [← hmap], fun r hr => ?_⟩
            simp only [Option.some.injEq] at hr
            subst hr
            exact this
        · split
          · simp [audit_events, audit_pages, writes_guarded]
          · simp

theorem audit_events_append (a b : List Audit) :
    audit_events (a ++ b) = audit_events a ++ audit_events b := by
  simp [audit_events, List.filterMap_append]

theorem audit_events_map_ev (evs : List Event) : audit_events (evs.map Audit.ev) = evs := by
  induction evs with
  | nil => rfl
  | cons e es ih =>
    simp only [audit_events, List.map_cons, List.filterMap_cons] at ih ⊢
    rw [ih]

theorem audit_pages_append (P : Params) (a b : List Audit) :
    ∀ pages, audit_pages P (a ++ b) pages = audit_pages P b (audit_pages P a pages) := by
  induction a with
  | nil => intro pages; rfl
  | cons x xs ih =>
    intro pages
    cases x with
    | ev e => simp only [List.cons_append, audit_pages]; exact ih _
    | index_write addr nr => simp only [List.cons_append, audit_pages]; exact ih _

theorem audit_pages_map_ev (P : Params) (evs : List Event) (pages : Nat → Option Nat) :
    audit_pages P (evs.map Audit.ev) pages = pages := by
  induction evs with
  | nil => rfl
  | cons e es ih => simp only [List.map_cons, audit_pages, ih]

theorem writes_guarded_append (need : Nat → List Lock) (a b : List Audit) :
    ∀ held, writes_guarded need held (a ++ b) =
      (writes_guarded need held a).bind fun h => writes_guarded need h b := by
  induction a with
  | nil => intro held; rfl
  | cons x xs ih =>
    intro held
    cases x with
    | ev e =>
      cases e <;> (simp only [List.cons_append, writes_guarded]; exact ih _)
    | index_write addr nr =>
      simp only [List.cons_append, writes_guarded]
      split
      · exact ih _
      · rfl

theorem writes_guarded_map_ev (need : Nat → List Lock) (evs : List Event) :
    ∀ held, (writes_guarded need held (evs.map Audit.ev)).isSome = true := by
  induction evs with
  | nil => intro held; rfl
  | cons e es ih =>
    intro held
    cases e <;> simp only [List.map_cons, writes_guarded, ih]

theorem loop_audit_spec (P : Params) (req : remote_page_request_t) (l : List prefetch_body) :
    ∀ c : State × List Audit,
      (prefetch_at_origin_loop_audit P req l c).map (fun r => r.1) =
          prefetch_at_origin_loop P req l c.1 ∧
        ∀ r, prefetch_at_origin_loop_audit P req l c = some r →
          ∃ log, r.2 = c.2 ++ log ∧ r.1.trace = c.1.trace ++ audit_events log ∧
            audit_pages P log c.1.pages = r.1.pages ∧
            writes_guarded (owner_locks P) [] log = some [] := by
  induction l with
  | nil => intro c; simp [prefetch_at_origin_loop_audit, prefetch_at_origin_loop]
  | cons e rest ih =>
    intro c
    unfold prefetch_at_origin_loop_audit prefetch_at_origin_loop
    by_cases h0 : e.addr = 0
    · simp only [h0, if_true, Option.map_some', true_and, Option.some.injEq]
      intro r hr
      subst hr
      exact ⟨[], by simp, by simp [audit_events], rfl, rfl⟩
    · simp only [h0, if_false]
      obtain ⟨hmap, hspec⟩ := step_audit_spec P req e c.1
      cases hs : prefetch_at_origin_step_audit P req e c.1 with
      | none =>
        rw [hs] at hmap
        simp [← hmap]
      | some r1 =>
        rw [hs] at hmap
        obtain ⟨ht1, hp1, hg1⟩ := hspec r1 hs
        obtain ⟨ihmap, ihspec⟩ := ih (r1.1, c.2 ++ r1.2)
        simp only [Option.map_some'] at hmap
        simp only [← hmap]
        refine ⟨ihmap, fun r hr => ?_⟩
        obtain ⟨log2, hl2, ht2, hp2, hg2⟩ := ihspec r hr
        refine ⟨r1.2 ++ log2, by rw [hl2, List.append_assoc], ?_, ?_, ?_⟩
        · rw [ht2, audit_events_append, ← List.append_assoc]
          simp only [ht1]
        · rw [audit_pages_append, hp1]
          exact hp2
        · rw [writes_guarded_append, hg1]
          exact hg2

theorem origin_audit_spec (P : Params) (s : State) (req : remote_page_request_t) :
    (prefetch_at_origin_audit P s req).map (fun r => r.1) = prefetch_at_origin P s req ∧
      ∀ r, prefetch_at_origin_audit P s req = some r →
        r.1.2.trace = s.trace ++ audit_events r.2 ∧ audit_pages P r.2 s.pages = r.1.2.pages ∧
          writes_guarded (owner_locks P) [] r.2 = some [] := by
  unfold prefetch_at_origin_audit prefetch_at_origin
  cases hl : req.pf_list with
  | nil => simp
  | cons e rest =>
    simp only
    by_cases h0 : e.addr = 0
    · simp [h0, audit_events, audit_pages, writes_guarded]
    · simp only [h0, if_false]
      by_cases ht : (!s.tasks req.remote_pid) = true
      · simp [ht, audit_events, audit_pages, writes_guarded]
      · simp only [ht, Bool.false_eq_true, if_false]
        obtain ⟨hmap, hspec⟩ := loop_audit_spec P req (e :: rest) (get_task_remote s, [])
        cases hloop : prefetch_at_origin_loop_audit P req (e :: rest) (get_task_remote s, []) with
        | none =>
          rw [hloop] at hmap
          simp [← hmap]
        | some c =>
          rw [hloop] at hmap
          simp only [Option.map_some'] at hmap
          simp only [← hmap, Option.map_some', true_and, Option.some.injEq]
          intro r hr
          subst hr
          obtain ⟨log, hlog, htr, hpg, hg⟩ := hspec c hloop
          simp only [List.nil_append] at hlog
          subst hlog
          exact ⟨by simpa using htr, by simpa using hpg, hg⟩

theorem finish_trace (P : Params) (s : State) (fh : Nat) (r : Bool × State)
    (h : __finish_fault_handling P s fh = some r) : ∃ evs, r.2.trace = s.trace ++ evs := by
  unfold __finish_fault_handling at h
  split at h
  · simp at h
  · simp only at h
    split at h
    · simp only [Option.some.injEq] at h; subst h; exact ⟨_, by simp; rfl⟩
    · split at h
      · simp only [Option.some.injEq] at h; subst h; exact ⟨_, by simp; rfl⟩
      · split at h
        · simp only [Option.some.injEq] at h; subst h; exact ⟨_, by simp; rfl⟩
        · simp only [Option.some.injEq] at h; subst h; exact ⟨_, by simp; rfl⟩

theorem response_audit_spec (P : Params) (s : State) (res : remote_prefetch_response_t) :
    (process_remote_prefetch_response_audit P s res).map (fun r => r.1) =
        process_remote_prefetch_response P s res ∧
      ∀ r, process_remote_prefetch_response_audit P s res = some r →
        r.1.1.trace = s.trace ++ audit_events r.2 ∧
          (audit_pages P r.2 s.pages = r.1.1.pages ∨ r.1.1.rc_freed = true) ∧
          (writes_guarded page_table_lock [] r.2).isSome = true := by
  obtain ⟨hmap, hspec⟩ := body_audit_spec P s res
  unfold process_remote_prefetch_response_audit process_remote_prefetch_response
  cases hb : process_remote_prefetch_response_body_audit P s res with
  | none =>
    rw [hb] at hmap
    simp [← hmap]
  | some b =>
    rw [hb] at hmap
    obtain ⟨htr, hpg, hg⟩ := hspec b hb
    simp only [Option.map_some'] at hmap
    simp only [← hmap]
    by_cases hfh : b.1.2.fh ≠ 0
    · simp only [hfh, ne_eq, not_false_eq_true, if_true]
      cases hf : __finish_fault_handling P b.1.1 b.1.2.fh with
      | none => simp
      | some r2 =>
        refine ⟨by simp, fun r hr => ?_⟩
        simp only [Option.some.injEq] at hr
        subst hr
        obtain ⟨evs, hevs⟩ := finish_trace P _ _ _ hf
        have hdrop : (r2.2.trace.drop b.1.1.trace.length).map Audit.ev = evs.map Audit.ev := by
          rw [hevs, List.drop_left]
        simp only [hdrop]
        refine ⟨?_, ?_, ?_⟩
        · rw [hevs, htr, audit_events_append, audit_events_map_ev, List.append_assoc]
        · rw [audit_pages_append, audit_pages_map_ev, hpg]
          rcases finish_pages_or_freed P _ _ _ hf with hsame | ⟨_, _, _, _, hfreed⟩
          · exact Or.inl hsame.symm
          · exact Or.inr hfreed
        · rw [writes_guarded_append, hg]
          exact writes_guarded_map_ev _ _ _
    · simp only [hfh, if_false, Option.map_some', true_and, Option.some.injEq]
      intro r hr
      subst hr
      exact ⟨htr, Or.inl hpg, by rw [hg]; rfl⟩

/-! ## The claims -/

theorem st_requester_inflight_buckets (fk : Nat) :
    bucket_addrs st_requester_inflight fk =
      if fk = 2 then [0x2000] else if fk = 3 then [0x3000] else [] := by
  unfold bucket_addrs st_requester_inflight
  by_cases h2 : fk = 2
  · subst h2; simp
  · by_cases h3 : fk = 3
    · subst h3; simp
    · simp [h2, h3]

theorem st_requester_inflight_wf : fault_table_wf P1 st_requester_inflight := by
  refine ⟨fun fk a ha => ?_, fun p fk hp hm => ?_⟩
  · rw [st_requester_inflight_buckets] at ha
    split at ha
    · rename_i h; subst h; simp at ha; subst ha; decide
    · split at ha
      · rename_i h; subst h; simp at ha; subst ha; decide
      · simp at ha
  · have hp' : 3 ≤ p := hp
    have : st_requester_inflight.faults fk = if fk = 2 then [1] else if fk = 3 then [2] else [] :=
      rfl
    rw [this] at hm
    split at hm
    · simp at hm; omega
    · split at hm
      · simp at hm; omega
      · simp at hm

theorem st_requester_inflight_one : one_handle_per_addr st_requester_inflight := by
  refine ⟨fun fk => ?_, fun fk1 fk2 a h1 h2 => ?_⟩
  · rw [st_requester_inflight_buckets]
    split
    · simp
    · split <;> simp
  · have hw := st_requester_inflight_wf
    rw [← hw.1 _ _ h1, ← hw.1 _ _ h2]

/-- C3: if the fault table of a context (a hash table whose handles sit in the
bucket of their address) holds at most one fault handle per address, it still
does, and is still such a table, after `select_prefetch_pages` on any candidate
list, after `__finish_fault_handling`, after `prefetch_at_origin` and after
`process_remote_prefetch_response`. -/
theorem one_handle_per_addr_preserved (P : Params) (s : State) (hwf : fault_table_wf P s)
    (h1 : one_handle_per_addr s) :
    (∀ l r, select_prefetch_pages P s l = some r →
        one_handle_per_addr r.2 ∧ fault_table_wf P r.2) ∧
    (∀ fh r, __finish_fault_handling P s fh = some r →
        one_handle_per_addr r.2 ∧ fault_table_wf P r.2) ∧
    (∀ req r, prefetch_at_origin P s req = some r →
        one_handle_per_addr r.2 ∧ fault_table_wf P r.2) ∧
    (∀ res r, process_remote_prefetch_response P s res = some r →
        one_handle_per_addr r.1 ∧ fault_table_wf P r.1) :=
  ⟨fun l r h => select_inv P s l r hwf h1 h,
   fun fh r h => shrink_one_handle (finish_table_shrinks P s fh r h) hwf h1,
   fun req r h => same_fault_table_inv (origin_table P s req r h) hwf h1,
   fun res r h => response_inv P s res r hwf h1 h⟩

theorem st_requester_wf : fault_table_wf P1 st_requester :=
  ⟨fun fk a ha => by simp [bucket_addrs, st_requester] at ha,
   fun p fk _ hm => by simp [st_requester] at hm⟩

theorem st_requester_one : one_handle_per_addr st_requester :=
  ⟨fun fk => by simp [bucket_addrs, st_requester],
   fun fk1 fk2 a h1 _ => by simp [bucket_addrs, st_requester] at h1⟩

theorem one_handle_per_addr_preserved_witness :
    (∃ r, select_prefetch_pages P1 st_requester cand_repeat = some r ∧
        r.2.faults 2 = [1] ∧ r.2.faults 3 = [2] ∧ one_handle_per_addr r.2) ∧
    (∃ r, __finish_fault_handling P1 st_requester_inflight 1 = some r ∧
        one_handle_per_addr r.2) ∧
    (∃ r, prefetch_at_origin P1 st_requester_inflight
        { req_two with remote_pid := 3 } = some r ∧ one_handle_per_addr r.2) ∧
    (∃ r, process_remote_prefetch_response P1 st_requester_inflight res_success = some r ∧
        one_handle_per_addr r.1) :=
  have h0 := one_handle_per_addr_preserved P1 st_requester st_requester_wf st_requester_one
  have h := one_handle_per_addr_preserved P1 st_requester_inflight st_requester_inflight_wf
    st_requester_inflight_one
  ⟨⟨_, (Option.some_get (by decide)).symm, by decide, by decide,
      (h0.1 _ _ (Option.some_get (by decide)).symm).1⟩,
   ⟨_, (Option.some_get (by decide)).symm, (h.2.1 _ _ (Option.some_get (by decide)).symm).1⟩,
   ⟨_, (Option.some_get (by decide)).symm, (h.2.2.1 _ _ (Option.some_get (by decide)).symm).1⟩,
   ⟨_, (Option.some_get (by decide)).symm, (h.2.2.2 _ _ (Option.some_get (by decide)).symm).1⟩⟩

/-- C1, as stated, fails: node 0 grants `0x2000` to node 1, and afterwards its
own bit is still set next to the bit of node 1, so `page_is_mine` stays true on
node 0. -/
theorem origin_success_keeps_owner_bit :
    ∃ r, prefetch_at_origin P0 st_owner req_two = some r ∧
      (1, res_granted) ∈ posted r.2 ∧ res_granted.result = PREFETCH_SUCCESS ∧
      (1 : Nat) ≠ P0.my_nid ∧
      page_owned_by P0 r.2 1 0x2000 = true ∧
      page_owned_by P0 r.2 P0.my_nid 0x2000 = true ∧
      page_is_mine P0 r.2 0x2000 = true :=
  ⟨_, (Option.some_get (by decide)).symm, by decide, by decide, by decide, by decide, by decide,
    by decide⟩

/-- C1 (amended): after `prefetch_at_origin` has answered SUCCESS for an address
to the requesting node, the owner's bitmap for that address has the distributed
flag, the bit of the requesting node and the owner's own bit set, so
`page_is_mine` holds at the owner. -/
theorem origin_success_hands_off (P : Params) (s : State) (req : remote_page_request_t)
    (r : Int × State) (res : remote_prefetch_response_t)
    (h : prefetch_at_origin P s req = some r)
    (hpost : (req.from_nid, res) ∈ (posted r.2).drop (posted s).length)
    (hres : res.result = PREFETCH_SUCCESS) :
    page_distributed P r.2 res.addr = true ∧
      page_owned_by P r.2 req.from_nid res.addr = true ∧
      page_owned_by P r.2 P.my_nid res.addr = true ∧
      page_is_mine P r.2 res.addr = true := by
  unfold prefetch_at_origin at h
  split at h
  · simp at h
  · split at h
    · simp at h; subst h; simp at hpost
    · split at h
      · simp at h; subst h; simp at hpost
      · simp only at h
        split at h
        · simp at h
        · rename_i s2 h2
          simp at h; subst h
          obtain ⟨rs, hps, _, _, hall⟩ := origin_loop_spec P req _ _ _ h2
          have hp0 : posted (get_task_remote s) = posted s := posted_congr rfl
          rw [hp0] at hps
          simp only [hps, List.drop_left] at hpost
          have hh := (hall _ hpost).2 hres
          exact ⟨hh.1, hh.2.1, hh.2.2, page_is_mine_of_bit P _ _ hh.2.2⟩

theorem origin_success_hands_off_witness :
    ∃ r, prefetch_at_origin P0 st_owner req_two = some r ∧
      page_distributed P0 r.2 res_granted.addr = true ∧
      page_owned_by P0 r.2 req_two.from_nid res_granted.addr = true ∧
      page_owned_by P0 r.2 P0.my_nid res_granted.addr = true ∧
      page_is_mine P0 r.2 res_granted.addr = true :=
  ⟨_, (Option.some_get (by decide)).symm,
    origin_success_hands_off P0 st_owner req_two _ res_granted
      (Option.some_get (by decide)).symm (by decide) (by decide)⟩

/-- C4, at the failing input: the address lies in a mapped area, both locks are
free, no handle exists and the page is owned locally, yet no reply is produced,
because `__get_pte_at` returns `NULL` and the lock pointer is used
uninitialised. -/
theorem origin_no_page_table_no_reply :
    origin_grants P0 st_owner 0x10000 = true ∧ __get_pte_at P0 st_owner 0x10000 = none ∧
      (prefetch_at_origin_step P0 req_hole { addr := 0x10000, fh := 1 } st_owner).isNone = true ∧
      (prefetch_at_origin P0 st_owner req_hole).isNone = true := by
  decide

/-- Where the page-table levels exist, a round of `prefetch_at_origin` replies
SUCCESS exactly when the address lies in a mapped area, both locks can be taken,
no handle exists and the page is owned locally, and FAIL otherwise. -/
theorem origin_step_reply (P : Params) (req : remote_page_request_t) (e : prefetch_body)
    (s : State) (hpt : no_vma s e.addr = false → (__get_pte_at P s e.addr).isSome = true) :
    ∃ s' res, prefetch_at_origin_step P req e s = some s' ∧
      posted s' = posted s ++ [(req.from_nid, res)] ∧ res.addr = e.addr ∧
      (res.result = PREFETCH_SUCCESS ↔ origin_grants P s e.addr = true) ∧
      (res.result ≠ PREFETCH_SUCCESS → res.result = PREFETCH_FAIL) := by
  obtain ⟨s', h⟩ := Option.isSome_iff_exists.mp (origin_step_total P req e s hpt)
  obtain ⟨res, hp, ha, _, _, _, _, hcase⟩ := origin_step_spec P req e s s' h
  refine ⟨s', res, h, hp, ha, ?_, ?_⟩
  · rcases hcase with ⟨h1, h2, _⟩ | ⟨h1, h2, _⟩
    · exact ⟨fun _ => h2, fun _ => h1⟩
    · constructor
      · intro h3; rw [h1] at h3; exact absurd h3 (by decide)
      · intro h3; rw [h2] at h3; exact absurd h3 (by decide)
  · rcases hcase with ⟨h1, _, _⟩ | ⟨h1, _, _⟩
    · intro h3; exact absurd h1 h3
    · intro _; exact h1

/-- C5, as stated, fails: the request names two candidates but a task that node
0 does not have; the call returns -1 and posts nothing. -/
theorem origin_no_task_no_reply :
    (candidates req_no_task.pf_list).length = 2 ∧
      prefetch_at_origin P0 st_owner req_no_task = some (-1, st_owner) ∧
      posted st_owner = [] := by
  refine ⟨by decide, rfl, by decide⟩

/-- C5 (amended): for a request that names an existing task, whose list holds
the candidates `cands` (at least one) before the zero sentinel, each candidate
in a mapped area having its page-table levels, `prefetch_at_origin` returns 0
and posts exactly one reply per candidate to the requesting node, in order, the
i-th with the address and the fault-handle reference of the i-th candidate and
with the `remote_pid` and `origin_pid` of the request. -/
theorem origin_one_reply_per_candidate (P : Params) (s : State) (req : remote_page_request_t)
    (cands : List prefetch_body) (z : prefetch_body) (rest : List prefetch_body)
    (hl : req.pf_list = cands ++ z :: rest) (hc : ∀ c ∈ cands, c.addr ≠ 0) (hz : z.addr = 0)
    (hn : cands ≠ []) (ht : s.tasks req.remote_pid = true)
    (hpt : candidates_have_pte P s req.pf_list) :
    ∃ s' rs, prefetch_at_origin P s req = some (0, s') ∧ posted s' = posted s ++ rs ∧
      rs.length = cands.length ∧ rs.map reply_key = cands.map (request_key req) := by
  have hz' : ∃ x ∈ req.pf_list, x.addr = 0 := ⟨z, by rw [hl]; simp, hz⟩
  have htot := origin_loop_total P req req.pf_list (get_task_remote s) hz' hpt
  obtain ⟨s2, h2⟩ := Option.isSome_iff_exists.mp htot
  obtain ⟨rs, hps, _, hkeys, _⟩ := origin_loop_spec P req _ _ _ h2
  rw [hl, candidates_append cands z rest hc hz] at hkeys
  refine ⟨s2, rs, ?_, ?_, ?_, hkeys⟩
  · cases hcs : cands with
    | nil => exact absurd hcs hn
    | cons c cs =>
      have h0 : c.addr ≠ 0 := hc c (by rw [hcs]; simp)
      have hl' : req.pf_list = c :: (cs ++ z :: rest) := by rw [hl, hcs]; rfl
      unfold prefetch_at_origin
      rw [hl'] at h2 ⊢
      simp only [h0, ht, if_false, Bool.not_true, Bool.false_eq_true]
      simp only [h2]
  · rw [hps]; rfl
  · have := congrArg List.length hkeys
    simpa using this

theorem origin_one_reply_per_candidate_witness :
    ∃ s' rs, prefetch_at_origin P0 st_owner req_two = some (0, s') ∧
      posted s' = posted st_owner ++ rs ∧ rs.length = 2 ∧
      rs.map reply_key = [(1, 0x2000, 1, 7, 3), (1, 0x3000, 2, 7, 3)] :=
  origin_one_reply_per_candidate P0 st_owner req_two
    [{ addr := 0x2000, fh := 1 }, { addr := 0x3000, fh := 2 }] { addr := 0, fh := 0 } [] rfl
    (by decide) rfl (by decide) rfl (by unfold candidates_have_pte; decide)

/-- C6: `prefetch_at_origin` never changes the fault table of the owner: after
the call, whatever it returned and whatever it replied, every bucket links the
same handles and every handle has the same fields (its pending count among
them) as before. -/
theorem origin_fault_table_unchanged (P : Params) (s : State) (req : remote_page_request_t)
    (r : Int × State) (h : prefetch_at_origin P s req = some r) :
    r.2.faults = s.faults ∧ r.2.heap = s.heap :=
  ⟨(origin_table P s req r h).1, (origin_table P s req r h).2.1⟩

theorem origin_fault_table_unchanged_witness :
    ∃ r, prefetch_at_origin P0 st_owner_busy req_two = some r ∧
      (find_fault_handle st_owner_busy 2 0x2000).isSome = true ∧
      r.2.faults = st_owner_busy.faults ∧ r.2.heap = st_owner_busy.heap :=
  ⟨_, (Option.some_get (by decide)).symm, by decide,
    origin_fault_table_unchanged P0 st_owner_busy req_two _ (Option.some_get (by decide)).symm⟩

/-- C8: a candidate whose page-table lock or bucket lock is held by another
actor, or for which the fault table already has a handle, is dropped.  In
whatever state it is visited, the round writes no slot of the output list, does
not advance the slot counter and leaves every bucket and every handle (so every
pending count) as it was; and when this is so at the start of a call, on a table
that is well formed, no slot of the returned list holds its address. -/
theorem select_drop_leaves_fault_table (P : Params) (addr : Nat) (s : State)
    (h : blocked P s addr) :
    (∀ (f : Nat → prefetch_body) (k : Nat),
      (select_prefetch_pages_step P addr (s, f, k)).2 = (f, k) ∧
        (select_prefetch_pages_step P addr (s, f, k)).1.faults = s.faults ∧
        (select_prefetch_pages_step P addr (s, f, k)).1.heap = s.heap) ∧
    (fault_table_wf P s → addr ≠ 0 → ∀ l : List prefetch_body, (∃ z ∈ l, z.addr = 0) →
      ∃ out s', select_prefetch_pages P s l = some (out, s') ∧
        ∀ f, out = some f → ∀ i, (f i).addr ≠ addr) := by
  refine ⟨fun f k => ?_, fun hwf ha l hz => ?_⟩
  · have hd := select_step_drop P addr s f k (blocked_not_qualifies P s addr h)
    exact ⟨hd.1, hd.2.1, hd.2.2.1⟩
  · obtain ⟨out, s', hsel, _, hslots, _⟩ := select_spec P s l hz
    refine ⟨out, s', hsel, fun f hf i => ?_⟩
    rw [hslots f hf i]
    have hnb := selected_not_blocked P addr l s hwf h
    rw [List.getD_eq_getElem?_getD]
    cases hg : (selected P s l)[i]? with
    | none => simpa using fun h0 => ha h0.symm
    | some x => simpa using hnb x (List.getElem?_mem hg)

theorem st_requester_inflight_blocked : blocked P1 st_requester_inflight 0x2000 :=
  Or.inr (Or.inr (by decide))

theorem select_drop_leaves_fault_table_witness :
    (∀ (f : Nat → prefetch_body) (k : Nat),
      (select_prefetch_pages_step P1 0x2000 (st_requester_inflight, f, k)).2 = (f, k) ∧
        (select_prefetch_pages_step P1 0x2000 (st_requester_inflight, f, k)).1.faults =
          st_requester_inflight.faults ∧
        (select_prefetch_pages_step P1 0x2000 (st_requester_inflight, f, k)).1.heap =
          st_requester_inflight.heap) ∧
    ∃ out s', select_prefetch_pages P1 st_requester_inflight cand_repeat = some (out, s') ∧
      ∀ f, out = some f → ∀ i, (f i).addr ≠ 0x2000 :=
  have h := select_drop_leaves_fault_table P1 0x2000 st_requester_inflight
    st_requester_inflight_blocked
  ⟨h.1, h.2 st_requester_inflight_wf (by decide) cand_repeat (by decide)⟩

/-- C2, at the failing input: node 1 does not own `0x2000` and has no page frame
mapped there; the SUCCESS reply is handled, a fresh frame is mapped, and
`page_is_mine` is still false afterwards. -/
theorem response_new_frame_not_owned :
    st_requester_inflight.tasks res_success.origin_pid = true ∧
      page_is_mine P1 st_requester_inflight res_success.addr = false ∧
      res_success.result = PREFETCH_SUCCESS ∧
      __get_pte_at P1 st_requester_inflight res_success.addr = some pte_zero ∧
      ∃ r, process_remote_prefetch_response P1 st_requester_inflight res_success = some r ∧
        __get_pte_at P1 r.1 res_success.addr =
          some { pfn := some 1000, valid := true, write := false, dirty := false } ∧
        page_is_mine P1 r.1 res_success.addr = false :=
  ⟨by decide, by decide, by decide, by decide, _, (Option.some_get (by decide)).symm,
    by decide, by decide⟩

/-- The sibling path of C2: when a page frame is already mapped at the address,
the handler body ends with the page distributed and owned locally. -/
theorem response_mapped_frame_owned (P : Params) (s : State) (res : remote_prefetch_response_t)
    (e : pte_t) (page : Nat) (ht : s.tasks res.origin_pid = true)
    (hm : page_is_mine P s res.addr = false) (hv : no_vma s res.addr = false)
    (hs : res.result = PREFETCH_SUCCESS) (hp : __get_pte_at P s res.addr = some e)
    (hf : vm_normal_page e = some page) :
    ∃ s1, process_remote_prefetch_response_body P s res = some (s1, res) ∧
      page_is_mine P s1 res.addr = true := by
  have e1 : res.result &&& PREFETCH_SUCCESS ≠ 0 := by rw [hs]; decide
  have hnn : pte_none e = false := by
    unfold pte_none
    simp only [decide_eq_false_iff_not]
    intro h0
    rw [h0] at hf
    simp [vm_normal_page, pte_zero] at hf
  obtain ⟨s4, h4⟩ := Option.isSome_iff_exists.mp (make_pte_valid_isSome P
    ((copy_to_user_page s page res.page).log (Event.lock (Lock.ptl res.addr))) res.addr 0 e)
  have hmine := (make_pte_valid_mine _ _ _ _ _ _ h4).2.2
  refine ⟨(s4.log (Event.unlock (Lock.ptl res.addr))).log (Event.unlock (Lock.ptl res.addr)),
    ?_, ?_⟩
  · unfold process_remote_prefetch_response_body
    simp only [ht, hm, hv, Bool.not_true, Bool.false_eq_true, if_false]
    rw [if_pos e1]
    unfold install_prefetched_page
    simp only [hp, hnn, hf, Option.isNone_some, Bool.or_self, Bool.false_eq_true, if_false,
      Option.getD_some, h4]
  · simpa using hmine

/-- C9: when the address of a response is already owned locally at the requester
(the task exists and `page_is_mine` holds), the handler sets the result to
CONCURRENCY whatever the owner sent, reaches the label `out` with the state
untouched (nothing is installed: same ownership index, same page tables, same
frames), and then finishes the referenced handle, once; the final state is that
of `__finish_fault_handling` alone. -/
theorem response_already_owned (P : Params) (s : State) (res : remote_prefetch_response_t)
    (h : fault_handle) (ht : s.tasks res.origin_pid = true)
    (hm : page_is_mine P s res.addr = true) (hfh : res.fh ≠ 0) (hl : s.heap res.fh = some h) :
    process_remote_prefetch_response_body P s res =
        some (s, { res with result := PREFETCH_CONCURRENCY }) ∧
      ∃ r, __finish_fault_handling P s res.fh = some r ∧
        process_remote_prefetch_response P s res =
          some (r.2, { res with result := PREFETCH_CONCURRENCY }) ∧
        finish_calls r.2 = finish_calls s ++ [res.fh] ∧
        r.2.pgtable = s.pgtable ∧ r.2.mem = s.mem ∧
        (r.2.pages = s.pages ∨ r.2.rc_freed = true) := by
  have hb : process_remote_prefetch_response_body P s res =
      some (s, { res with result := PREFETCH_CONCURRENCY }) := by
    unfold process_remote_prefetch_response_body
    simp [ht, hm]
  obtain ⟨r, hr, hc, hpg, hmem, hpages⟩ := finish_spec P s res.fh h hl
  refine ⟨hb, r, hr, ?_, hc, hpg, hmem, hpages⟩
  unfold process_remote_prefetch_response
  simp only [hb, hfh, ne_eq, not_false_eq_true, if_true, hr]

theorem response_already_owned_witness :
    page_is_mine P1 st_requester_raced res_success.addr = true ∧
      process_remote_prefetch_response_body P1 st_requester_raced res_success =
        some (st_requester_raced, { res_success with result := PREFETCH_CONCURRENCY }) ∧
      ∃ r, __finish_fault_handling P1 st_requester_raced res_success.fh = some r ∧
        process_remote_prefetch_response P1 st_requester_raced res_success =
          some (r.2, { res_success with result := PREFETCH_CONCURRENCY }) ∧
        finish_calls r.2 = finish_calls st_requester_raced ++ [res_success.fh] ∧
        r.2.pgtable = st_requester_raced.pgtable ∧ r.2.mem = st_requester_raced.mem ∧
        (r.2.pages = st_requester_raced.pages ∨ r.2.rc_freed = true) :=
  ⟨by decide, response_already_owned P1 st_requester_raced res_success
    { addr := 0x2000, flags := 0, limit := 0, pid := 3, ret := 0, pendings := 1,
      pendings_retry := 0, complete := none } (by decide) (by decide) (by decide) rfl⟩

/-- C10: for a response with result SUCCESS or FAIL that carries a reference to
a live fault handle, on each of the paths task not found, page already owned
locally, page installed (area and page-table entry exist) and FAIL (area
exists), the handler completes and has called `__finish_fault_handling` exactly
once, on that handle. -/
theorem response_finishes_handle_once (P : Params) (s : State)
    (res : remote_prefetch_response_t) (h : fault_handle)
    (hres : res.result = PREFETCH_SUCCESS ∨ res.result = PREFETCH_FAIL) (hfh : res.fh ≠ 0)
    (hl : s.heap res.fh = some h)
    (hpath : s.tasks res.origin_pid = false ∨ page_is_mine P s res.addr = true ∨
      (no_vma s res.addr = false ∧
        (res.result = PREFETCH_SUCCESS → (__get_pte_at P s res.addr).isSome = true))) :
    ∃ r, process_remote_prefetch_response P s res = some r ∧
      finish_calls r.1 = finish_calls s ++ [res.fh] := by
  have hpath' : s.tasks res.origin_pid = false ∨ page_is_mine P s res.addr = true ∨
      (no_vma s res.addr = false ∧
        (res.result = PREFETCH_FAIL ∨
          (res.result = PREFETCH_SUCCESS ∧ (__get_pte_at P s res.addr).isSome = true))) := by
    rcases hpath with h1 | h1 | ⟨h1, h2⟩
    · exact Or.inl h1
    · exact Or.inr (Or.inl h1)
    · rcases hres with h3 | h3
      · exact Or.inr (Or.inr ⟨h1, Or.inr ⟨h3, h2 h3⟩⟩)
      · exact Or.inr (Or.inr ⟨h1, Or.inl h3⟩)
  obtain ⟨⟨s1, res1⟩, hb, hfh1, hheap, hcalls⟩ := body_spec P s res hpath'
  simp only at hfh1 hheap hcalls
  have hl1 : s1.heap res1.fh = some h := by rw [hheap, hfh1]; exact hl
  obtain ⟨r, hr, hc, _⟩ := finish_spec P s1 res1.fh h hl1
  refine ⟨(r.2, res1), ?_, ?_⟩
  · unfold process_remote_prefetch_response
    have hne : res1.fh ≠ 0 := by rw [hfh1]; exact hfh
    simp only [hb, hne, ne_eq, not_false_eq_true, if_true, hr]
  · simp only [hc, hcalls, hfh1]

theorem response_finishes_handle_once_witness :
    ∃ r, process_remote_prefetch_response P1 st_requester_inflight res_success = some r ∧
      finish_calls r.1 = finish_calls st_requester_inflight ++ [res_success.fh] :=
  response_finishes_handle_once P1 st_requester_inflight res_success
    { addr := 0x2000, flags := 0, limit := 0, pid := 3, ret := 0, pendings := 1,
      pendings_retry := 0, complete := none } (Or.inl rfl) (by decide) rfl
    (Or.inr (Or.inr ⟨by decide, fun _ => by decide⟩))

/-- C7: on a list that holds a zero sentinel, `select_prefetch_pages` returns
exactly the candidates that qualify when they are visited (mapped area,
page-table entry, both locks free, no handle in the fault table, not owned
locally), in input order, in the consecutive slots from 0 on, every later slot
zero, each paired with a fault handle newly created for it; it returns null
exactly when no candidate qualifies. -/
theorem select_returns_qualifying (P : Params) (s : State) (l : List prefetch_body)
    (hz : ∃ z ∈ l, z.addr = 0) :
    ∃ out s', select_prefetch_pages P s l = some (out, s') ∧
      (out = none ↔ selected P s l = []) ∧
      (∀ f, out = some f → ∀ i, f i = (selected P s l).getD i { addr := 0, fh := 0 }) ∧
      ∀ x ∈ selected P s l, newly_created P s s' x :=
  select_spec P s l hz

theorem select_returns_qualifying_witness :
    selected P1 st_requester cand_repeat =
        [{ addr := 0x2000, fh := 1 }, { addr := 0x3000, fh := 2 }] ∧
      ∃ out s', select_prefetch_pages P1 st_requester cand_repeat = some (out, s') ∧
        (out = none ↔ selected P1 st_requester cand_repeat = []) ∧
        (∀ f, out = some f →
          ∀ i, f i = (selected P1 st_requester cand_repeat).getD i { addr := 0, fh := 0 }) ∧
        ∀ x ∈ selected P1 st_requester cand_repeat, newly_created P1 st_requester s' x :=
  ⟨by decide, select_returns_qualifying P1 st_requester cand_repeat (by decide)⟩

/-- C12: `page_is_mine(addr)` is true for every address whose ownership region
is not allocated or whose distributed flag is clear, whatever the node bits are;
for an address marked distributed it is exactly the bit of the local node. -/
theorem page_is_mine_spec (P : Params) (s : State) (addr : Nat) :
    (s.pages (__get_page_info_key P addr).1 = none → page_is_mine P s addr = true) ∧
    (page_distributed P s addr = false → page_is_mine P s addr = true) ∧
    (page_distributed P s addr = true →
      page_is_mine P s addr = page_owned_by P s P.my_nid addr) := by
  unfold page_distributed page_owned_by page_info_bit page_is_mine __get_page_info
  cases h : s.pages (__get_page_info_key P addr).1 with
  | none => simp [h]
  | some r =>
    simp only [h, reduceCtorEq, false_implies, true_and]
    cases hd : test_bit PI_FLAG_DISTRIBUTED (page_info_bits s
      ((__get_page_info_key P addr).1, (__get_page_info_key P addr).2)).1
      (__get_page_info_key P addr).2 <;> simp [hd]

theorem page_is_mine_spec_witness :
    page_distributed P1 st_requester 0x1000 = false ∧
      page_is_mine P1 st_requester 0x1000 = true ∧
      page_distributed P1 st_requester_raced 0x2000 = true ∧
      page_is_mine P1 st_requester_raced 0x2000 =
        page_owned_by P1 st_requester_raced P1.my_nid 0x2000 ∧
      page_distributed P1 st_requester 0x2000 = true ∧
      page_is_mine P1 st_requester 0x2000 = page_owned_by P1 st_requester P1.my_nid 0x2000 :=
  ⟨by decide, (page_is_mine_spec P1 st_requester 0x1000).2.1 (by decide), by decide,
    (page_is_mine_spec P1 st_requester_raced 0x2000).2.2 (by decide), by decide,
    (page_is_mine_spec P1 st_requester 0x2000).2.2 (by decide)⟩

/-- C13: `SetPageDistributed` is idempotent: applied twice to an address it
yields the same state (the same regions with the same bits) as applied once,
and after it the distributed flag of the page is set. -/
theorem SetPageDistributed_idempotent (P : Params) (s : State) (addr : Nat) :
    SetPageDistributed P (SetPageDistributed P s addr) addr = SetPageDistributed P s addr ∧
      page_distributed P (SetPageDistributed P s addr) addr = true := by
  refine ⟨?_, SetPageDistributed_bit P s addr⟩
  rw [SetPageDistributed_eq P (SetPageDistributed P s addr) addr, SetPageDistributed_eq P s addr]
  simp [set_bit, Nat.lor_assoc]

/-- C14: `__alloc_fault_handle(tsk, addr)` creates a handle with pending count
1, retry-pending count 0, flags 0, result 0 and no completion, links it at the
head of bucket `(addr >> PAGE_SHIFT) % FAULTS_HASH` and of no other bucket, so
that a scan of that bucket for `addr` finds it, and raises the reference count
of the context by exactly one. -/
theorem alloc_fault_handle_spec (P : Params) (s : State) (addr : Nat) :
    ∃ h, (__alloc_fault_handle P s addr).2.heap (__alloc_fault_handle P s addr).1 = some h ∧
      h.addr = addr ∧ h.pendings = 1 ∧ h.pendings_retry = 0 ∧ h.flags = 0 ∧ h.ret = 0 ∧
      h.complete = none ∧
      (__alloc_fault_handle P s addr).2.faults ((addr >>> P.PAGE_SHIFT) % P.FAULTS_HASH) =
        (__alloc_fault_handle P s addr).1 :: s.faults ((addr >>> P.PAGE_SHIFT) % P.FAULTS_HASH) ∧
      (∀ fk, fk ≠ (addr >>> P.PAGE_SHIFT) % P.FAULTS_HASH →
        (__alloc_fault_handle P s addr).2.faults fk = s.faults fk) ∧
      find_fault_handle (__alloc_fault_handle P s addr).2
        ((addr >>> P.PAGE_SHIFT) % P.FAULTS_HASH) addr = some (__alloc_fault_handle P s addr).1 ∧
      (__alloc_fault_handle P s addr).2.count = s.count + 1 := by
  refine ⟨fresh_handle s.current_pid addr, ?_, rfl, rfl, rfl, rfl, rfl, rfl, ?_, ?_, ?_, ?_⟩
  · simp [__alloc_fault_handle, get_task_remote, fresh_handle]
  · simp [__alloc_fault_handle, get_task_remote, __fault_hash_key]
  · intro fk hfk
    simp [__alloc_fault_handle, get_task_remote, __fault_hash_key, Function.update_noteq hfk]
  · simp [__alloc_fault_handle, get_task_remote, __fault_hash_key, find_fault_handle]
  · simp [__alloc_fault_handle, get_task_remote]

/-- C15: for a fault handle whose pending count is `p ≥ 2`,
`__finish_fault_handling` lowers the count to `p - 1`, wakes the primary wait
queue, leaves the handle linked (no bucket changes) and alive, leaves the
reference count of the context unchanged and returns false; nothing is freed. -/
theorem finish_pending_stays (P : Params) (s : State) (fh : Nat) (h : fault_handle)
    (hl : s.heap fh = some h) (hp : 2 ≤ h.pendings) :
    ∃ s', __finish_fault_handling P s fh = some (false, s') ∧
      s'.heap fh = some { h with pendings := h.pendings - 1 } ∧
      (∀ p, p ≠ fh → s'.heap p = s.heap p) ∧
      s'.faults = s.faults ∧ s'.count = s.count ∧
      s'.rc_linked = s.rc_linked ∧ s'.rc_freed = s.rc_freed ∧
      s'.trace = s.trace ++ [Event.finish_fault_handling fh,
        Event.lock (Lock.faults_lock (__fault_hash_key P h.addr)), Event.wake_up_all_waits fh,
        Event.unlock (Lock.faults_lock (__fault_hash_key P h.addr))] := by
  have hne : h.pendings - 1 ≠ 0 := by omega
  unfold __finish_fault_handling
  simp only [hl, hne, ne_eq, not_false_eq_true, if_true]
  refine ⟨_, rfl, by simp, fun p hpf => ?_, rfl, rfl, rfl, rfl, by simp⟩
  simp [Function.update_noteq hpf]

theorem finish_pending_stays_witness :
    ∃ s', __finish_fault_handling P1 st_requester_joined 1 = some (false, s') ∧
      s'.heap 1 = some handle_0x2000 ∧
      s'.faults 2 = [1] ∧ s'.count = st_requester_joined.count := by
  obtain ⟨s', h1, h2, _, h4, h5, _⟩ := finish_pending_stays P1 st_requester_joined 1
    { handle_0x2000 with pendings := 2 } rfl (by decide)
  exact ⟨s', h1, h2, by rw [h4]; rfl, h5⟩

/-- C16, as stated, fails: the handle of `0x2000` has pending count 1 and a
completion registered; `__finish_fault_handling` signals the completion, returns
false, keeps the reference of the context, and a scan for `0x2000` still finds
the handle. -/
theorem finish_completion_keeps_handle :
    st_requester_completion.heap 1 = some { handle_0x2000 with complete := some 9 } ∧
      handle_0x2000.pendings = 1 ∧
      ∃ r, __finish_fault_handling P1 st_requester_completion 1 = some r ∧ r.1 = false ∧
        find_fault_handle r.2 (__fault_hash_key P1 0x2000) 0x2000 = some 1 ∧
        r.2.count = st_requester_completion.count :=
  ⟨rfl, rfl, _, (Option.some_get (by decide)).symm, by decide, by decide, by decide⟩

/-- C16 (amended): for a fault handle that is linked in the bucket of its
address, in a table with at most one handle per address, whose pending count is
1 and that has no completion registered, `__finish_fault_handling` brings the
count to zero, unlinks the handle, so that a later scan for its address finds no
handle, drops the reference of the context exactly once, and returns true. -/
theorem finish_last_unlinks (P : Params) (s : State) (fh : Nat) (h : fault_handle)
    (hl : s.heap fh = some h) (hp : h.pendings = 1) (hc : h.complete = none)
    (hlinked : fh ∈ s.faults (__fault_hash_key P h.addr)) (hu : one_handle_per_addr s) :
    ∃ s', __finish_fault_handling P s fh = some (true, s') ∧
      h.pendings - 1 = 0 ∧
      (s'.heap fh = none ∨ s'.heap fh = some { h with pendings := 0 }) ∧
      (∀ fk, s'.faults fk = (s.faults fk).erase fh) ∧
      find_fault_handle s' (__fault_hash_key P h.addr) h.addr = none ∧
      s'.count = s.count - 1 := by
  obtain ⟨s', hf, hfaults, hheap, hfh, hcount, _⟩ := finish_last_eq P s fh h hl hp hc
  refine ⟨s', hf, by rw [hp]; rfl, ?_, hfaults, ?_, hcount⟩
  · rw [hfh]
    split
    · exact Or.inr rfl
    · exact Or.inl rfl
  · rw [find_fault_handle_none_iff]
    unfold bucket_addrs
    rw [hfaults]
    have hnd : ((s.faults (__fault_hash_key P h.addr)).filterMap
        fun p => (s.heap p).map fun x => x.addr).Nodup := hu.1 _
    refine erase_filterMap_not_mem (fun p => (s.heap p).map fun x => x.addr)
      (fun p => (s'.heap p).map fun x => x.addr) fh h.addr (by simp [hl]) ?_ _ hnd hlinked
    intro p
    dsimp only
    by_cases hpf : p = fh
    · subst hpf
      rw [hfh]
      split
      · left; simp [hl]
      · right; rfl
    · left; simp only [hheap p hpf]

theorem finish_last_unlinks_witness :
    ∃ s', __finish_fault_handling P1 st_requester_inflight 1 = some (true, s') ∧
      s'.faults 2 = [] ∧
      find_fault_handle s' (__fault_hash_key P1 0x2000) 0x2000 = none ∧
      s'.count = st_requester_inflight.count - 1 := by
  obtain ⟨s', h1, _, _, h4, h5, h6⟩ := finish_last_unlinks P1 st_requester_inflight 1
    handle_0x2000 rfl rfl rfl (by decide) st_requester_inflight_one
  exact ⟨s', h1, by rw [h4]; decide, h5, h6⟩

/-- C19: `__put_task_remote` lowers the reference count of the context by one;
it returns true exactly when the count becomes zero, and then the context is
unlinked and freed; otherwise (for every count greater than one in particular)
it returns false and changes nothing but the count, so the context stays linked
and intact. -/
theorem put_task_remote_spec (s : State) :
    (__put_task_remote s).2.count = s.count - 1 ∧
    ((__put_task_remote s).1 = true ↔ s.count - 1 = 0) ∧
    (s.count - 1 = 0 →
      (__put_task_remote s).2.rc_linked = false ∧ (__put_task_remote s).2.rc_freed = true) ∧
    (s.count - 1 ≠ 0 →
      (__put_task_remote s).1 = false ∧
        (__put_task_remote s).2 = { s with count := s.count - 1 }) ∧
    (1 < s.count →
      (__put_task_remote s).1 = false ∧
        (__put_task_remote s).2.rc_linked = s.rc_linked ∧
        (__put_task_remote s).2.rc_freed = s.rc_freed ∧
        (__put_task_remote s).2.pages = s.pages) := by
  refine ⟨?_, ?_, ?_, ?_, ?_⟩
  · unfold __put_task_remote free_remote_context_pages; simp only; split <;> rfl
  · unfold __put_task_remote free_remote_context_pages; simp only; split <;> simp_all
  · intro h; simp [__put_task_remote, free_remote_context_pages, h]
  · intro h; simp [__put_task_remote, free_remote_context_pages, h]
  · intro h
    have h1 : s.count - 1 ≠ 0 := by omega
    simp [__put_task_remote, free_remote_context_pages, h1]

theorem put_task_remote_spec_witness :
    ((__put_task_remote st_owner).1 = false ∧
        (__put_task_remote st_owner).2.rc_linked = st_owner.rc_linked ∧
        (__put_task_remote st_owner).2.rc_freed = st_owner.rc_freed ∧
        (__put_task_remote st_owner).2.pages = st_owner.pages) ∧
      ((__put_task_remote (__put_task_remote st_owner).2).2.rc_linked = false ∧
        (__put_task_remote (__put_task_remote st_owner).2).2.rc_freed = true) :=
  ⟨(put_task_remote_spec st_owner).2.2.2.2 (by decide),
   (put_task_remote_spec (__put_task_remote st_owner).2).2.2.1 (by decide)⟩

/-- C11, as stated, fails at the requester: with the handle of `0x2000` holding
the last reference of the context, the handler takes a FAIL response through
to its end, the result still FAIL, and finishing the handle frees the context
and with it the ownership index, which held the region of `0x2000` before. -/
theorem fail_response_frees_index :
    res_fail.result = PREFETCH_FAIL ∧ st_requester_last.count = 1 ∧
      (st_requester_last.pages 0).isSome = true ∧
      ∃ r, process_remote_prefetch_response P1 st_requester_last res_fail = some r ∧
        r.2.result = PREFETCH_FAIL ∧ r.1.pages 0 = none ∧ r.1.rc_freed = true :=
  ⟨rfl, rfl, by decide, _, (Option.some_get (by decide)).symm, by decide, by decide,
    by decide⟩

/-- C11 (amended): a FAIL outcome changes the page ownership index only by
freeing it with the context.  At the owner, the round of `prefetch_at_origin`
that answers an address with FAIL leaves the index as it was.  At the requester,
a response with result FAIL reaches the end of the handler body with the whole
state, the index included, untouched; after the handler the index is as it was
whenever the reference count of the context is not 1 on entry, and otherwise it
is as it was or the handle held the last reference and the context has been
unlinked and freed. -/
theorem fail_keeps_ownership_index (P : Params) :
    (∀ (req : remote_page_request_t) (e : prefetch_body) (s s' : State)
        (res : remote_prefetch_response_t), prefetch_at_origin_step P req e s = some s' →
        posted s' = posted s ++ [(req.from_nid, res)] → res.result = PREFETCH_FAIL →
        s'.pages = s.pages) ∧
    (∀ (s : State) (res : remote_prefetch_response_t)
        (r : State × remote_prefetch_response_t), res.result = PREFETCH_FAIL →
        process_remote_prefetch_response P s res = some r →
        (∃ b, process_remote_prefetch_response_body P s res = some b ∧ b.1 = s) ∧
          (s.count ≠ 1 → r.1.pages = s.pages) ∧
          (r.1.pages = s.pages ∨
            (s.count = 1 ∧ r.1.count = 0 ∧ r.1.rc_linked = false ∧ r.1.rc_freed = true))) := by
  constructor
  · intro req e s s' res h hp hres
    obtain ⟨res0, hp0, _, _, _, _, _, hcase⟩ := origin_step_spec P req e s s' h
    have heq : res0 = res := by
      have := List.append_cancel_left (hp0.symm.trans hp)
      simpa using this
    subst heq
    rcases hcase with ⟨h1, _, _⟩ | ⟨_, _, h3⟩
    · rw [hres] at h1; exact absurd h1 (by decide)
    · exact h3
  · intro s res r hres h
    unfold process_remote_prefetch_response at h
    split at h
    · simp at h
    · rename_i s1 res1 hb
      have hs1 : s1 = s := body_fail P s res (s1, res1) hres hb
      subst hs1
      refine ⟨⟨_, hb, rfl⟩, ?_⟩
      split at h
      · split at h
        · simp at h
        · rename_i r2 hf
          simp only [Option.some.injEq] at h
          subst h
          refine ⟨fun hc => finish_pages P s1 res1.fh r2 hf hc, ?_⟩
          rcases finish_pages_or_freed P s1 res1.fh r2 hf with hsame | ⟨h1, _, h3, h4, h5⟩
          · exact Or.inl hsame
          · exact Or.inr ⟨h1, h3, h4, h5⟩
      · simp only [Option.some.injEq] at h
        subst h
        exact ⟨fun _ => rfl, Or.inl rfl⟩

theorem fail_keeps_ownership_index_witness :
    (∃ s', prefetch_at_origin_step P0 req_two { addr := 0x2000, fh := 1 } st_owner_busy = some s' ∧
        posted s' = posted st_owner_busy ++
          [(req_two.from_nid, prefetch_at_origin_reply req_two { addr := 0x2000, fh := 1 }
            PREFETCH_FAIL 0)] ∧
        s'.pages = st_owner_busy.pages) ∧
    (∃ r, process_remote_prefetch_response P1 st_requester_inflight res_fail = some r ∧
        r.1.pages = st_requester_inflight.pages) :=
  ⟨⟨_, (Option.some_get (by decide)).symm, by decide,
      (fail_keeps_ownership_index P0).1 req_two { addr := 0x2000, fh := 1 } st_owner_busy _
        (prefetch_at_origin_reply req_two { addr := 0x2000, fh := 1 } PREFETCH_FAIL 0)
        (Option.some_get (by decide)).symm (by decide) rfl⟩,
   ⟨_, (Option.some_get (by decide)).symm,
      ((fail_keeps_ownership_index P1).2 st_requester_inflight res_fail _ rfl
        (Option.some_get (by decide)).symm).2.1 (by decide)⟩⟩

/-- C17: under the default cadence every call of `prefetch_policy`, whatever
calls came before it, writes the `addr` field of exactly the ten slots 0 to 9,
slot `i` getting `fault_addr + (i + 1) * PAGE_SIZE` in `unsigned long`
arithmetic, and leaves the slots from 10 on unchanged; the static counter is
back at 0 after the call, so the result is that of a first call.  Candidate `i`
lies `i + 1` pages after the faulting page (exactly when the sum does not wrap,
modulo the address space otherwise), so the faulting page is never a
candidate. -/
theorem prefetch_policy_spec (P : Params) (earlier : List ((Nat → prefetch_body) × Nat))
    (pf_list : Nat → prefetch_body) (fault_addr : Nat) :
    prefetch_policy P (prefetch_policy_cnt P earlier) pf_list fault_addr =
        prefetch_policy P 0 pf_list fault_addr ∧
    (prefetch_policy P 0 pf_list fault_addr).1 = 0 ∧
    (∀ i, i < 10 →
      ((prefetch_policy P 0 pf_list fault_addr).2 i).addr =
          (fault_addr + (i + 1) * PAGE_SIZE P) % ULONG_RANGE ∧
        ((prefetch_policy P 0 pf_list fault_addr).2 i).fh = (pf_list i).fh) ∧
    (∀ i, 10 ≤ i → (prefetch_policy P 0 pf_list fault_addr).2 i = pf_list i) ∧
    (fault_addr + 10 * PAGE_SIZE P < ULONG_RANGE → ∀ i, i < 10 →
      ((prefetch_policy P 0 pf_list fault_addr).2 i).addr = fault_addr + (i + 1) * PAGE_SIZE P ∧
        ((prefetch_policy P 0 pf_list fault_addr).2 i).addr >>> P.PAGE_SHIFT =
          (fault_addr >>> P.PAGE_SHIFT) + (i + 1)) ∧
    (fault_addr < ULONG_RANGE → P.PAGE_SHIFT ≤ 60 → ∀ i, i < 10 →
      ((prefetch_policy P 0 pf_list fault_addr).2 i).addr >>> P.PAGE_SHIFT =
          ((fault_addr >>> P.PAGE_SHIFT) + (i + 1)) % 2 ^ (64 - P.PAGE_SHIFT) ∧
        ((prefetch_policy P 0 pf_list fault_addr).2 i).addr >>> P.PAGE_SHIFT ≠
          fault_addr >>> P.PAGE_SHIFT) := by
  have hw : ∀ i, i < 10 →
      (prefetch_policy P 0 pf_list fault_addr).2 i =
        { addr := (fault_addr + (i + 1) * PAGE_SIZE P) % ULONG_RANGE, fh := (pf_list i).fh } := by
    intro i hi
    have hc : 0 ≤ i ∧ i < 0 + PREFETCH_NUM_OF_PAGES := ⟨Nat.zero_le _, by simpa using hi⟩
    rw [prefetch_policy_fires]
    simp only [prefetch_policy_loop_spec, hc, and_self, if_true, SKIP_NUM_OF_PAGES]
  have hps : PAGE_SIZE P = 2 ^ P.PAGE_SHIFT := Nat.one_shiftLeft _
  refine ⟨by rw [prefetch_policy_cnt_zero], by rw [prefetch_policy_fires], ?_, ?_, ?_, ?_⟩
  · intro i hi
    rw [hw i hi]
    exact ⟨rfl, rfl⟩
  · intro i hi
    have hc : ¬ (0 ≤ i ∧ i < 0 + PREFETCH_NUM_OF_PAGES) := by
      simp only [PREFETCH_NUM_OF_PAGES]; omega
    rw [prefetch_policy_fires]
    simp only [prefetch_policy_loop_spec, hc, if_false]
  · intro hno i hi
    rw [hw i hi]
    have hlt : fault_addr + (i + 1) * PAGE_SIZE P < ULONG_RANGE := by
      have : (i + 1) * PAGE_SIZE P ≤ 10 * PAGE_SIZE P := Nat.mul_le_mul_right _ (by omega)
      omega
    simp only [Nat.mod_eq_of_lt hlt, true_and]
    rw [hps, Nat.shiftRight_eq_div_pow, Nat.shiftRight_eq_div_pow,
      Nat.add_mul_div_right _ _ (Nat.two_pow_pos _)]
  · intro hfa hs i hi
    rw [hw i hi]
    simp only
    have hpage := page_of_wrapped P.PAGE_SHIFT fault_addr (i + 1) (by omega)
    rw [hps]
    have hR : ULONG_RANGE = 2 ^ 64 := rfl
    rw [hR, hpage]
    refine ⟨rfl, ?_⟩
    have h64 : (2 : Nat) ^ 64 = 2 ^ P.PAGE_SHIFT * 2 ^ (64 - P.PAGE_SHIFT) := by
      rw [← Nat.pow_add]; congr 1; omega
    have hpn : fault_addr >>> P.PAGE_SHIFT < 2 ^ (64 - P.PAGE_SHIFT) := by
      rw [Nat.shiftRight_eq_div_pow]
      apply Nat.div_lt_of_lt_mul
      rw [← h64]; exact hfa
    have hM : 16 ≤ 2 ^ (64 - P.PAGE_SHIFT) := by
      have : (2 : Nat) ^ 4 ≤ 2 ^ (64 - P.PAGE_SHIFT) :=
        Nat.pow_le_pow_right (by decide) (by omega)
      simpa using this
    generalize fault_addr >>> P.PAGE_SHIFT = pn at hpn ⊢
    generalize 2 ^ (64 - P.PAGE_SHIFT) = M at hpn hM ⊢
    by_cases hlt : pn + (i + 1) < M
    · rw [Nat.mod_eq_of_lt hlt]; omega
    · rw [Nat.mod_eq_sub_mod (by omega), Nat.mod_eq_of_lt (by omega)]; omega

theorem prefetch_policy_spec_witness :
    (∀ i, i < 10 →
      ((prefetch_policy P0 0 alloc_prefetch_list 0x1000).2 i).addr = 0x1000 + (i + 1) * 0x1000 ∧
        ((prefetch_policy P0 0 alloc_prefetch_list 0x1000).2 i).addr >>> 12 = 1 + (i + 1)) ∧
    (∀ i, i < 10 →
      ((prefetch_policy P0 0 alloc_prefetch_list 0x1000).2 i).addr >>> 12 ≠ 1) :=
  ⟨(prefetch_policy_spec P0 [] alloc_prefetch_list 0x1000).2.2.2.2.1 (by decide),
   fun i hi => ((prefetch_policy_spec P0 [] alloc_prefetch_list 0x1000).2.2.2.2.2 (by decide)
     (by decide) i hi).2⟩

/-- C18: the inbound context list never holds two contexts registered for the
same node and the same non-zero thread-group id.  `clone_remote_thread` keeps
this: when `__lookup_remote_contexts_in` finds no context it registers the new
one for that node and thread-group id only and links it at the head; when it
finds one it frees the new context, leaves the list as it is and goes on with
the one found.  So the property holds after any series of clone requests from
the empty list, and unlinking a context keeps it. -/
theorem inbound_registered_once (inbound : List remote_context) (req : clone_request_t) :
    (registered_once inbound → registered_once (clone_remote_thread inbound req).inbound) ∧
    (__lookup_remote_contexts_in inbound req.origin_nid req.origin_tgid = none →
      (clone_remote_thread inbound req).inbound = (clone_remote_thread inbound req).rc :: inbound ∧
        (clone_remote_thread inbound req).rc.remote_tgids req.origin_nid = req.origin_tgid ∧
        (∀ n, n ≠ req.origin_nid → (clone_remote_thread inbound req).rc.remote_tgids n = 0) ∧
        (clone_remote_thread inbound req).rc_new_freed = false) ∧
    (∀ rc, __lookup_remote_contexts_in inbound req.origin_nid req.origin_tgid = some rc →
      (clone_remote_thread inbound req).inbound = inbound ∧
        (clone_remote_thread inbound req).rc = rc ∧
        (clone_remote_thread inbound req).rc_new_freed = true) ∧
    (∀ reqs, registered_once (inbound_after reqs)) ∧
    (∀ i, registered_once inbound → registered_once (inbound.eraseIdx i)) := by
  refine ⟨clone_keeps_registered_once inbound req, fun hl => ?_, fun rc hl => ?_,
    inbound_after_registered_once, fun i h nid tgid htg => ?_⟩
  · simp only [clone_remote_thread, hl, __alloc_remote_context, Function.update_same, true_and,
      and_true]
    intro n hn
    simp [Function.update_noteq hn]
  · simp only [clone_remote_thread, hl, and_self]
  · exact Nat.le_trans ((List.eraseIdx_sublist inbound i).filter _).length_le (h nid tgid htg)

theorem inbound_registered_once_witness :
    registered_once (clone_remote_thread [] { origin_nid := 1, origin_tgid := 5 }).inbound ∧
      (clone_remote_thread (clone_remote_thread [] { origin_nid := 1, origin_tgid := 5 }).inbound
        { origin_nid := 1, origin_tgid := 5 }).inbound.length = 1 :=
  ⟨(inbound_registered_once [] { origin_nid := 1, origin_tgid := 5 }).1
      (fun _ _ _ => by simp), by decide⟩

/-- C20: `pcn_kmsg_register_callback(type, cb)` with `type < PCN_KMSG_TYPE_MAX`
returns 0 and makes `cb` the handler of that type, replacing the earlier one,
while the handler of every other type stays; with `type >= PCN_KMSG_TYPE_MAX` it
returns `-ENODEV` and the table is unchanged.  `pcn_kmsg_unregister_callback`
does the same with the handler cleared. -/
theorem pcn_kmsg_callback_spec (PCN_KMSG_TYPE_MAX : Nat) (callbacks : Nat → Nat)
    (type callback : Nat) :
    (type < PCN_KMSG_TYPE_MAX →
      (pcn_kmsg_register_callback PCN_KMSG_TYPE_MAX callbacks type callback).1 = 0 ∧
        (pcn_kmsg_register_callback PCN_KMSG_TYPE_MAX callbacks type callback).2 type =
          callback ∧
        ∀ t, t ≠ type →
          (pcn_kmsg_register_callback PCN_KMSG_TYPE_MAX callbacks type callback).2 t =
            callbacks t) ∧
    (PCN_KMSG_TYPE_MAX ≤ type →
      pcn_kmsg_register_callback PCN_KMSG_TYPE_MAX callbacks type callback =
        (-ENODEV, callbacks)) ∧
    (type < PCN_KMSG_TYPE_MAX →
      (pcn_kmsg_unregister_callback PCN_KMSG_TYPE_MAX callbacks type).1 = 0 ∧
        (pcn_kmsg_unregister_callback PCN_KMSG_TYPE_MAX callbacks type).2 type = 0 ∧
        ∀ t, t ≠ type →
          (pcn_kmsg_unregister_callback PCN_KMSG_TYPE_MAX callbacks type).2 t = callbacks t) ∧
    (PCN_KMSG_TYPE_MAX ≤ type →
      pcn_kmsg_unregister_callback PCN_KMSG_TYPE_MAX callbacks type = (-ENODEV, callbacks)) := by
  refine ⟨fun h => ?_, fun h => ?_, fun h => ?_, fun h => ?_⟩
  · have hn : ¬ type ≥ PCN_KMSG_TYPE_MAX := by omega
    simp only [pcn_kmsg_register_callback, hn, if_false, Function.update_same, true_and]
    intro t ht
    exact Function.update_noteq ht _ _
  · simp only [pcn_kmsg_register_callback, ge_iff_le, h, if_true]
  · have hn : ¬ type ≥ PCN_KMSG_TYPE_MAX := by omega
    simp only [pcn_kmsg_unregister_callback, hn, if_false, Function.update_same, true_and]
    intro t ht
    exact Function.update_noteq ht _ _
  · simp only [pcn_kmsg_unregister_callback, ge_iff_le, h, if_true]

theorem pcn_kmsg_callback_spec_witness :
    ((pcn_kmsg_register_callback 8 (fun t => t + 100) 3 77).1 = 0 ∧
        (pcn_kmsg_register_callback 8 (fun t => t + 100) 3 77).2 3 = 77 ∧
        ∀ t, t ≠ 3 → (pcn_kmsg_register_callback 8 (fun t => t + 100) 3 77).2 t = t + 100) ∧
      pcn_kmsg_register_callback 8 (fun t => t + 100) 8 77 = (-ENODEV, fun t => t + 100) ∧
      ((pcn_kmsg_unregister_callback 8 (fun t => t + 100) 3).1 = 0 ∧
        (pcn_kmsg_unregister_callback 8 (fun t => t + 100) 3).2 3 = 0 ∧
        ∀ t, t ≠ 3 → (pcn_kmsg_unregister_callback 8 (fun t => t + 100) 3).2 t = t + 100) ∧
      pcn_kmsg_unregister_callback 8 (fun t => t + 100) 9 = (-ENODEV, fun t => t + 100) :=
  ⟨(pcn_kmsg_callback_spec 8 (fun t => t + 100) 3 77).1 (by decide),
   (pcn_kmsg_callback_spec 8 (fun t => t + 100) 8 77).2.1 (by decide),
   (pcn_kmsg_callback_spec 8 (fun t => t + 100) 3 77).2.2.1 (by decide),
   (pcn_kmsg_callback_spec 8 (fun t => t + 100) 9 77).2.2.2 (by decide)⟩

/-- C24: when `__finish_fault_handling` removes a handle (its pending count was
1 and no completion is registered), the handle is freed if and only if its
retry-pending count is zero; when that count is non-zero the retry wait queue
is woken instead and the handle stays allocated after the call. -/
theorem finish_frees_unless_retry (P : Params) (s : State) (fh : Nat) (h : fault_handle)
    (hl : s.heap fh = some h) (hp : h.pendings = 1) (hc : h.complete = none) :
    ∃ s', __finish_fault_handling P s fh = some (true, s') ∧
      (s'.heap fh = none ↔ h.pendings_retry = 0) ∧
      (h.pendings_retry = 0 →
        s'.heap fh = none ∧
          s'.trace = s.trace ++ [Event.finish_fault_handling fh,
            Event.lock (Lock.faults_lock (__fault_hash_key P h.addr)),
            Event.unlock (Lock.faults_lock (__fault_hash_key P h.addr)),
            Event.kmem_cache_free fh]) ∧
      (h.pendings_retry ≠ 0 →
        s'.heap fh = some { h with pendings := 0 } ∧
          s'.trace = s.trace ++ [Event.finish_fault_handling fh,
            Event.lock (Lock.faults_lock (__fault_hash_key P h.addr)),
            Event.unlock (Lock.faults_lock (__fault_hash_key P h.addr)),
            Event.wake_up_all_waits_retry fh]) := by
  unfold __finish_fault_handling
  simp only [hl, hp, hc, sub_self, ne_eq, not_true_eq_false, if_false]
  by_cases hr : h.pendings_retry = 0
  · rw [if_neg (not_not.mpr hr)]
    refine ⟨_, rfl, ?_, fun _ => ⟨?_, ?_⟩, fun hn => absurd hr hn⟩
    · simp [hr]
    · simp
    · simp
  · rw [if_pos hr]
    refine ⟨_, rfl, ?_, fun h0 => absurd h0 hr, fun _ => ⟨?_, ?_⟩⟩
    · simp [hr]
    · simp [hp]
    · simp

theorem finish_frees_unless_retry_witness :
    ∃ s', __finish_fault_handling P1 st_requester_inflight 1 = some (true, s') ∧
      s'.heap 1 = none ∧
      s'.trace = [Event.finish_fault_handling 1, Event.lock (Lock.faults_lock 2),
        Event.unlock (Lock.faults_lock 2), Event.kmem_cache_free 1] := by
  obtain ⟨s', h1, _, h3, _⟩ := finish_frees_unless_retry P1 st_requester_inflight 1
    handle_0x2000 rfl rfl rfl
  exact ⟨s', h1, (h3 rfl).1, (h3 rfl).2⟩

/-- C30: the two branches assumed impossible are unreachable.  The three cases
tested in `prefetch_at_origin` cover every value of `found` and of
`page_is_mine`, so the final `BUG()` is never reached; and `set_page_owner` is
only called (in `__make_pte_valid` and twice in the hand-off of the owner) after
`SetPageDistributed` has allocated the region of the same address, so its region
lookup never returns null there and neither block fails. -/
theorem assumed_impossible_unreachable (P : Params) (s : State) (addr : Nat) :
    (∀ found mine, (prefetch_at_origin_decide found mine).isSome = true) ∧
    ((SetPageDistributed P s addr).pages (__get_page_info_key P addr).1).isSome = true ∧
    (∀ nid, (__get_page_info P (SetPageDistributed P s addr) addr).isSome = true ∧
      (set_page_owner P nid (SetPageDistributed P s addr) addr).isSome = true) ∧
    (∀ nid s1, set_page_owner P nid (SetPageDistributed P s addr) addr = some s1 →
      ∀ pte, (set_page_owner P P.my_nid (ptep_clear_flush P s1 addr pte).2 addr).isSome = true) ∧
    (∀ from_nid pte, (prefetch_at_origin_leader P from_nid addr pte s).isSome = true) ∧
    (∀ fault_flags old, (__make_pte_valid P s addr fault_flags old).isSome = true) := by
  have hreg := SetPageDistributed_region P s addr
  refine ⟨?_, hreg, fun nid => ⟨?_, set_page_owner_isSome P nid _ addr hreg⟩, ?_, ?_, ?_⟩
  · intro found mine
    cases found <;> cases mine <;> rfl
  · unfold __get_page_info
    cases hp : (SetPageDistributed P s addr).pages (__get_page_info_key P addr).1 with
    | none => rw [hp] at hreg; simp at hreg
    | some r => simp [hp]
  · intro nid s1 h1 pte
    apply set_page_owner_isSome
    rw [set_page_owner_eq P nid _ s1 addr h1]
    simp [ptep_clear_flush]
  · intro from_nid pte
    obtain ⟨r, hr, _⟩ := leader_spec P from_nid addr pte s
    rw [hr]; rfl
  · intro fault_flags old
    exact make_pte_valid_isSome P s addr fault_flags old

theorem assumed_impossible_unreachable_witness :
    ∃ s1, set_page_owner P0 1 (SetPageDistributed P0 st_owner 0x2000) 0x2000 = some s1 ∧
      (set_page_owner P0 P0.my_nid (ptep_clear_flush P0 s1 0x2000 pte_zero).2 0x2000).isSome =
        true :=
  ⟨_, (Option.some_get (by decide)).symm,
    (assumed_impossible_unreachable P0 st_owner 0x2000).2.2.2.1 1 _
      (Option.some_get (by decide)).symm pte_zero⟩

/-- C25: `set_page_owner(nid, addr)`, which succeeds whenever the region of the
address is allocated, sets bit `nid` of the bitmap of that page and changes no
other bit of the ownership index; for a node id other than 63 the distributed
flag of every page is as before.  `SetPageDistributed(addr)` sets the
distributed flag of that page and changes no other bit, so the ownership bit of
every node (other than the reserved position 63) is as before for every page. -/
theorem ownership_bits_frame (P : Params) (s : State) (addr : Nat) :
    (∀ nid, (s.pages (__get_page_info_key P addr).1).isSome = true →
      (set_page_owner P nid s addr).isSome = true) ∧
    (∀ nid s', set_page_owner P nid s addr = some s' →
      page_owned_by P s' nid addr = true ∧
        (∀ k i, ¬ (k = (__get_page_info_key P addr).1 ∧
            i = BITS_PER_LONG * (__get_page_info_key P addr).2 + nid) →
          region_bit s' k i = region_bit s k i) ∧
        (nid < P.MAX_POPCORN_NODES → nid ≠ PI_FLAG_DISTRIBUTED →
          ∀ a, page_distributed P s' a = page_distributed P s a)) ∧
    page_distributed P (SetPageDistributed P s addr) addr = true ∧
    (∀ k i, ¬ (k = (__get_page_info_key P addr).1 ∧
        i = BITS_PER_LONG * (__get_page_info_key P addr).2 + PI_FLAG_DISTRIBUTED) →
      region_bit (SetPageDistributed P s addr) k i = region_bit s k i) ∧
    (∀ nid a, nid < P.MAX_POPCORN_NODES → nid ≠ PI_FLAG_DISTRIBUTED →
      page_owned_by P (SetPageDistributed P s addr) nid a = page_owned_by P s nid a) := by
  refine ⟨fun nid h => set_page_owner_isSome P nid s addr h, fun nid s' h => ⟨?_, ?_, ?_⟩,
    SetPageDistributed_bit P s addr, ?_, ?_⟩
  · exact set_page_owner_bit P nid s s' addr h
  · intro k i hne
    rw [set_page_owner_eq P nid s s' addr h, region_bit_set_iff]
    simp [hne]
  · intro hlt h63 a
    unfold page_distributed
    rw [page_info_bit_eq, page_info_bit_eq, set_page_owner_eq P nid s s' addr h,
      region_bit_set_iff]
    have := flag_not_node_bit P addr a nid hlt h63
    simp [this]
  · intro k i hne
    rw [SetPageDistributed_eq, region_bit_set_iff]
    simp [hne]
  · intro nid a hlt h63
    unfold page_owned_by
    rw [page_info_bit_eq, page_info_bit_eq, SetPageDistributed_eq, region_bit_set_iff]
    have := flag_not_node_bit P a addr nid hlt h63
    have h2 : ¬ (BITS_PER_LONG * (__get_page_info_key P a).2 + nid =
        BITS_PER_LONG * (__get_page_info_key P addr).2 + PI_FLAG_DISTRIBUTED) :=
      fun e => this e.symm
    simp [h2]

theorem ownership_bits_frame_witness :
    ∃ s', set_page_owner P1 1 st_requester 0x2000 = some s' ∧
      page_owned_by P1 s' 1 0x2000 = true ∧
      (∀ a, page_distributed P1 s' a = page_distributed P1 st_requester a) ∧
      page_owned_by P1 (SetPageDistributed P1 st_requester 0x4000) 1 0x2000 =
        page_owned_by P1 st_requester 1 0x2000 :=
  ⟨_, (Option.some_get (by decide)).symm,
    ((ownership_bits_frame P1 st_requester 0x2000).2.1 1 _
      (Option.some_get (by decide)).symm).1,
    ((ownership_bits_frame P1 st_requester 0x2000).2.1 1 _
      (Option.some_get (by decide)).symm).2.2 (by decide) (by decide),
    (ownership_bits_frame P1 st_requester 0x4000).2.2.2.2 1 0x2000 (by decide) (by decide)⟩

/-- C26: with at least one node and a page large enough for one per-page
bitmap, `__get_page_info_key` gives two addresses the same `(key, offset)` if
and only if they lie in the same page; the offset is a multiple of the number of
words per page and the bitmap of a page ends within its region page, so that
the bitmaps of two distinct pages of one region do not overlap; and the page
number is `key * PAGE_INFO_PER_REGION + offset / words-per-page`. -/
theorem get_page_info_key_spec (P : Params) (hn : 0 < P.MAX_POPCORN_NODES)
    (hfit : PER_PAGE_INFO_SIZE P ≤ PAGE_SIZE P) (a b : Nat) :
    (__get_page_info_key P a = __get_page_info_key P b ↔
      a >>> P.PAGE_SHIFT = b >>> P.PAGE_SHIFT) ∧
    (__get_page_info_key P a).2 % (PER_PAGE_INFO_SIZE P / SIZEOF_LONG) = 0 ∧
    (__get_page_info_key P a).2 + PER_PAGE_INFO_SIZE P / SIZEOF_LONG ≤
      PAGE_SIZE P / SIZEOF_LONG ∧
    ((__get_page_info_key P a).1 = (__get_page_info_key P b).1 →
      a >>> P.PAGE_SHIFT ≠ b >>> P.PAGE_SHIFT →
      (__get_page_info_key P a).2 + PER_PAGE_INFO_SIZE P / SIZEOF_LONG ≤
          (__get_page_info_key P b).2 ∨
        (__get_page_info_key P b).2 + PER_PAGE_INFO_SIZE P / SIZEOF_LONG ≤
          (__get_page_info_key P a).2) ∧
    a >>> P.PAGE_SHIFT =
      (__get_page_info_key P a).1 * PAGE_INFO_PER_REGION P +
        (__get_page_info_key P a).2 / (PER_PAGE_INFO_SIZE P / SIZEOF_LONG) := by
  obtain ⟨hw, hr, hrw⟩ := page_info_layout P hn hfit
  unfold __get_page_info_key
  simp only
  refine ⟨key_offset_inj _ _ _ _ hw, Nat.mul_mod_left _ _, ?_,
    fun hk hne => offsets_apart _ _ _ _ hk hne, ?_⟩
  · have h1 : (a >>> P.PAGE_SHIFT) % PAGE_INFO_PER_REGION P + 1 ≤ PAGE_INFO_PER_REGION P :=
      Nat.mod_lt _ hr
    have h2 := Nat.mul_le_mul_right (PER_PAGE_INFO_SIZE P / SIZEOF_LONG) h1
    rw [Nat.succ_mul] at h2
    exact Nat.le_trans h2 hrw
  · rw [Nat.mul_div_cancel _ hw, Nat.mul_comm]
    exact (Nat.div_add_mod _ _).symm

theorem get_page_info_key_spec_witness :
    (__get_page_info_key P0 0x2fff = __get_page_info_key P0 0x2000 ↔
      0x2fff >>> P0.PAGE_SHIFT = 0x2000 >>> P0.PAGE_SHIFT) ∧
      __get_page_info_key P0 0x203000 = (1, 3) ∧
      0x203000 >>> P0.PAGE_SHIFT =
        (__get_page_info_key P0 0x203000).1 * PAGE_INFO_PER_REGION P0 +
          (__get_page_info_key P0 0x203000).2 / (PER_PAGE_INFO_SIZE P0 / SIZEOF_LONG) :=
  ⟨(get_page_info_key_spec P0 (by decide) (by decide) 0x2fff 0x2000).1, by decide,
    (get_page_info_key_spec P0 (by decide) (by decide) 0x203000 0).2.2.2.2⟩

/-- C27: creating a fault handle and finishing it once is a round trip.  In a
fault table in which the object the cache hands out next is not linked,
`__alloc_fault_handle` followed by one `__finish_fault_handling` on the new
handle removes the handle again (the call returns true) and leaves every bucket
with the same handles in the same order, and the reference count of the context,
as they were before the allocation. -/
theorem alloc_finish_round_trip (P : Params) (s : State) (addr : Nat)
    (hfresh : ∀ fk, s.next_fh ∉ s.faults fk) :
    ∃ s', __finish_fault_handling P (__alloc_fault_handle P s addr).2
        (__alloc_fault_handle P s addr).1 = some (true, s') ∧
      s'.faults = s.faults ∧ s'.count = s.count := by
  have hheap : (__alloc_fault_handle P s addr).2.heap (__alloc_fault_handle P s addr).1 =
      some (fresh_handle s.current_pid addr) := by
    simp [__alloc_fault_handle, get_task_remote, fresh_handle]
  obtain ⟨s', hf, hfaults, _, _, hcount, _⟩ :=
    finish_last_eq P _ _ _ hheap rfl rfl
  refine ⟨s', hf, ?_, ?_⟩
  · funext fk
    rw [hfaults fk]
    by_cases hk : fk = __fault_hash_key P addr
    · subst hk
      simp [__alloc_fault_handle, get_task_remote]
    · simp only [__alloc_fault_handle, get_task_remote, Function.update_noteq hk]
      exact List.erase_of_not_mem (hfresh fk)
  · rw [hcount]
    simp [__alloc_fault_handle, get_task_remote]

theorem alloc_finish_round_trip_witness :
    ∃ s', __finish_fault_handling P1 (__alloc_fault_handle P1 st_requester_inflight 0x4000).2
        (__alloc_fault_handle P1 st_requester_inflight 0x4000).1 = some (true, s') ∧
      s'.faults = st_requester_inflight.faults ∧ s'.count = st_requester_inflight.count :=
  alloc_finish_round_trip P1 st_requester_inflight 0x4000 (by
    intro fk
    show (3 : Nat) ∉ (if fk = 2 then [1] else if fk = 3 then [2] else [])
    split
    · decide
    · split <;> decide)

/-- C21: for every input list that contains a zero sentinel,
`select_prefetch_pages` terminates and returns: run with the cursor explicit and
any fuel above the number of candidates before the sentinel, it stops at the
sentinel after one round at each of the cursors `0, 1, ...` of these candidates,
in order and once each (every branch of a round, each drop included, moves the
cursor to the next entry), and its result is that of running one round on each
candidate in turn followed by the frees.  The input list is freed exactly once
on every path, also when the first entry is the sentinel. -/
theorem select_drains_input (P : Params) (s : State) (l : List prefetch_body)
    (hz : ∃ z ∈ l, z.addr = 0) :
    (∃ r, select_prefetch_pages P s l = some r ∧
      r = (if candidates l = [] then (none, s.log (Event.kfree_prefetch_list true))
        else select_result (rounds_on_candidates P s l)) ∧
      (∀ fuel, (candidates l).length < fuel →
        select_prefetch_pages_run P s l fuel = some (List.range (candidates l).length, r)) ∧
      prefetch_list_frees r.2 true = prefetch_list_frees s true + 1) ∧
    ∀ addr list_ptr c,
      select_prefetch_pages_round P addr list_ptr c =
        (list_ptr + 1, select_prefetch_pages_step P addr c) := by
  refine ⟨?_, fun addr list_ptr c => select_round_eq P addr list_ptr c⟩
  obtain ⟨hsel, hrun⟩ := select_run_spec P s l hz
  refine ⟨_, hsel, rfl, fun fuel hf => ?_, select_frees_input P s l _ hsel⟩
  rw [hrun fuel hf, hsel]
  rfl

theorem select_drains_input_witness :
    (∃ r, select_prefetch_pages P1 st_requester cand_repeat = some r ∧
      (∀ fuel, 3 < fuel →
        select_prefetch_pages_run P1 st_requester cand_repeat fuel = some ([0, 1, 2], r)) ∧
      prefetch_list_frees r.2 true = prefetch_list_frees st_requester true + 1) ∧
    ∃ r, select_prefetch_pages P1 st_requester [{ addr := 0, fh := 0 }] = some r ∧
      select_prefetch_pages_run P1 st_requester [{ addr := 0, fh := 0 }] 1 = some ([], r) ∧
      prefetch_list_frees r.2 true = prefetch_list_frees st_requester true + 1 := by
  constructor
  · obtain ⟨r, h1, _, h3, h4⟩ :=
      (select_drains_input P1 st_requester cand_repeat ⟨{ addr := 0, fh := 0 }, by decide, rfl⟩).1
    exact ⟨r, h1, h3, h4⟩
  · obtain ⟨r, h1, _, h3, h4⟩ :=
      (select_drains_input P1 st_requester [{ addr := 0, fh := 0 }]
        ⟨{ addr := 0, fh := 0 }, List.mem_singleton_self _, rfl⟩).1
    exact ⟨r, h1, h3 1 (by decide), h4⟩

/-- C29, as stated, fails: for a fault in the third page from the top of the
address space the third candidate wraps around to the zero sentinel, and a
following `select_prefetch_pages` stops after two candidates. -/
theorem policy_writes_sentinel :
    fault_near_top < ULONG_RANGE ∧
      ((prefetch_policy P1 0 alloc_prefetch_list fault_near_top).2 2).addr = 0 ∧
      (candidates cand_near_top).length = 2 ∧
      (select_prefetch_pages_while P1 cand_near_top 11 0 []
        (st_requester, alloc_prefetch_list, 0)).map (fun r => r.1) = some [0, 1] := by
  decide

/-- C29 (amended): for a fault address below `2 ^ 64` and pages of at most
`2 ^ 60` bytes, candidate `i` written by `prefetch_policy` is the zero sentinel
exactly when `fault_addr + (i + 1) * PAGE_SIZE` is `2 ^ 64`.  When that holds for
no `i < 10`, none of the ten candidates is the sentinel, they are the first ten
candidates of the list, and, the eleventh slot being zero, a following
`select_prefetch_pages` runs a round on each of the ten. -/
theorem policy_sentinel_iff (P : Params) (pf_list : Nat → prefetch_body) (fault_addr : Nat)
    (hfa : fault_addr < ULONG_RANGE) (hs : P.PAGE_SHIFT ≤ 60) :
    (∀ i, i < 10 →
      (((prefetch_policy P 0 pf_list fault_addr).2 i).addr = 0 ↔
        fault_addr + (i + 1) * PAGE_SIZE P = ULONG_RANGE)) ∧
    ((∀ i, i < 10 → fault_addr + (i + 1) * PAGE_SIZE P ≠ ULONG_RANGE) →
      (∀ i, i < 10 → ((prefetch_policy P 0 pf_list fault_addr).2 i).addr ≠ 0) ∧
      (∀ n, 10 ≤ n →
        (List.range 10).map (prefetch_policy P 0 pf_list fault_addr).2 <+:
          candidates ((List.range n).map (prefetch_policy P 0 pf_list fault_addr).2)) ∧
      ∀ n, 10 < n → (pf_list 10).addr = 0 → ∀ c, ∃ c', ∀ fuel, 10 < fuel →
        select_prefetch_pages_while P
            ((List.range n).map (prefetch_policy P 0 pf_list fault_addr).2) fuel 0 [] c =
          some (List.range 10, c')) := by
  have hps : PAGE_SIZE P = 2 ^ P.PAGE_SHIFT := Nat.one_shiftLeft _
  have hle : PAGE_SIZE P ≤ 2 ^ 60 := by
    rw [hps]; exact Nat.pow_le_pow_right (by decide) hs
  have hpos : 0 < PAGE_SIZE P := by rw [hps]; exact Nat.two_pow_pos _
  have hiff : ∀ i, i < 10 →
      (((prefetch_policy P 0 pf_list fault_addr).2 i).addr = 0 ↔
        fault_addr + (i + 1) * PAGE_SIZE P = ULONG_RANGE) := by
    intro i hi
    rw [prefetch_policy_entry P pf_list fault_addr i hi]
    exact wrapped_zero_iff fault_addr (i + 1) (PAGE_SIZE P) hfa (by omega) (by omega) hle hpos
  refine ⟨hiff, fun hno => ?_⟩
  have hnz : ∀ i, i < 10 → ((prefetch_policy P 0 pf_list fault_addr).2 i).addr ≠ 0 :=
    fun i hi h0 => hno i hi ((hiff i hi).mp h0)
  refine ⟨hnz, fun n hn => ?_, fun n hn h10 c => ?_⟩
  · obtain ⟨rest, _, hc, _⟩ := candidates_range _ 10 n hn hnz
    rw [hc]
    exact List.prefix_append _ _
  · obtain ⟨rest, hsplit, hc, hhead⟩ := candidates_range _ 10 n (Nat.le_of_lt hn) hnz
    have h10' : ((prefetch_policy P 0 pf_list fault_addr).2 10).addr = 0 := by
      rw [prefetch_policy_rest P pf_list fault_addr 10 (Nat.le_refl _)]; exact h10
    have hrest : candidates rest = [] ∧
        (prefetch_policy P 0 pf_list fault_addr).2 10 ∈ rest := by
      cases rest with
      | nil => simp at hhead; omega
      | cons x xs =>
        have hx := hhead hn
        simp only [List.head?_cons, Option.some.injEq] at hx
        subst hx
        exact ⟨by rw [candidates_cons, if_pos h10'], List.mem_cons_self _ _⟩
    have hz : ∃ z ∈ (List.range n).map (prefetch_policy P 0 pf_list fault_addr).2,
        z.addr = 0 :=
      ⟨_, by rw [hsplit]; exact List.mem_append_right _ hrest.2, h10'⟩
    obtain ⟨c', _, hwhile⟩ := select_while_spec P _ _ [] rfl hz [] c
    refine ⟨c', fun fuel hf => ?_⟩
    have hlen : (candidates
        ((List.range n).map (prefetch_policy P 0 pf_list fault_addr).2)).length = 10 := by
      rw [hc, hrest.1]; simp
    have := hwhile fuel (by rw [hlen]; exact hf)
    rw [hlen] at this
    simpa [List.range_eq_range'] using this

theorem policy_sentinel_iff_witness :
    (∀ i, i < 10 → ((prefetch_policy P1 0 alloc_prefetch_list 0x1000).2 i).addr ≠ 0) ∧
      ∃ c', ∀ fuel, 10 < fuel →
        select_prefetch_pages_while P1
            ((List.range 11).map (prefetch_policy P1 0 alloc_prefetch_list 0x1000).2) fuel 0 []
            (st_requester, alloc_prefetch_list, 0) =
          some (List.range 10, c') :=
  ⟨((policy_sentinel_iff P1 alloc_prefetch_list 0x1000 (by decide) (by decide)).2
      (by decide)).1,
    ((policy_sentinel_iff P1 alloc_prefetch_list 0x1000 (by decide) (by decide)).2
      (by decide)).2.2 11 (by decide) rfl _⟩

/-- C23, as stated, fails at the requester: the response handler installs the
page at `0x2000` over the old frame, which sets the local ownership bit through
`__make_pte_valid`, and up to the label `out` it has acquired the page-table
lock only; the two writes of the index are made with no fault-table bucket lock
held. -/
theorem response_writes_index_without_bucket_lock :
    page_owned_by P1 st_requester_stale 1 0x2000 = false ∧
      (∃ b, process_remote_prefetch_response_body P1 st_requester_stale res_success = some b ∧
        page_owned_by P1 b.1 1 0x2000 = true ∧
        b.1.trace = [Event.lock (Lock.ptl 0x2000), Event.unlock (Lock.ptl 0x2000),
          Event.unlock (Lock.ptl 0x2000)]) ∧
      ∃ r, process_remote_prefetch_response_body_audit P1 st_requester_stale res_success =
          some r ∧
        r.2 = [Audit.ev (Event.lock (Lock.ptl 0x2000)),
          Audit.index_write 0x2000 PI_FLAG_DISTRIBUTED, Audit.index_write 0x2000 1,
          Audit.ev (Event.unlock (Lock.ptl 0x2000)), Audit.ev (Event.unlock (Lock.ptl 0x2000))] ∧
        writes_guarded (bucket_lock P1) [] r.2 = none :=
  ⟨by decide, ⟨_, (Option.some_get (by decide)).symm, by decide, by decide⟩,
    ⟨_, (Option.some_get (by decide)).symm, by decide, by decide⟩⟩

/-- C23 (amended): every write of the ownership index (`SetPageDistributed`,
`set_page_owner`) happens while the page-table lock of the address is held by
the writing path.  The audited `prefetch_at_origin` and the audited
`process_remote_prefetch_response` (and its body up to the label `out`) end in
the state of the plain ones, their audit logs hold exactly the events appended
to the trace, and replaying the logged writes on the index gives the index they
leave (unless the handler frees the context at its end), so every write is in
the log; at the owner every logged write is made with the page-table lock and
the bucket lock of its address held, at the requester with the page-table lock
of its address held. -/
theorem index_written_under_page_table_lock (P : Params) :
    (∀ (s : State) (req : remote_page_request_t),
      (prefetch_at_origin_audit P s req).map (fun r => r.1) = prefetch_at_origin P s req ∧
        ∀ r, prefetch_at_origin_audit P s req = some r →
          r.1.2.trace = s.trace ++ audit_events r.2 ∧
            audit_pages P r.2 s.pages = r.1.2.pages ∧
            writes_guarded (owner_locks P) [] r.2 = some []) ∧
    (∀ (s : State) (res : remote_prefetch_response_t),
      (process_remote_prefetch_response_body_audit P s res).map (fun r => r.1) =
          process_remote_prefetch_response_body P s res ∧
        ∀ r, process_remote_prefetch_response_body_audit P s res = some r →
          r.1.1.trace = s.trace ++ audit_events r.2 ∧
            audit_pages P r.2 s.pages = r.1.1.pages ∧
            writes_guarded page_table_lock [] r.2 = some []) ∧
    (∀ (s : State) (res : remote_prefetch_response_t),
      (process_remote_prefetch_response_audit P s res).map (fun r => r.1) =
          process_remote_prefetch_response P s res ∧
        ∀ r, process_remote_prefetch_response_audit P s res = some r →
          r.1.1.trace = s.trace ++ audit_events r.2 ∧
            (audit_pages P r.2 s.pages = r.1.1.pages ∨ r.1.1.rc_freed = true) ∧
            (writes_guarded page_table_lock [] r.2).isSome = true) :=
  ⟨fun s req => origin_audit_spec P s req, fun s res => body_audit_spec P s res,
    fun s res => response_audit_spec P s res⟩

theorem index_written_under_page_table_lock_witness :
    (∃ r, prefetch_at_origin_audit P0 st_owner req_two = some r ∧ r.1.1 = 0 ∧
      r.2.take 10 = [Audit.ev (Event.lock (Lock.ptl 0x2000)),
        Audit.ev (Event.lock (Lock.faults_lock 2)),
        Audit.ev (Event.unlock (Lock.ptl 0x2000)), Audit.ev (Event.lock (Lock.ptl 0x2000)),
        Audit.index_write 0x2000 PI_FLAG_DISTRIBUTED, Audit.index_write 0x2000 1,
        Audit.index_write 0x2000 0, Audit.ev (Event.unlock (Lock.ptl 0x2000)),
        Audit.ev (Event.unlock (Lock.faults_lock 2)),
        Audit.ev (Event.pcn_kmsg_post 1 res_granted res_size_t.remote_prefetch_response_t)] ∧
      audit_pages P0 r.2 st_owner.pages = r.1.2.pages ∧
      writes_guarded (owner_locks P0) [] r.2 = some []) ∧
    (∃ r, process_remote_prefetch_response_body_audit P1 st_requester_stale res_success =
        some r ∧
      audit_pages P1 r.2 st_requester_stale.pages = r.1.1.pages ∧
      writes_guarded page_table_lock [] r.2 = some []) ∧
    ∃ r, process_remote_prefetch_response_audit P1 st_requester_stale res_success = some r ∧
      r.2 = [Audit.ev (Event.lock (Lock.ptl 0x2000)),
        Audit.index_write 0x2000 PI_FLAG_DISTRIBUTED, Audit.index_write 0x2000 1,
        Audit.ev (Event.unlock (Lock.ptl 0x2000)), Audit.ev (Event.unlock (Lock.ptl 0x2000)),
        Audit.ev (Event.finish_fault_handling 1), Audit.ev (Event.lock (Lock.faults_lock 2)),
        Audit.ev (Event.unlock (Lock.faults_lock 2)), Audit.ev (Event.kmem_cache_free 1)] ∧
      (writes_guarded page_table_lock [] r.2).isSome = true :=
  ⟨⟨_, (Option.some_get (by decide)).symm, by decide, by decide,
      (((index_written_under_page_table_lock P0).1 st_owner req_two).2 _
        (Option.some_get (by decide)).symm).2⟩,
    ⟨_, (Option.some_get (by decide)).symm,
      (((index_written_under_page_table_lock P1).2.1 st_requester_stale res_success).2 _
        (Option.some_get (by decide)).symm).2⟩,
    ⟨_, (Option.some_get (by decide)).symm, by decide,
      (((index_written_under_page_table_lock P1).2.2 st_requester_stale res_success).2 _
        (Option.some_get (by decide)).symm).2.2⟩⟩

/-- C22 fails on the code: on node 1, selecting from the candidates `0x2000`,
`0x3000`, `0x2000` creates two fault handles and raises the reference count of
the context by five (one `get_task_remote(current)` per candidate whose
page-table lock is taken, besides the one of each new handle); on node 0,
`prefetch_at_origin` returns 0 having created no handle and leaves the count
raised by one. -/
theorem prefetch_leaks_context_reference :
    (∃ r, select_prefetch_pages P1 st_requester cand_repeat = some r ∧
      r.2.next_fh = st_requester.next_fh + 2 ∧ r.2.faults 2 = [1] ∧ r.2.faults 3 = [2] ∧
      r.2.count = st_requester.count + 5) ∧
    ∃ q, prefetch_at_origin P0 st_owner req_two = some q ∧ q.1 = 0 ∧
      q.2.next_fh = st_owner.next_fh ∧ q.2.faults 2 = [] ∧ q.2.faults 3 = [] ∧
      q.2.count = st_owner.count + 1 :=
  ⟨⟨_, (Option.some_get (by decide)).symm, by decide, by decide, by decide, by decide⟩,
    ⟨_, (Option.some_get (by decide)).symm, by decide, by decide, by decide, by decide,
      by decide⟩⟩

/-- C28 fails on the code: handling a SUCCESS response, the handler takes the
page-table lock of `0x2000` once and releases it twice (`spin_unlock(ptl)` and
then `pte_unmap_unlock(pte, ptl)`), so the second release is of a lock that is
not held. -/
theorem response_releases_unheld_lock :
    ∃ r, process_remote_prefetch_response P1 st_requester_inflight res_success = some r ∧
      r.1.trace = [Event.lock (Lock.ptl 0x2000), Event.unlock (Lock.ptl 0x2000),
        Event.unlock (Lock.ptl 0x2000), Event.finish_fault_handling 1,
        Event.lock (Lock.faults_lock 2), Event.unlock (Lock.faults_lock 2),
        Event.kmem_cache_free 1] ∧
      lock_discipline [] r.1.trace = none :=
  ⟨_, (Option.some_get (by decide)).symm, by decide, by decide⟩

end Popcorn
